import Mathlib

/-!
# Pengyou vocabulary backend: a shallow embedding

Verification development for `backend/backend_go`:

* `internal/validation/requests.go`  (request structs, `GetDefaultPagination`)
* `internal/service/db.go`           (the repository layer, SQL over SQLite)
* `internal/handlers/*.go`           (gin handlers)
* `internal/middleware/*.go`         (`ErrorHandler`, `RequestIDMiddleware`)

Go `int` / `int64` values are integers with explicit 64-bit two's-complement
wrap-around on every arithmetic operation.  The relational store is a record of
row lists and every SQL statement of `db.go` is written out with list
operations that follow the SQL semantics (joins multiply rows, `GROUP BY`
partitions them, aggregates fold over a group).
-/

namespace Pengyou

/-! ## Go machine integers -/

/-- Smallest Go `int` (64-bit platform). -/
def minInt : Int := -9223372036854775808

/-- Largest Go `int` (64-bit platform). -/
def maxInt : Int := 9223372036854775807

/-- Two's-complement wrap-around of a mathematical integer into the Go `int` range. -/
def wrapInt (x : Int) : Int :=
  (x + 9223372036854775808) % 18446744073709551616 - 9223372036854775808

/-- Go `a + b` on `int`. -/
def goAdd (a b : Int) : Int := wrapInt (a + b)

/-- Go `a - b` on `int`. -/
def goSub (a b : Int) : Int := wrapInt (a - b)

/-- Go `a * b` on `int`. -/
def goMul (a b : Int) : Int := wrapInt (a * b)

/-- Go `a / b` on `int`: truncation toward zero; `none` stands for the run-time
panic "integer divide by zero". -/
def goQuo (a b : Int) : Option Int :=
  if b = 0 then none else some (wrapInt (Int.tdiv a b))

/-! ## Go errors and `strconv` -/

/-- One failed check of `validator/v10`: the namespace of the field (struct name
and field name; the field name alone for a struct without a name), the field
name, and the tag that failed. -/
structure FieldError where
  Namespace : String
  Field : String
  Tag : String
  deriving DecidableEq, Repr

/-- The error values that occur in the backend.  `Errorf` is the result of
`fmt.Errorf("...: %v", err)`: it carries the formatted text only.  `wrapped` is
an error that keeps its cause for `Unwrap` (as `fmt.Errorf` with `%w` builds);
no function of the backend builds one, the error middleware accepts one. -/
inductive GoError
  | ErrNoRows
  | driver (msg : String)
  | Errorf (text : String)
  | NumError (msg : String)
  | decode (msg : String)
  | ValidationErrors (failed : List FieldError)
  | wrapped (text : String) (cause : GoError)
  deriving DecidableEq, Repr

deriving instance DecidableEq for Except

/-- The method `Error()` of an error value. -/
def GoError.Error : GoError → String
  | .ErrNoRows => "sql: no rows in result set"
  | .driver msg => msg
  | .Errorf text => text
  | .NumError msg => msg
  | .decode msg => msg
  | .ValidationErrors failed =>
      String.intercalate "\n" (failed.map fun f =>
        "Key: '" ++ f.Namespace ++ "' Error:Field validation for '" ++ f.Field ++
          "' failed on the '" ++ f.Tag ++ "' tag")
  | .wrapped text _ => text

namespace strconv

/-- The two causes a `*strconv.NumError` reports. -/
inductive Cause
  | ErrSyntax
  | ErrRange
  deriving DecidableEq, Repr

/-- Largest `uint64`. -/
def maxUint64 : Nat := 18446744073709551615

/-- The digit loop of `strconv.ParseUint(s, 10, 64)` with accumulator `n`: a byte
that is no decimal digit is a syntax error with value 0; a value that leaves
`uint64` is a range error with value `maxUint64`, reported at once. -/
def parseUintLoop : List Char → Nat → Nat × Option Cause
  | [], n => (n, none)
  | c :: cs, n =>
      if '0' ≤ c ∧ c ≤ '9' then
        if n ≥ maxUint64 / 10 + 1 then (maxUint64, some .ErrRange)
        else
          let n1 := n * 10 + (c.toNat - '0'.toNat)
          if n1 > maxUint64 then (maxUint64, some .ErrRange)
          else parseUintLoop cs n1
      else (0, some .ErrSyntax)

/-- The function `strconv.ParseUint(s, 10, 64)` on the bytes of `s`. -/
def ParseUint (s : List Char) : Nat × Option Cause :=
  match s with
  | [] => (0, some .ErrSyntax)
  | _ => parseUintLoop s 0

/-- The function `strconv.ParseInt(s, 10, 64)`: the value and the cause of the error, if any.
A range error comes with the nearest representable value. -/
def ParseInt (s : String) : Int × Option Cause :=
  match s.toList with
  | [] => (0, some .ErrSyntax)
  | c :: cs =>
      let neg := c = '-'
      let digits := if c = '+' ∨ c = '-' then cs else c :: cs
      match ParseUint digits with
      | (_, some .ErrSyntax) => (0, some .ErrSyntax)
      | (un, _) =>
          if ¬ neg ∧ un ≥ 9223372036854775808 then (9223372036854775807, some .ErrRange)
          else if neg ∧ un > 9223372036854775808 then (-9223372036854775808, some .ErrRange)
          else (if neg then -(un : Int) else (un : Int), none)

/-- The function `strconv.Atoi(s)`; on a 64-bit platform its fast path and `ParseInt(s, 10, 0)`
agree on every input. -/
def Atoi (s : String) : Int × Option Cause := ParseInt s

end strconv

/-! ## `internal/models/models.go` -/

namespace models

/-- A vocabulary word; `time.Time` values are seconds on the store's clock. -/
structure Word where
  ID : Int
  Japanese : String
  Romaji : String
  English : String
  Parts : String
  deriving DecidableEq, Repr

/-- A thematic group with its derived word count. -/
structure Group where
  ID : Int
  Name : String
  WordCount : Int
  deriving DecidableEq, Repr

/-- A learning session with its derived group name. -/
structure StudySession where
  ID : Int
  GroupID : Int
  CreatedAt : Int
  StudyActivityID : Int
  GroupName : String
  deriving DecidableEq, Repr

/-- A study activity. -/
structure StudyActivity where
  ID : Int
  StudySessionID : Int
  GroupID : Int
  CreatedAt : Int
  deriving DecidableEq, Repr

/-- One practice record of a word. -/
structure WordReviewItem where
  ID : Int
  WordID : Int
  StudySessionID : Int
  Correct : Bool
  CreatedAt : Int
  deriving DecidableEq, Repr

/-- A word with its review statistics (`Word` embedded). -/
structure WordWithStats extends Word where
  CorrectCount : Int
  WrongCount : Int
  deriving DecidableEq, Repr

end models

/-! ## The relational store -/

/-- A row of table `groups`. -/
structure GroupsRow where
  id : Int
  name : String
  deriving DecidableEq, Repr

/-- A row of the join table `words_groups`. -/
structure WordsGroupsRow where
  word_id : Int
  group_id : Int
  deriving DecidableEq, Repr

/-- A row of table `study_sessions`. -/
structure StudySessionsRow where
  id : Int
  group_id : Int
  created_at : Int
  study_activity_id : Int
  deriving DecidableEq, Repr

/-- Modelled from the spec: the schema (`db/migrations/*.sql`) is not among the
sources, so the tables are the six of spec §3 with the columns the statements
of `db.go` name; every table is the list of its rows in insertion order and no
column is NULL. -/
structure Store where
  words : List models.Word
  groups : List GroupsRow
  words_groups : List WordsGroupsRow
  study_sessions : List StudySessionsRow
  study_activities : List models.StudyActivity
  word_review_items : List models.WordReviewItem
  deriving DecidableEq, Repr

/-- The SQL statements `db.go` sends to the store, one name per statement. -/
inductive Stmt
  | countWords | selectWords | insertReview | insertSession
  | selectWord | selectWordGroups
  | countGroups | selectGroups | selectGroup
  | countGroupWords | selectGroupWords
  | countSessions | selectSessions | selectSession
  | countSessionWords | selectSessionWords
  | selectActivity | countActivitySessions | selectActivitySessions
  | selectLastSession | selectStudyProgress | selectQuickStats
  deriving DecidableEq, Repr

namespace sql

/-- The operator `l JOIN r ON cond`: every pair of rows satisfying the join condition. -/
def innerJoin {α β : Type} (l : List α) (r : List β) (cond : α → β → Bool) : List (α × β) :=
  l.flatMap fun a => (r.filter (cond a)).map fun b => (a, b)

/-- The operator `l LEFT JOIN r ON cond`: as `innerJoin`, and a left row without partner is
kept once with NULL (`none`) on the right. -/
def leftJoin {α β : Type} (l : List α) (r : List β) (cond : α → β → Bool) :
    List (α × Option β) :=
  l.flatMap fun a =>
    match r.filter (cond a) with
    | [] => [(a, none)]
    | b :: bs => (b :: bs).map fun x => (a, some x)

/-- The clause `GROUP BY key`: the rows partitioned by key, one non-empty group per distinct
key, groups in ascending key order (SQLite sorts by the grouping key), rows of a
group in their order of production. -/
def groupBy {α : Type} (key : α → Int) (rows : List α) : List (List α) :=
  (((rows.map key).dedup).insertionSort (· ≤ ·)).map fun k =>
    rows.filter fun r => decide (key r = k)

/-- The clause `ORDER BY key` (ascending); rows with equal keys keep their order. -/
def orderBy {α : Type} (key : α → Int) (rows : List α) : List α :=
  rows.insertionSort fun a b => key a ≤ key b

/-- The clause `ORDER BY key DESC`; rows with equal keys keep their order. -/
def orderByDesc {α : Type} (key : α → Int) (rows : List α) : List α :=
  rows.insertionSort fun a b => key b ≤ key a

/-- The clause `LIMIT limit OFFSET offset` as SQLite applies it: a negative offset is 0, a
negative limit is no limit. -/
def limitOffset {α : Type} (limit offset : Int) (rows : List α) : List α :=
  let rest := rows.drop offset.toNat
  if limit < 0 then rest else rest.take limit.toNat

/-- The SQL function `SUM(x)` over a group: NULL (`none`) when the group has no row. -/
def sum? {α : Type} (x : α → Int) (group : List α) : Option Int :=
  match group with
  | [] => none
  | r :: rs => some ((r :: rs).map x).sum

/-- The term `CASE WHEN wr.correct = flag THEN 1 ELSE 0 END` for a nullable review
column: a NULL review makes the comparison NULL, which takes the `ELSE` branch.
The Go `bool` is stored as 1 (`true`) or 0 (`false`). -/
def caseCorrectIs (flag : Bool) (wr : Option models.WordReviewItem) : Int :=
  match wr with
  | some item => if item.Correct = flag then 1 else 0
  | none => 0

/-- The SQL function `COALESCE(x, 0)`. -/
def coalesce0 (x : Option Int) : Int := x.getD 0

/-- The SQL function `COUNT(DISTINCT x)` over the non-NULL values `xs` of a group. -/
def countDistinct (xs : List Int) : Int := (xs.dedup.length : Int)

/-- The id SQLite assigns to a row inserted without one: one more than the
largest id in the table, 1 for an empty table. -/
def nextId (ids : List Int) : Int := ids.foldl max 0 + 1

/-- The statement `SELECT COUNT(*) FROM words`. -/
def countWords (s : Store) : Int := (s.words.length : Int)

/-- The list statement of `GetWords`:
`FROM words w LEFT JOIN word_review_items wr ON w.id = wr.word_id
 GROUP BY w.id ORDER BY w.id LIMIT ? OFFSET ?`. -/
def selectWords (s : Store) (limit offset : Int) : List models.WordWithStats :=
  let joined := leftJoin s.words s.word_review_items fun w wr => decide (w.ID = wr.WordID)
  let rows := (groupBy (fun r => r.1.ID) joined).filterMap fun g =>
    g.head?.map fun r =>
      ({ toWord := r.1,
         CorrectCount := coalesce0 (sum? (fun x => caseCorrectIs true x.2) g),
         WrongCount := coalesce0 (sum? (fun x => caseCorrectIs false x.2) g) } :
        models.WordWithStats)
  limitOffset limit offset (orderBy (fun w => w.ID) rows)

/-- The first statement of `GetWord`:
`FROM words w LEFT JOIN word_review_items wr ON w.id = wr.word_id
 WHERE w.id = ? GROUP BY w.id`. -/
def selectWord (s : Store) (id : Int) : List models.WordWithStats :=
  let joined := leftJoin s.words s.word_review_items fun w wr => decide (w.ID = wr.WordID)
  let filtered := joined.filter fun r => decide (r.1.ID = id)
  (groupBy (fun r => r.1.ID) filtered).filterMap fun g =>
    g.head?.map fun r =>
      ({ toWord := r.1,
         CorrectCount := coalesce0 (sum? (fun x => caseCorrectIs true x.2) g),
         WrongCount := coalesce0 (sum? (fun x => caseCorrectIs false x.2) g) } :
        models.WordWithStats)

/-- The second statement of `GetWord`:
`SELECT g.id, g.name FROM groups g JOIN words_groups wg ON g.id = wg.group_id
 WHERE wg.word_id = ?`. -/
def selectWordGroups (s : Store) (id : Int) : List models.Group :=
  ((innerJoin s.groups s.words_groups fun g wg => decide (g.id = wg.group_id)).filter
      fun r => decide (r.2.word_id = id)).map
    fun r => { ID := r.1.id, Name := r.1.name, WordCount := 0 }

/-- The statement `SELECT COUNT(*) FROM groups`. -/
def countGroups (s : Store) : Int := (s.groups.length : Int)

/-- The list statement of `GetGroups`:
`SELECT g.id, g.name, COUNT(DISTINCT wg.word_id)
 FROM groups g LEFT JOIN words_groups wg ON g.id = wg.group_id
 GROUP BY g.id ORDER BY g.id LIMIT ? OFFSET ?`. -/
def selectGroups (s : Store) (limit offset : Int) : List models.Group :=
  let joined := leftJoin s.groups s.words_groups fun g wg => decide (g.id = wg.group_id)
  let rows := (groupBy (fun r => r.1.id) joined).filterMap fun g =>
    g.head?.map fun r =>
      ({ ID := r.1.id, Name := r.1.name,
         WordCount := countDistinct (g.filterMap fun x => x.2.map fun wg => wg.word_id) } :
        models.Group)
  limitOffset limit offset (orderBy (fun g => g.ID) rows)

/-- The statement of `GetGroup`: as `selectGroups` with `WHERE g.id = ?`, without
`ORDER BY` and `LIMIT`. -/
def selectGroup (s : Store) (id : Int) : List models.Group :=
  let joined := leftJoin s.groups s.words_groups fun g wg => decide (g.id = wg.group_id)
  let filtered := joined.filter fun r => decide (r.1.id = id)
  (groupBy (fun r => r.1.id) filtered).filterMap fun g =>
    g.head?.map fun r =>
      ({ ID := r.1.id, Name := r.1.name,
         WordCount := countDistinct (g.filterMap fun x => x.2.map fun wg => wg.word_id) } :
        models.Group)

/-- The count statement of `GetGroupWords`:
`SELECT COUNT(DISTINCT w.id) FROM words w JOIN words_groups wg ON w.id = wg.word_id
 WHERE wg.group_id = ?`. -/
def countGroupWords (s : Store) (groupID : Int) : Int :=
  countDistinct
    (((innerJoin s.words s.words_groups fun w wg => decide (w.ID = wg.word_id)).filter
        fun r => decide (r.2.group_id = groupID)).map fun r => r.1.ID)

/-- The list statement of `GetGroupWords`:
`FROM words w JOIN words_groups wg ON w.id = wg.word_id
 LEFT JOIN word_review_items wr ON w.id = wr.word_id
 WHERE wg.group_id = ? GROUP BY w.id ORDER BY w.id LIMIT ? OFFSET ?`. -/
def selectGroupWords (s : Store) (groupID limit offset : Int) : List models.WordWithStats :=
  let joined :=
    leftJoin (innerJoin s.words s.words_groups fun w wg => decide (w.ID = wg.word_id))
      s.word_review_items fun r wr => decide (r.1.ID = wr.WordID)
  let filtered := joined.filter fun r => decide (r.1.2.group_id = groupID)
  let rows := (groupBy (fun r => r.1.1.ID) filtered).filterMap fun g =>
    g.head?.map fun r =>
      ({ toWord := r.1.1,
         CorrectCount := coalesce0 (sum? (fun x => caseCorrectIs true x.2) g),
         WrongCount := coalesce0 (sum? (fun x => caseCorrectIs false x.2) g) } :
        models.WordWithStats)
  limitOffset limit offset (orderBy (fun w => w.ID) rows)

/-- The statement `SELECT COUNT(*) FROM study_sessions`. -/
def countSessions (s : Store) : Int := (s.study_sessions.length : Int)

/-- The session row the three session statements select: the columns of `s`
and `g.name`; the column `COUNT(wr.id)` is scanned into a local and dropped. -/
def sessionOf (r : (StudySessionsRow × GroupsRow) × Option models.WordReviewItem) :
    models.StudySession :=
  { ID := r.1.1.id, GroupID := r.1.1.group_id, CreatedAt := r.1.1.created_at,
    StudyActivityID := r.1.1.study_activity_id, GroupName := r.1.2.name }

/-- The `FROM` clause shared by the session statements:
`study_sessions s JOIN groups g ON s.group_id = g.id
 LEFT JOIN word_review_items wr ON s.id = wr.study_session_id`. -/
def sessionsJoined (s : Store) :
    List ((StudySessionsRow × GroupsRow) × Option models.WordReviewItem) :=
  leftJoin (innerJoin s.study_sessions s.groups fun ss g => decide (ss.group_id = g.id))
    s.word_review_items fun r wr => decide (r.1.id = wr.StudySessionID)

/-- The list statement of `GetStudySessions`:
`... GROUP BY s.id ORDER BY s.created_at DESC LIMIT ? OFFSET ?`. -/
def selectSessions (s : Store) (limit offset : Int) : List models.StudySession :=
  let rows := (groupBy (fun r => r.1.1.id) (sessionsJoined s)).filterMap fun g =>
    g.head?.map sessionOf
  limitOffset limit offset (orderByDesc (fun x => x.CreatedAt) rows)

/-- The statement of `GetStudySession`: `... WHERE s.id = ? GROUP BY s.id`. -/
def selectSession (s : Store) (id : Int) : List models.StudySession :=
  let filtered := (sessionsJoined s).filter fun r => decide (r.1.1.id = id)
  (groupBy (fun r => r.1.1.id) filtered).filterMap fun g => g.head?.map sessionOf

/-- The count statement of `GetStudySessionWords`:
`SELECT COUNT(DISTINCT w.id) FROM words w
 JOIN word_review_items wr ON w.id = wr.word_id WHERE wr.study_session_id = ?`. -/
def countSessionWords (s : Store) (sessionID : Int) : Int :=
  countDistinct
    (((innerJoin s.words s.word_review_items fun w wr => decide (w.ID = wr.WordID)).filter
        fun r => decide (r.2.StudySessionID = sessionID)).map fun r => r.1.ID)

/-- A result row of the list statement of `GetStudySessionWords` before `Scan`:
the two sums have no `COALESCE`, `created_at` is the `ORDER BY` key. -/
structure SessionWordRow where
  word : models.Word
  correct_count : Option Int
  wrong_count : Option Int
  session_correct : Bool
  created_at : Int
  deriving DecidableEq, Repr

/-- The list statement of `GetStudySessionWords`:
`FROM words w
 JOIN word_review_items wr1 ON w.id = wr1.word_id AND wr1.study_session_id = ?
 LEFT JOIN word_review_items wr2 ON w.id = wr2.word_id
 GROUP BY w.id ORDER BY wr1.created_at LIMIT ? OFFSET ?`.
The bare columns `wr1.correct` and `wr1.created_at` are read from the first row
of the group. -/
def selectSessionWords (s : Store) (sessionID limit offset : Int) : List SessionWordRow :=
  let joined :=
    leftJoin
      (innerJoin s.words s.word_review_items fun w wr1 =>
        decide (w.ID = wr1.WordID) && decide (wr1.StudySessionID = sessionID))
      s.word_review_items fun r wr2 => decide (r.1.ID = wr2.WordID)
  let rows := (groupBy (fun r => r.1.1.ID) joined).filterMap fun g =>
    g.head?.map fun r =>
      ({ word := r.1.1,
         correct_count := sum? (fun x => caseCorrectIs true x.2) g,
         wrong_count := sum? (fun x => caseCorrectIs false x.2) g,
         session_correct := r.1.2.Correct,
         created_at := r.1.2.CreatedAt } : SessionWordRow)
  limitOffset limit offset (orderBy (fun x => x.created_at) rows)

/-- The statement of `GetStudyActivity`:
`SELECT id, study_session_id, group_id, created_at FROM study_activities WHERE id = ?`. -/
def selectActivity (s : Store) (id : Int) : List models.StudyActivity :=
  s.study_activities.filter fun a => decide (a.ID = id)

/-- The statement `SELECT COUNT(*) FROM study_sessions WHERE study_activity_id = ?`. -/
def countActivitySessions (s : Store) (activityID : Int) : Int :=
  ((s.study_sessions.filter fun x => decide (x.study_activity_id = activityID)).length : Int)

/-- The list statement of `GetStudyActivitySessions`:
`... WHERE s.study_activity_id = ? GROUP BY s.id ORDER BY s.created_at DESC
 LIMIT ? OFFSET ?`. -/
def selectActivitySessions (s : Store) (activityID limit offset : Int) :
    List models.StudySession :=
  let filtered := (sessionsJoined s).filter fun r => decide (r.1.1.study_activity_id = activityID)
  let rows := (groupBy (fun r => r.1.1.id) filtered).filterMap fun g => g.head?.map sessionOf
  limitOffset limit offset (orderByDesc (fun x => x.CreatedAt) rows)

/-- The row `INSERT INTO word_review_items (word_id, study_session_id, correct)
VALUES (?, ?, ?)` adds; id and `created_at` are filled in by the store. -/
def insertReview (s : Store) (wordID studySessionID : Int) (correct : Bool) (now : Int) :
    Store :=
  { s with word_review_items := s.word_review_items ++
      [{ ID := nextId (s.word_review_items.map fun r => r.ID), WordID := wordID,
         StudySessionID := studySessionID, Correct := correct, CreatedAt := now }] }

/-- The row `INSERT INTO study_sessions (group_id, study_activity_id) VALUES (?, ?)`
adds; it is also what `RETURNING id, group_id, created_at, study_activity_id` yields. -/
def newSession (s : Store) (groupID studyActivityID now : Int) : StudySessionsRow :=
  { id := nextId (s.study_sessions.map fun r => r.id), group_id := groupID,
    created_at := now, study_activity_id := studyActivityID }

/-- The store after the `INSERT` of `CreateStudySession`. -/
def insertSession (s : Store) (groupID studyActivityID now : Int) : Store :=
  { s with study_sessions := s.study_sessions ++ [newSession s groupID studyActivityID now] }

end sql

/-! ## `internal/validation/requests.go` -/

namespace validation

/-- The struct `PaginationRequest` (`form:"page" binding:"min=1"`,
`form:"page_size" binding:"min=1,max=100"`). -/
structure PaginationRequest where
  Page : Int
  PageSize : Int
  deriving DecidableEq, Repr

/-- The struct `CreateStudySessionRequest` (both fields `binding:"required,min=1"`). -/
structure CreateStudySessionRequest where
  GroupID : Int
  StudyActivityID : Int
  deriving DecidableEq, Repr

/-- The struct `AddWordReviewRequest` (`binding:"required"`). -/
structure AddWordReviewRequest where
  Correct : Bool
  deriving DecidableEq, Repr

/-- The function `GetDefaultPagination`: two independent `if` statements, then the pair. -/
def GetDefaultPagination (page pageSize : Int) : Int × Int :=
  let page := if page < 1 then 1 else page
  let pageSize := if pageSize < 1 ∨ pageSize > 100 then 100 else pageSize
  (page, pageSize)

end validation

/-! ## `internal/service/db.go` -/

/-- The handle `DBService`: the store behind the connection and what the
connection contributes to the outcome of a statement.

Modelled from the spec: the schema is not among the sources; per spec §3 a
session's `group_id` references `groups`, a review's `word_id` and
`study_session_id` reference `words` and `study_sessions`.  SQLite checks such
references only on a connection that has foreign-key enforcement switched on,
which `foreign_keys` records (`NewDBService` opens the file by its bare path and
sets no connection option).  `faults` lists the statements the driver fails,
with the driver's message; `now` is the store's clock for `created_at`. -/
structure DBService where
  store : Store
  foreign_keys : Bool
  faults : List (Stmt × String)
  now : Int
  deriving DecidableEq, Repr

namespace DBService

/-- The call `s.db.QueryRow(stmt, ...).Scan(...)`: the driver's error, `sql.ErrNoRows` for
an empty result, else the first row. -/
def QueryRow {α : Type} (s : DBService) (stmt : Stmt) (rows : List α) : Except GoError α :=
  match s.faults.lookup stmt with
  | some msg => .error (.driver msg)
  | none =>
      match rows with
      | [] => .error .ErrNoRows
      | r :: _ => .ok r

/-- The call `s.db.Query(stmt, ...)` and the `for rows.Next()` loop appending every row. -/
def Query {α : Type} (s : DBService) (stmt : Stmt) (rows : List α) :
    Except GoError (List α) :=
  match s.faults.lookup stmt with
  | some msg => .error (.driver msg)
  | none => .ok rows

/-- The call `fmt.Errorf(context + ": %v", err)`. -/
def Errorf (context : String) (err : GoError) : GoError :=
  .Errorf (context ++ ": " ++ err.Error)

/-- The method `GetWords`. -/
def GetWords (s : DBService) (page pageSize : Int) :
    Except GoError (List models.WordWithStats × Int) :=
  let offset := goMul (goSub page 1) pageSize
  match s.QueryRow .countWords [sql.countWords s.store] with
  | .error err => .error (Errorf "error counting words" err)
  | .ok totalItems =>
      match s.Query .selectWords (sql.selectWords s.store pageSize offset) with
      | .error err => .error (Errorf "error querying words" err)
      | .ok words => .ok (words, totalItems)

/-- The method `AddWordReview`: one `Exec` of the `INSERT`; the result is the handle with
the store after the statement. -/
def AddWordReview (s : DBService) (wordID studySessionID : Int) (correct : Bool) :
    Except GoError DBService :=
  match s.faults.lookup .insertReview with
  | some msg => .error (Errorf "error adding word review" (.driver msg))
  | none =>
      if s.foreign_keys ∧
          ¬ ((∃ w ∈ s.store.words, w.ID = wordID) ∧
             (∃ x ∈ s.store.study_sessions, x.id = studySessionID)) then
        .error (Errorf "error adding word review" (.driver "FOREIGN KEY constraint failed"))
      else
        .ok { s with store := sql.insertReview s.store wordID studySessionID correct s.now }

/-- The method `CreateStudySession`: one `QueryRow` of the `INSERT ... RETURNING`; the
result is the scanned session and the handle with the store after the statement. -/
def CreateStudySession (s : DBService) (groupID studyActivityID : Int) :
    Except GoError (models.StudySession × DBService) :=
  match s.faults.lookup .insertSession with
  | some msg => .error (Errorf "error creating study session" (.driver msg))
  | none =>
      if s.foreign_keys ∧ ¬ (∃ g ∈ s.store.groups, g.id = groupID) then
        .error (Errorf "error creating study session" (.driver "FOREIGN KEY constraint failed"))
      else
        let row := sql.newSession s.store groupID studyActivityID s.now
        .ok ({ ID := row.id, GroupID := row.group_id, CreatedAt := row.created_at,
               StudyActivityID := row.study_activity_id, GroupName := "" },
             { s with store := sql.insertSession s.store groupID studyActivityID s.now })

/-- The method `GetWord`: the statistics statement, then the groups statement whose rows are
collected and not used. -/
def GetWord (s : DBService) (id : Int) : Except GoError (Option models.WordWithStats) :=
  match s.QueryRow .selectWord (sql.selectWord s.store id) with
  | .error .ErrNoRows => .ok none
  | .error err => .error (Errorf "error getting word" err)
  | .ok word =>
      match s.Query .selectWordGroups (sql.selectWordGroups s.store id) with
      | .error err => .error (Errorf "error getting word groups" err)
      | .ok _ => .ok (some word)

/-- The method `GetGroups`. -/
def GetGroups (s : DBService) (page pageSize : Int) :
    Except GoError (List models.Group × Int) :=
  let offset := goMul (goSub page 1) pageSize
  match s.QueryRow .countGroups [sql.countGroups s.store] with
  | .error err => .error (Errorf "error counting groups" err)
  | .ok totalItems =>
      match s.Query .selectGroups (sql.selectGroups s.store pageSize offset) with
      | .error err => .error (Errorf "error querying groups" err)
      | .ok groups => .ok (groups, totalItems)

/-- The method `GetGroup`. -/
def GetGroup (s : DBService) (id : Int) : Except GoError (Option models.Group) :=
  match s.QueryRow .selectGroup (sql.selectGroup s.store id) with
  | .error .ErrNoRows => .ok none
  | .error err => .error (Errorf "error getting group" err)
  | .ok group => .ok (some group)

/-- The method `GetGroupWords`. -/
def GetGroupWords (s : DBService) (groupID page pageSize : Int) :
    Except GoError (List models.WordWithStats × Int) :=
  let offset := goMul (goSub page 1) pageSize
  match s.QueryRow .countGroupWords [sql.countGroupWords s.store groupID] with
  | .error err => .error (Errorf "error counting group words" err)
  | .ok totalItems =>
      match s.Query .selectGroupWords
          (sql.selectGroupWords s.store groupID pageSize offset) with
      | .error err => .error (Errorf "error querying group words" err)
      | .ok words => .ok (words, totalItems)

/-- The method `GetStudySessions`. -/
def GetStudySessions (s : DBService) (page pageSize : Int) :
    Except GoError (List models.StudySession × Int) :=
  let offset := goMul (goSub page 1) pageSize
  match s.QueryRow .countSessions [sql.countSessions s.store] with
  | .error err => .error (Errorf "error counting study sessions" err)
  | .ok totalItems =>
      match s.Query .selectSessions (sql.selectSessions s.store pageSize offset) with
      | .error err => .error (Errorf "error querying study sessions" err)
      | .ok sessions => .ok (sessions, totalItems)

/-- The method `GetStudySession`. -/
def GetStudySession (s : DBService) (id : Int) : Except GoError (Option models.StudySession) :=
  match s.QueryRow .selectSession (sql.selectSession s.store id) with
  | .error .ErrNoRows => .ok none
  | .error err => .error (Errorf "error getting study session" err)
  | .ok session => .ok (some session)

/-- The call `rows.Scan` of one row of the session-words statement into a `WordWithStats`
and a local `sessionCorrect`: a NULL sum cannot be stored in an `int`. -/
def scanSessionWord (r : sql.SessionWordRow) : Except GoError models.WordWithStats :=
  match r.correct_count, r.wrong_count with
  | some c, some w => .ok { toWord := r.word, CorrectCount := c, WrongCount := w }
  | _, _ => .error (.driver "sql: Scan error: converting NULL to int is unsupported")

/-- The `for rows.Next()` loop of `GetStudySessionWords`: scan and append, return
at the first row that does not scan. -/
def scanSessionWords : List sql.SessionWordRow → Except GoError (List models.WordWithStats)
  | [] => .ok []
  | r :: rs =>
      match scanSessionWord r with
      | .error err => .error (Errorf "error scanning word row" err)
      | .ok word =>
          match scanSessionWords rs with
          | .error err => .error err
          | .ok words => .ok (word :: words)

/-- The method `GetStudySessionWords`. -/
def GetStudySessionWords (s : DBService) (sessionID page pageSize : Int) :
    Except GoError (List models.WordWithStats × Int) :=
  let offset := goMul (goSub page 1) pageSize
  match s.QueryRow .countSessionWords [sql.countSessionWords s.store sessionID] with
  | .error err => .error (Errorf "error counting session words" err)
  | .ok totalItems =>
      match s.Query .selectSessionWords
          (sql.selectSessionWords s.store sessionID pageSize offset) with
      | .error err => .error (Errorf "error querying session words" err)
      | .ok rows =>
          match scanSessionWords rows with
          | .error err => .error err
          | .ok words => .ok (words, totalItems)

/-- The method `GetStudyActivity`. -/
def GetStudyActivity (s : DBService) (id : Int) : Except GoError (Option models.StudyActivity) :=
  match s.QueryRow .selectActivity (sql.selectActivity s.store id) with
  | .error .ErrNoRows => .ok none
  | .error err => .error (Errorf "error getting study activity" err)
  | .ok activity => .ok (some activity)

/-- The method `GetStudyActivitySessions`. -/
def GetStudyActivitySessions (s : DBService) (activityID page pageSize : Int) :
    Except GoError (List models.StudySession × Int) :=
  let offset := goMul (goSub page 1) pageSize
  match s.QueryRow .countActivitySessions [sql.countActivitySessions s.store activityID] with
  | .error err => .error (Errorf "error counting activity sessions" err)
  | .ok totalItems =>
      match s.Query .selectActivitySessions
          (sql.selectActivitySessions s.store activityID pageSize offset) with
      | .error err => .error (Errorf "error querying activity sessions" err)
      | .ok sessions => .ok (sessions, totalItems)

end DBService

/-! ## The gin request context, query binding and JSON binding -/

namespace gin

/-- A member value of the request's JSON object as the decoder meets it: `null`,
a boolean, a number written as an integer literal, or anything else (a number
with fraction or exponent, a string, an array, an object). -/
inductive JVal
  | null
  | bool (b : Bool)
  | int (n : Int)
  | other
  deriving DecidableEq, Repr

/-- What a handler reads from `*gin.Context`: the path parameters, the URL query
(a key may be present with an empty value) and the body: `none` when no JSON
object can be decoded from it, else its members under the names the decoder
matches to struct fields. -/
structure Context where
  params : List (String × String)
  query : List (String × String)
  body : Option (List (String × JVal))
  deriving DecidableEq, Repr

/-- The call `c.Param(key)`: the empty string when the route has no such parameter. -/
def Context.Param (c : Context) (key : String) : String :=
  (c.params.lookup key).getD ""

/-- The call `c.DefaultQuery(key, defaultValue)`: the default only when the key is absent. -/
def Context.DefaultQuery (c : Context) (key defaultValue : String) : String :=
  (c.query.lookup key).getD defaultValue

/-- The form binding of one `int` field: an absent key leaves the zero value, an
empty value is read as `"0"`, anything else goes through `strconv.ParseInt`. -/
def bindInt (c : Context) (key : String) : Except GoError Int :=
  match c.query.lookup key with
  | none => .ok 0
  | some v =>
      match strconv.ParseInt (if v = "" then "0" else v) with
      | (n, none) => .ok n
      | (_, some _) => .error (.NumError ("strconv.ParseInt: parsing \"" ++ v ++ "\""))

/-- The call `c.ShouldBindQuery(&pagination)` for `validation.PaginationRequest`: bind both
fields, then check the `binding` tags (`Page`: `min=1`; `PageSize`: `min=1`, then
`max=100`); the failed tags make a `validator.ValidationErrors`. -/
def ShouldBindQuery (c : Context) : Except GoError validation.PaginationRequest :=
  match bindInt c "page" with
  | .error err => .error err
  | .ok page =>
      match bindInt c "page_size" with
      | .error err => .error err
      | .ok pageSize =>
          let failed :=
            (if page < 1 then [⟨"PaginationRequest.Page", "Page", "min"⟩] else []) ++
            (if pageSize < 1 then [⟨"PaginationRequest.PageSize", "PageSize", "min"⟩]
             else if pageSize > 100 then [⟨"PaginationRequest.PageSize", "PageSize", "max"⟩] else [])
          match failed with
          | [] => .ok { Page := page, PageSize := pageSize }
          | f :: fs => .error (.ValidationErrors (f :: fs))

/-- The JSON decoding of one `int64` member: absent and `null` leave the zero
value; an integer literal must fit `int64`; anything else is a type error. -/
def decodeInt64 (members : List (String × JVal)) (key : String) : Except GoError Int :=
  match members.lookup key with
  | none => .ok 0
  | some .null => .ok 0
  | some (.int n) =>
      if minInt ≤ n ∧ n ≤ maxInt then .ok n
      else .error (.decode ("json: cannot unmarshal number into Go struct field ." ++ key))
  | some _ => .error (.decode ("json: cannot unmarshal into Go struct field ." ++ key))

/-- The JSON decoding of one `bool` member. -/
def decodeBool (members : List (String × JVal)) (key : String) : Except GoError Bool :=
  match members.lookup key with
  | none => .ok false
  | some .null => .ok false
  | some (.bool b) => .ok b
  | some _ => .error (.decode ("json: cannot unmarshal into Go struct field ." ++ key))

/-- The call `c.ShouldBindJSON(&request)` for `validation.CreateStudySessionRequest`: decode,
then check `required` (not the zero value) and `min=1` on each field. -/
def ShouldBindJSONCreateStudySession (c : Context) :
    Except GoError validation.CreateStudySessionRequest :=
  match c.body with
  | none => .error (.decode "invalid request")
  | some members =>
      match decodeInt64 members "group_id" with
      | .error err => .error err
      | .ok groupID =>
          match decodeInt64 members "study_activity_id" with
          | .error err => .error err
          | .ok activityID =>
              let failed :=
                (if groupID = 0 then [⟨"CreateStudySessionRequest.GroupID", "GroupID", "required"⟩]
                 else if groupID < 1 then [⟨"CreateStudySessionRequest.GroupID", "GroupID", "min"⟩]
                 else []) ++
                (if activityID = 0 then
                   [⟨"CreateStudySessionRequest.StudyActivityID", "StudyActivityID", "required"⟩]
                 else if activityID < 1 then
                   [⟨"CreateStudySessionRequest.StudyActivityID", "StudyActivityID", "min"⟩]
                 else [])
              match failed with
              | [] => .ok { GroupID := groupID, StudyActivityID := activityID }
              | f :: fs => .error (.ValidationErrors (f :: fs))

/-- The call `c.ShouldBindJSON(&review)` for the handler's local
`struct { Correct bool; binding:"required" }`: decode, then check `required`,
which a `bool` passes only when it is not the zero value `false`. -/
def ShouldBindJSONReview (c : Context) : Except GoError validation.AddWordReviewRequest :=
  match c.body with
  | none => .error (.decode "invalid request")
  | some members =>
      match decodeBool members "correct" with
      | .error err => .error err
      | .ok correct =>
          if correct = false then .error (.ValidationErrors [⟨"Correct", "Correct", "required"⟩])
          else .ok { Correct := correct }

end gin

/-! ## The pagination envelope -/

/-- The expression `(total + pageSize - 1) / pageSize` of the list handlers,
evaluated left to right on Go `int`s. -/
def totalPages (total pageSize : Int) : Option Int :=
  goQuo (goSub (goAdd total pageSize) 1) pageSize

/-! ## `internal/handlers` -/

namespace handlers

/-- The `items` member of a list response. -/
inductive Items
  | words (items : List models.WordWithStats)
  | groups (items : List models.Group)
  | sessions (items : List models.StudySession)
  deriving DecidableEq, Repr

/-- The JSON bodies the handlers write: `gin.H` with the single key `error`, the
list envelope `items` + `pagination`, a single entity, or the review receipt. -/
inductive Body
  | error (message : String)
  | list (items : Items) (current_page total_pages total_items items_per_page : Int)
  | word (w : models.WordWithStats)
  | group (g : models.Group)
  | session (x : models.StudySession)
  | activity (a : models.StudyActivity)
  | review (success : Bool) (word_id study_session_id : Int) (correct : Bool)
  deriving DecidableEq, Repr

/-- How a handler ends: it writes a response with `c.JSON(code, body)`, or
records an error with `c.Error(err)` and returns without writing, or the
goroutine panics before anything is written. -/
inductive Reply
  | JSON (code : Nat) (body : Body)
  | Error (err : GoError)
  | panic (message : String)
  deriving DecidableEq, Repr

/-- A call of a repository method with its actual arguments. -/
inductive Call
  | GetWords (page pageSize : Int)
  | GetWord (id : Int)
  | AddWordReview (wordID studySessionID : Int) (correct : Bool)
  | GetGroups (page pageSize : Int)
  | GetGroup (id : Int)
  | GetGroupWords (groupID page pageSize : Int)
  | GetStudySessions (page pageSize : Int)
  | GetStudySession (id : Int)
  | GetStudySessionWords (sessionID page pageSize : Int)
  | GetStudyActivity (id : Int)
  | GetStudyActivitySessions (activityID page pageSize : Int)
  | CreateStudySession (groupID studyActivityID : Int)
  deriving DecidableEq, Repr

/-- The effect of running a handler: its reply, the repository calls it made in
order, and the handle with the store it leaves behind. -/
structure Outcome where
  reply : Reply
  calls : List Call
  db : DBService
  deriving DecidableEq, Repr

/-- The `http.Status...` constants the handlers use. -/
def StatusOK : Nat := 200

/-- The constant `http.StatusCreated`. -/
def StatusCreated : Nat := 201

/-- The constant `http.StatusBadRequest`. -/
def StatusBadRequest : Nat := 400

/-- The constant `http.StatusNotFound`. -/
def StatusNotFound : Nat := 404

/-- The constant `http.StatusInternalServerError`. -/
def StatusInternalServerError : Nat := 500

/-- The tail shared by the six list handlers once the repository has answered:
500 with the error text (words and groups handlers) is decided by the caller;
here the envelope is built, and building it divides by `pageSize`. -/
def envelope (items : Items) (page pageSize total : Int) : Reply :=
  match totalPages total pageSize with
  | none => .panic "runtime error: integer divide by zero"
  | some pages => .JSON StatusOK (.list items page pages total pageSize)

/-- The handler `WordsHandler.GetWords`. -/
def WordsHandler.GetWords (db : DBService) (c : gin.Context) : Outcome :=
  let page := (strconv.Atoi (c.DefaultQuery "page" "1")).1
  let pageSize := (strconv.Atoi (c.DefaultQuery "page_size" "100")).1
  match db.GetWords page pageSize with
  | .error err =>
      ⟨.JSON StatusInternalServerError (.error err.Error), [.GetWords page pageSize], db⟩
  | .ok (words, total) =>
      ⟨envelope (.words words) page pageSize total, [.GetWords page pageSize], db⟩

/-- The handler `WordsHandler.GetWord`. -/
def WordsHandler.GetWord (db : DBService) (c : gin.Context) : Outcome :=
  match strconv.ParseInt (c.Param "id") with
  | (_, some _) => ⟨.JSON StatusBadRequest (.error "Invalid word ID"), [], db⟩
  | (id, none) =>
      match db.GetWord id with
      | .error err => ⟨.JSON StatusInternalServerError (.error err.Error), [.GetWord id], db⟩
      | .ok none => ⟨.JSON StatusNotFound (.error "Word not found"), [.GetWord id], db⟩
      | .ok (some word) => ⟨.JSON StatusOK (.word word), [.GetWord id], db⟩

/-- The handler `WordsHandler.AddWordReview`. -/
def WordsHandler.AddWordReview (db : DBService) (c : gin.Context) : Outcome :=
  match strconv.ParseInt (c.Param "word_id") with
  | (_, some _) => ⟨.JSON StatusBadRequest (.error "Invalid word ID"), [], db⟩
  | (wordID, none) =>
      match strconv.ParseInt (c.Param "id") with
      | (_, some _) => ⟨.JSON StatusBadRequest (.error "Invalid session ID"), [], db⟩
      | (sessionID, none) =>
          match gin.ShouldBindJSONReview c with
          | .error _ => ⟨.JSON StatusBadRequest (.error "Invalid request body"), [], db⟩
          | .ok review =>
              match db.AddWordReview wordID sessionID review.Correct with
              | .error err =>
                  ⟨.JSON StatusInternalServerError (.error err.Error),
                    [.AddWordReview wordID sessionID review.Correct], db⟩
              | .ok db1 =>
                  ⟨.JSON StatusOK (.review true wordID sessionID review.Correct),
                    [.AddWordReview wordID sessionID review.Correct], db1⟩

/-- The handler `GroupsHandler.GetGroups`. -/
def GroupsHandler.GetGroups (db : DBService) (c : gin.Context) : Outcome :=
  let page := (strconv.Atoi (c.DefaultQuery "page" "1")).1
  let pageSize := (strconv.Atoi (c.DefaultQuery "page_size" "100")).1
  match db.GetGroups page pageSize with
  | .error err =>
      ⟨.JSON StatusInternalServerError (.error err.Error), [.GetGroups page pageSize], db⟩
  | .ok (groups, total) =>
      ⟨envelope (.groups groups) page pageSize total, [.GetGroups page pageSize], db⟩

/-- The handler `GroupsHandler.GetGroup`. -/
def GroupsHandler.GetGroup (db : DBService) (c : gin.Context) : Outcome :=
  match strconv.ParseInt (c.Param "id") with
  | (_, some _) => ⟨.JSON StatusBadRequest (.error "Invalid group ID"), [], db⟩
  | (id, none) =>
      match db.GetGroup id with
      | .error err => ⟨.JSON StatusInternalServerError (.error err.Error), [.GetGroup id], db⟩
      | .ok none => ⟨.JSON StatusNotFound (.error "Group not found"), [.GetGroup id], db⟩
      | .ok (some group) => ⟨.JSON StatusOK (.group group), [.GetGroup id], db⟩

/-- The handler `GroupsHandler.GetGroupWords`. -/
def GroupsHandler.GetGroupWords (db : DBService) (c : gin.Context) : Outcome :=
  match strconv.ParseInt (c.Param "id") with
  | (_, some _) => ⟨.JSON StatusBadRequest (.error "Invalid group ID"), [], db⟩
  | (groupID, none) =>
      let page := (strconv.Atoi (c.DefaultQuery "page" "1")).1
      let pageSize := (strconv.Atoi (c.DefaultQuery "page_size" "100")).1
      match db.GetGroupWords groupID page pageSize with
      | .error err =>
          ⟨.JSON StatusInternalServerError (.error err.Error),
            [.GetGroupWords groupID page pageSize], db⟩
      | .ok (words, total) =>
          ⟨envelope (.words words) page pageSize total,
            [.GetGroupWords groupID page pageSize], db⟩

/-- The handler `StudyHandler.GetStudySessions`. -/
def StudyHandler.GetStudySessions (db : DBService) (c : gin.Context) : Outcome :=
  match gin.ShouldBindQuery c with
  | .error _ => ⟨.JSON StatusBadRequest (.error "Invalid pagination parameters"), [], db⟩
  | .ok pagination =>
      let page := (validation.GetDefaultPagination pagination.Page pagination.PageSize).1
      let pageSize := (validation.GetDefaultPagination pagination.Page pagination.PageSize).2
      match db.GetStudySessions page pageSize with
      | .error err => ⟨.Error err, [.GetStudySessions page pageSize], db⟩
      | .ok (sessions, total) =>
          ⟨envelope (.sessions sessions) page pageSize total,
            [.GetStudySessions page pageSize], db⟩

/-- The handler `StudyHandler.GetStudySession`. -/
def StudyHandler.GetStudySession (db : DBService) (c : gin.Context) : Outcome :=
  match strconv.ParseInt (c.Param "id") with
  | (_, some _) => ⟨.JSON StatusBadRequest (.error "Invalid session ID"), [], db⟩
  | (id, none) =>
      match db.GetStudySession id with
      | .error err => ⟨.Error err, [.GetStudySession id], db⟩
      | .ok none =>
          ⟨.JSON StatusNotFound (.error "Study session not found"), [.GetStudySession id], db⟩
      | .ok (some session) => ⟨.JSON StatusOK (.session session), [.GetStudySession id], db⟩

/-- The handler `StudyHandler.GetStudySessionWords`. -/
def StudyHandler.GetStudySessionWords (db : DBService) (c : gin.Context) : Outcome :=
  match strconv.ParseInt (c.Param "id") with
  | (_, some _) => ⟨.JSON StatusBadRequest (.error "Invalid session ID"), [], db⟩
  | (sessionID, none) =>
      match gin.ShouldBindQuery c with
      | .error _ => ⟨.JSON StatusBadRequest (.error "Invalid pagination parameters"), [], db⟩
      | .ok pagination =>
          let page := (validation.GetDefaultPagination pagination.Page pagination.PageSize).1
          let pageSize := (validation.GetDefaultPagination pagination.Page pagination.PageSize).2
          match db.GetStudySessionWords sessionID page pageSize with
          | .error err => ⟨.Error err, [.GetStudySessionWords sessionID page pageSize], db⟩
          | .ok (words, total) =>
              ⟨envelope (.words words) page pageSize total,
                [.GetStudySessionWords sessionID page pageSize], db⟩

/-- The handler `StudyHandler.GetStudyActivity`. -/
def StudyHandler.GetStudyActivity (db : DBService) (c : gin.Context) : Outcome :=
  match strconv.ParseInt (c.Param "id") with
  | (_, some _) => ⟨.JSON StatusBadRequest (.error "Invalid activity ID"), [], db⟩
  | (id, none) =>
      match db.GetStudyActivity id with
      | .error err => ⟨.Error err, [.GetStudyActivity id], db⟩
      | .ok none =>
          ⟨.JSON StatusNotFound (.error "Study activity not found"), [.GetStudyActivity id], db⟩
      | .ok (some activity) =>
          ⟨.JSON StatusOK (.activity activity), [.GetStudyActivity id], db⟩

/-- The handler `StudyHandler.GetStudyActivitySessions`. -/
def StudyHandler.GetStudyActivitySessions (db : DBService) (c : gin.Context) : Outcome :=
  match strconv.ParseInt (c.Param "id") with
  | (_, some _) => ⟨.JSON StatusBadRequest (.error "Invalid activity ID"), [], db⟩
  | (activityID, none) =>
      match gin.ShouldBindQuery c with
      | .error _ => ⟨.JSON StatusBadRequest (.error "Invalid pagination parameters"), [], db⟩
      | .ok pagination =>
          let page := (validation.GetDefaultPagination pagination.Page pagination.PageSize).1
          let pageSize := (validation.GetDefaultPagination pagination.Page pagination.PageSize).2
          match db.GetStudyActivitySessions activityID page pageSize with
          | .error err =>
              ⟨.Error err, [.GetStudyActivitySessions activityID page pageSize], db⟩
          | .ok (sessions, total) =>
              ⟨envelope (.sessions sessions) page pageSize total,
                [.GetStudyActivitySessions activityID page pageSize], db⟩

/-- The handler `StudyHandler.CreateStudySession`. -/
def StudyHandler.CreateStudySession (db : DBService) (c : gin.Context) : Outcome :=
  match gin.ShouldBindJSONCreateStudySession c with
  | .error _ => ⟨.JSON StatusBadRequest (.error "Invalid request body"), [], db⟩
  | .ok request =>
      match db.CreateStudySession request.GroupID request.StudyActivityID with
      | .error err =>
          ⟨.Error err, [.CreateStudySession request.GroupID request.StudyActivityID], db⟩
      | .ok (session, db1) =>
          ⟨.JSON StatusCreated (.session session),
            [.CreateStudySession request.GroupID request.StudyActivityID], db1⟩

end handlers

/-! ## Reference quantities of the specification -/

/-- The lifetime aggregate of a word as the specification words it: the number
of its review rows, across all sessions, whose `correct` flag is `flag`. -/
def lifetimeCount (s : Store) (wordID : Int) (flag : Bool) : Int :=
  ((s.word_review_items.filter fun r =>
      decide (r.WordID = wordID) && decide (r.Correct = flag)).length : Int)

namespace handlers

/-- The `page` and `pageSize` arguments of a call of a paginated repository
method; `none` for the other methods. -/
def Call.pagination : Call → Option (Int × Int)
  | .GetWords page pageSize => some (page, pageSize)
  | .GetGroups page pageSize => some (page, pageSize)
  | .GetGroupWords _ page pageSize => some (page, pageSize)
  | .GetStudySessions page pageSize => some (page, pageSize)
  | .GetStudySessionWords _ page pageSize => some (page, pageSize)
  | .GetStudyActivitySessions _ page pageSize => some (page, pageSize)
  | _ => none

/-- A store for examples: the scenario of spec §8 (group "Greetings" with two
words, one session) after word 1 was reviewed twice, both times correctly, in
session 1; the connection is the one `NewDBService` opens. -/
def exampleDB : DBService :=
  { store :=
      { words := [⟨1, "你好", "nihao", "hello", ""⟩, ⟨2, "谢谢", "xiexie", "thank you", ""⟩],
        groups := [⟨1, "Greetings"⟩],
        words_groups := [⟨1, 1⟩, ⟨2, 1⟩],
        study_sessions := [⟨1, 1, 10, 1⟩],
        study_activities := [⟨1, 1, 1, 5⟩],
        word_review_items := [⟨1, 1, 1, true, 11⟩, ⟨2, 1, 1, true, 12⟩] },
    foreign_keys := false,
    faults := [],
    now := 20 }

end handlers

/-! ## `float64` and REAL arithmetic -/

/-- A finite value of Go's `float64` and of the store's REAL (IEEE 754 binary64):
the number `mant * 2 ^ exp`.  Zero is `⟨0, 0⟩` (the two zeros are one value here);
every other value the operations below return has `2 ^ 52 ≤ |mant| < 2 ^ 53`.
The exponent range of binary64 is not represented: the operands of the backend
are 64-bit integers, their quotients and their products by 100, all of which lie
in the range of normal doubles, where no operation overflows or underflows. -/
structure Float64 where
  mant : Int
  exp : Int
  deriving DecidableEq, Repr

namespace Float64

/-- The number a `Float64` stands for. -/
def toRat (x : Float64) : ℚ := (x.mant : ℚ) * (2 : ℚ) ^ x.exp

/-- The position of the leading bit of `n` (0 for `n < 2`), by halving. -/
def log2Fuel : Nat → Nat → Nat
  | 0, _ => 0
  | fuel + 1, n => if n < 2 then 0 else log2Fuel fuel (n / 2) + 1

/-- The position of the leading bit of `n`: `2 ^ ilog2 n ≤ n < 2 ^ (ilog2 n + 1)`
for `n ≥ 1`. -/
def ilog2 (n : Nat) : Nat := log2Fuel n n

/-- The fraction `n / d` rounded to the nearest integer, a tie to the even one. -/
def roundHalfEven (n d : Nat) : Nat :=
  let q := n / d
  let r := n % d
  if 2 * r < d then q
  else if d < 2 * r then q + 1
  else if q % 2 = 0 then q else q + 1

/-- The IEEE 754 rounding (to nearest, ties to even) of the fraction `n / d`,
`d > 0`, to a double: the fraction is scaled by the power `2 ^ s` that brings it
into `[2 ^ 52, 2 ^ 53)`, rounded to an integer of 53 bits, and scaled back. -/
def round (n d : Nat) : Float64 :=
  if n = 0 then ⟨0, 0⟩
  else
    let s0 : Int := (ilog2 d : Int) + 53 - (ilog2 n : Int)
    let s : Int :=
      if 2 ^ 53 * (d * 2 ^ (-s0).toNat) ≤ n * 2 ^ s0.toNat then s0 - 1 else s0
    let m := roundHalfEven (n * 2 ^ s.toNat) (d * 2 ^ (-s).toNat)
    if m = 2 ^ 53 then ⟨2 ^ 52, 1 - s⟩ else ⟨(m : Int), -s⟩

/-- The value `x` or `-x`. -/
def withSign (neg : Bool) (x : Float64) : Float64 :=
  if neg then ⟨-x.mant, x.exp⟩ else x

/-- The conversion of a 64-bit integer to a double (C `(double)i`, Go
`float64(i)`): exact below `2 ^ 53`, rounded above. -/
def ofInt (n : Int) : Float64 := withSign (decide (n < 0)) (round n.natAbs 1)

/-- The IEEE 754 division `a / b` of doubles, `b` not zero: the exact quotient,
rounded. -/
def div (a b : Float64) : Float64 :=
  withSign (decide (a.mant < 0) != decide (b.mant < 0))
    (round (a.mant.natAbs * 2 ^ (a.exp - b.exp).toNat)
      (b.mant.natAbs * 2 ^ (b.exp - a.exp).toNat))

/-- The IEEE 754 multiplication `a * b` of doubles: the exact product, rounded. -/
def mul (a b : Float64) : Float64 :=
  withSign (decide (a.mant < 0) != decide (b.mant < 0))
    (round (a.mant.natAbs * b.mant.natAbs * 2 ^ (a.exp + b.exp).toNat)
      (2 ^ (-(a.exp + b.exp)).toNat))

end Float64

/-! ## Dashboard statistics (`models.go`, `db.go`) -/

namespace models

/-- Study progress statistics. -/
structure StudyProgress where
  TotalWordsStudied : Int
  TotalAvailableWords : Int
  deriving DecidableEq, Repr

/-- Dashboard statistics. -/
structure QuickStats where
  SuccessRate : Float64
  TotalStudySessions : Int
  TotalActiveGroups : Int
  StudyStreakDays : Int
  deriving DecidableEq, Repr

end models

namespace sql

/-- The statement of `GetLastStudySession`:
`FROM study_sessions s JOIN groups g ON s.group_id = g.id
 ORDER BY s.created_at DESC LIMIT 1`. -/
def selectLastSession (s : Store) : List models.StudySession :=
  let joined := innerJoin s.study_sessions s.groups fun ss g => decide (ss.group_id = g.id)
  (limitOffset 1 0 (orderByDesc (fun r => r.1.created_at) joined)).map fun r =>
    { ID := r.1.id, GroupID := r.1.group_id, CreatedAt := r.1.created_at,
      StudyActivityID := r.1.study_activity_id, GroupName := r.2.name }

/-- The statement of `GetStudyProgress`: the number of distinct `word_id` in
`word_review_items` and the number of rows of `words`. -/
def selectStudyProgress (s : Store) : models.StudyProgress :=
  { TotalWordsStudied := countDistinct (s.word_review_items.map fun r => r.WordID),
    TotalAvailableWords := (s.words.length : Int) }

/-- A numeric value of the store: an INTEGER or a REAL. -/
inductive Numeric
  | integer (n : Int)
  | real (x : Float64)
  deriving DecidableEq, Repr

/-- The SQL function `CAST(x AS FLOAT)` of an INTEGER. -/
def castFloat (x : Option Int) : Option Float64 := x.map Float64.ofInt

/-- The SQL function `NULLIF(x, 0)`. -/
def nullif0 (x : Int) : Option Int := if x = 0 then none else some x

/-- The SQL operator `/` with a REAL left operand and an INTEGER right operand: the
right operand is converted to REAL and the division is that of doubles; NULL when
an operand is NULL and, in SQLite, when the divisor is 0. -/
def divFloat (x : Option Float64) (y : Option Int) : Option Float64 :=
  match x, y with
  | some a, some b => if b = 0 then none else some (Float64.div a (Float64.ofInt b))
  | _, _ => none

/-- The SQL expression `x * 100` with a REAL `x`: 100 is converted to REAL and the
multiplication is that of doubles. -/
def mul100 (x : Option Float64) : Option Float64 :=
  x.map fun a => Float64.mul a (Float64.ofInt 100)

/-- The SQL function `COALESCE(x, y)`. -/
def coalesce {α : Type} (x y : Option α) : Option α :=
  match x with
  | some a => some a
  | none => y

/-- The number of seconds in a day. -/
def secondsPerDay : Int := 86400

/-- A result row of the statement of `GetQuickStats` before `Scan`. -/
structure QuickStatsRow where
  success_rate : Option Numeric
  total_sessions : Option Int
  active_groups : Option Int
  streak_days : Option Int
  deriving DecidableEq, Repr

/-- The statement of `GetQuickStats` at clock reading `now`.  `review_stats` is an
aggregate without `GROUP BY`: one row, `COUNT(*)` and the conditional `SUM`, which
is NULL over no rows.  `success_rate` is the REAL `CAST(..) / NULLIF(..) * 100`, or
the INTEGER 0 of `COALESCE` when that is NULL.  `datetime('now', '-30 days')` is 30 days before `now` and
`date(created_at)` is the day a time falls on. -/
def selectQuickStats (s : Store) (now : Int) : QuickStatsRow :=
  let total_reviews : Int := (s.word_review_items.length : Int)
  let correct_reviews : Option Int :=
    sum? (fun r => caseCorrectIs true (some r)) s.word_review_items
  let recent := s.study_sessions.filter fun x =>
    decide (x.created_at ≥ now - 30 * secondsPerDay)
  { success_rate :=
      coalesce
        ((mul100 (divFloat (castFloat correct_reviews) (nullif0 total_reviews))).map
          Numeric.real)
        (some (Numeric.integer 0)),
    total_sessions := some (s.study_sessions.length : Int),
    active_groups := some (countDistinct (recent.map fun x => x.group_id)),
    streak_days := some (countDistinct (recent.map fun x => x.created_at / secondsPerDay)) }

end sql

namespace DBService

/-- The method `GetLastStudySession`. -/
def GetLastStudySession (s : DBService) : Except GoError (Option models.StudySession) :=
  match s.QueryRow .selectLastSession (sql.selectLastSession s.store) with
  | .error .ErrNoRows => .ok none
  | .error err => .error (Errorf "error getting last study session" err)
  | .ok session => .ok (some session)

/-- The method `GetStudyProgress`. -/
def GetStudyProgress (s : DBService) : Except GoError models.StudyProgress :=
  match s.QueryRow .selectStudyProgress [sql.selectStudyProgress s.store] with
  | .error err => .error (Errorf "error getting study progress" err)
  | .ok progress => .ok progress

/-- The conversion `Scan` applies to a numeric column for a `*float64`: a REAL as it
is, an INTEGER converted to the nearest double. -/
def scanFloat64 : sql.Numeric → Float64
  | .integer n => Float64.ofInt n
  | .real x => x

/-- The call `Scan` of the quick-stats row into the four fields of `QuickStats`: a
NULL column cannot be stored in a `float64` or an `int`. -/
def scanQuickStats (r : sql.QuickStatsRow) : Except GoError models.QuickStats :=
  match r.success_rate, r.total_sessions, r.active_groups, r.streak_days with
  | some rate, some total, some active, some streak =>
      .ok { SuccessRate := scanFloat64 rate, TotalStudySessions := total,
            TotalActiveGroups := active, StudyStreakDays := streak }
  | _, _, _, _ => .error (.driver "sql: Scan error: converting NULL is unsupported")

/-- The method `GetQuickStats`. -/
def GetQuickStats (s : DBService) : Except GoError models.QuickStats :=
  match s.faults.lookup .selectQuickStats with
  | some msg => .error (Errorf "error getting quick stats" (.driver msg))
  | none =>
      match scanQuickStats (sql.selectQuickStats s.store s.now) with
      | .error err => .error (Errorf "error getting quick stats" err)
      | .ok stats => .ok stats

end DBService

/-! ## `internal/middleware` -/

namespace errors

/-- The call `errors.Is(err, sql.ErrNoRows)`: the sentinel itself or an error whose
`Unwrap` chain reaches it. -/
def IsErrNoRows : GoError → Bool
  | .ErrNoRows => true
  | .wrapped _ cause => IsErrNoRows cause
  | _ => false

/-- The call `errors.As(err, &validator.ValidationErrors{})`: an error of that type,
or one whose `Unwrap` chain reaches one. -/
def AsValidationErrors : GoError → Bool
  | .ValidationErrors _ => true
  | .wrapped _ cause => AsValidationErrors cause
  | _ => false

end errors

namespace middleware

/-- The struct `ErrorResponse`. -/
structure ErrorResponse where
  Status : Nat
  Message : String
  Details : String
  deriving DecidableEq, Repr

/-- The part of `ErrorHandler` after `c.Next()`, as a function of `c.Errors`:
`none` when the middleware writes nothing, else the `response` it passes to
`c.JSON(response.Status, response)` before `c.Abort()`. -/
def ErrorHandler (errs : List GoError) : Option ErrorResponse :=
  match errs.getLast? with
  | none => none
  | some err =>
      if errors.IsErrNoRows err then
        some { Status := handlers.StatusNotFound, Message := "Resource not found",
               Details := err.Error }
      else if errors.AsValidationErrors err then
        some { Status := handlers.StatusBadRequest, Message := "Validation error",
               Details := err.Error }
      else
        some { Status := handlers.StatusInternalServerError,
               Message := "Internal server error",
               Details := "An unexpected error occurred" }

/-- The errors a handler leaves in `c.Errors`: the one it recorded with
`c.Error(err)`, if it did. -/
def recorded : handlers.Reply → List GoError
  | .Error err => [err]
  | _ => []

/-- The Go conversion `string(i)` of an integer: the UTF-8 encoding of the code
point `i`, and of U+FFFD when `i` is no valid code point. -/
def goString (i : Int) : String :=
  if 0 ≤ i ∧ i ≤ 1114111 ∧ ¬ (55296 ≤ i ∧ i ≤ 57343) then
    String.singleton (Char.ofNat i.toNat)
  else "�"

/-- What `RequestIDMiddleware` attaches to a request: the value of the response
header `X-Request-ID` and the value stored in the context under `"RequestID"`. -/
structure RequestTag where
  header : String
  context : Int
  deriving DecidableEq, Repr

/-- The middleware `RequestIDMiddleware` at clock reading `unixNano`
(`time.Now().UnixNano()`). -/
def RequestIDMiddleware (unixNano : Int) : RequestTag :=
  let requestID := unixNano
  { header := goString requestID, context := requestID }

end middleware

/-! ## Reference notions of the specification (path parameters) -/

/-- The value of a string of decimal digits. -/
def decimalValue (digits : List Char) : Nat :=
  digits.foldl (fun n c => 10 * n + (c.toNat - '0'.toNat)) 0

/-- A base-10 representation of a 64-bit signed integer: an optional sign `+` or
`-`, then one or more decimal digits, denoting a value from `-2^63` to `2^63 - 1`. -/
def isBase10Int64 (s : String) : Bool :=
  match s.toList with
  | [] => false
  | c :: cs =>
      let digits := if c = '+' ∨ c = '-' then cs else c :: cs
      !digits.isEmpty && digits.all (fun d => decide ('0' ≤ d ∧ d ≤ '9')) &&
        (if c = '-' then decide (decimalValue digits ≤ 9223372036854775808)
         else decide (decimalValue digits ≤ 9223372036854775807))

/-- An error built by `fmt.Errorf` with `%v`: formatted text, no cause kept. -/
def GoError.isFormatted : GoError → Bool
  | .Errorf _ => true
  | _ => false

namespace handlers

/-- The example store after `POST /api/study_sessions` with the body
`{"group_id": 5, "study_activity_id": 1}` was served (201) on the example connection:
session 2 references the group 5, which is not stored. -/
def orphanDB : DBService :=
  { exampleDB with store := sql.insertSession exampleDB.store 5 1 exampleDB.now }

end handlers

namespace DBService

/-- The items of a call of `GetWords`, none for a call that returns an error. -/
def wordsOnPage (s : DBService) (page pageSize : Int) : List models.WordWithStats :=
  match s.GetWords page pageSize with
  | .ok (items, _) => items
  | .error _ => []

/-- The items of `GetWords(p, pageSize)` for `p = 1, 2, ..., pages`, concatenated. -/
def wordsOnPages (s : DBService) (pageSize : Int) (pages : Nat) : List models.WordWithStats :=
  (List.range pages).flatMap fun i => s.wordsOnPage ((i : Int) + 1) pageSize

end DBService

namespace sql

/-- The joined and filtered rows of the statement of `GetGroup` for one group id;
they are also the group of that id in the `GROUP BY` of the `GetGroups` statement. -/
def groupRows (s : Store) (id : Int) : List (GroupsRow × Option WordsGroupsRow) :=
  (leftJoin s.groups s.words_groups fun g wg => decide (g.id = wg.group_id)).filter
    fun r => decide (r.1.id = id)

/-- The result row `g.id, g.name, COUNT(DISTINCT wg.word_id)` of the groups
statements for a group `g` of joined rows with head `r`. -/
def groupRowOf (g : List (GroupsRow × Option WordsGroupsRow))
    (r : GroupsRow × Option WordsGroupsRow) : models.Group :=
  { ID := r.1.id, Name := r.1.name,
    WordCount := countDistinct (g.filterMap fun x => x.2.map fun wg => wg.word_id) }

end sql

/-! ## Arithmetic lemmas -/

theorem wrapInt_of_inRange (x : Int) (h₁ : minInt ≤ x) (h₂ : x ≤ maxInt) : wrapInt x = x := by
  unfold wrapInt
  unfold minInt at h₁
  unfold maxInt at h₂
  omega

theorem wrapInt_sub_one_wrapInt (x : Int) : wrapInt (wrapInt x - 1) = wrapInt (x - 1) := by
  unfold wrapInt
  omega

theorem ceil_div_eq (a b : Int) (hb : 0 < b) :
    Int.ceil ((a : ℚ) / (b : ℚ)) = (a + b - 1) / b := by
  have hbq : (0 : ℚ) < (b : ℚ) := by exact_mod_cast hb
  rw [Int.ceil_eq_iff]
  have h1 : b * ((a + b - 1) / b) ≤ a + b - 1 := Int.mul_ediv_self_le (ne_of_gt hb)
  have h2 : a + b - 1 < b * ((a + b - 1) / b) + b := Int.lt_mul_ediv_self_add hb
  set z := (a + b - 1) / b with hz
  constructor
  · rw [lt_div_iff₀ hbq]
    have : (z - 1) * b < a := by nlinarith
    exact_mod_cast this
  · rw [div_le_iff₀ hbq]
    have : a ≤ z * b := by nlinarith
    exact_mod_cast this

/-! ## Lemmas on the SQL operators -/

namespace sql

theorem leftJoin_nil {α β : Type} (r : List β) (cond : α → β → Bool) :
    leftJoin ([] : List α) r cond = [] := rfl

theorem leftJoin_cons {α β : Type} (a : α) (l : List α) (r : List β) (cond : α → β → Bool) :
    leftJoin (a :: l) r cond = leftJoin [a] r cond ++ leftJoin l r cond := by
  simp [leftJoin]

theorem fst_of_mem_leftJoin_single {α β : Type} (a : α) (r : List β) (cond : α → β → Bool)
    (x : α × Option β) (hx : x ∈ leftJoin [a] r cond) : x.1 = a := by
  simp only [leftJoin, List.flatMap_cons, List.flatMap_nil, List.append_nil] at hx
  split at hx
  · simp only [List.mem_singleton] at hx
    rw [hx]
  · simp only [List.mem_map] at hx
    obtain ⟨b, _, hb⟩ := hx
    rw [← hb]

theorem leftJoin_single_ne_nil {α β : Type} (a : α) (r : List β) (cond : α → β → Bool) :
    leftJoin [a] r cond ≠ [] := by
  simp only [leftJoin, List.flatMap_cons, List.flatMap_nil, List.append_nil]
  split <;> simp

/-- A `WHERE` on a column of the left table commutes with the left join. -/
theorem filter_leftJoin {α β : Type} (p : α → Bool) (l : List α) (r : List β)
    (cond : α → β → Bool) :
    (leftJoin l r cond).filter (fun x => p x.1) = leftJoin (l.filter p) r cond := by
  induction l with
  | nil => rfl
  | cons a l ih =>
      rw [leftJoin_cons, List.filter_append, ih]
      by_cases hp : p a = true
      · rw [List.filter_cons_of_pos hp, leftJoin_cons a (l.filter p)]
        congr 1
        apply List.filter_eq_self.mpr
        intro x hx
        rw [fst_of_mem_leftJoin_single a r cond x hx]
        exact hp
      · rw [List.filter_cons_of_neg hp]
        have : (leftJoin [a] r cond).filter (fun x => p x.1) = [] := by
          apply List.filter_eq_nil_iff.mpr
          intro x hx
          rw [fst_of_mem_leftJoin_single a r cond x hx]
          exact hp
        rw [this, List.nil_append]

/-- The left join sees the right table only through the partner rows of each
left row. -/
theorem leftJoin_congr {α β : Type} (l : List α) (r r' : List β) (cond : α → β → Bool)
    (h : ∀ a ∈ l, r.filter (cond a) = r'.filter (cond a)) :
    leftJoin l r cond = leftJoin l r' cond := by
  induction l with
  | nil => rfl
  | cons a l ih =>
      rw [leftJoin_cons, leftJoin_cons a l r']
      rw [ih (fun b hb => h b (List.mem_cons_of_mem a hb))]
      congr 1
      simp only [leftJoin, List.flatMap_cons, List.flatMap_nil, List.append_nil]
      rw [h a (List.mem_cons_self a l)]

theorem groupBy_nil {α : Type} (key : α → Int) : groupBy key ([] : List α) = [] := by
  simp [groupBy]

theorem dedup_eq_singleton (k : Int) (l : List Int) (hne : l ≠ []) (h : ∀ x ∈ l, x = k) :
    l.dedup = [k] := by
  induction l with
  | nil => exact absurd rfl hne
  | cons a l ih =>
      have ha : a = k := h a (List.mem_cons_self a l)
      subst ha
      by_cases hl : l = []
      · subst hl
        rfl
      · have hmem : a ∈ l := by
          obtain ⟨b, hb⟩ := List.exists_mem_of_ne_nil l hl
          have := h b (List.mem_cons_of_mem a hb)
          rw [← this]
          exact hb
        rw [List.dedup_cons_of_mem hmem]
        exact ih hl (fun x hx => h x (List.mem_cons_of_mem a hx))

/-- Rows that all carry the same key form one group. -/
theorem groupBy_const {α : Type} (key : α → Int) (k : Int) (rows : List α) (hne : rows ≠ [])
    (h : ∀ x ∈ rows, key x = k) : groupBy key rows = [rows] := by
  unfold groupBy
  have hd : (rows.map key).dedup = [k] := by
    apply dedup_eq_singleton
    · simpa using hne
    · intro x hx
      simp only [List.mem_map] at hx
      obtain ⟨y, hy, rfl⟩ := hx
      exact h y hy
  rw [hd]
  simp only [List.insertionSort, List.orderedInsert, List.map_cons, List.map_nil]
  congr 1
  apply List.filter_eq_self.mpr
  intro x hx
  simp [h x hx]

theorem sum?_of_ne_nil {α : Type} (x : α → Int) (g : List α) (hne : g ≠ []) :
    sum? x g = some (g.map x).sum := by
  cases g with
  | nil => exact absurd rfl hne
  | cons a l => rfl

theorem sum_flags_eq_length (flag : Bool) (l : List models.WordReviewItem) :
    (l.map fun i => caseCorrectIs flag (some i)).sum =
      ((l.filter fun i => decide (i.Correct = flag)).length : Int) := by
  induction l with
  | nil => rfl
  | cons a l ih =>
      rw [List.map_cons, List.sum_cons, ih]
      by_cases h : a.Correct = flag
      · rw [List.filter_cons_of_pos (by simpa using h)]
        simp only [caseCorrectIs, h, if_true, List.length_cons]
        push_cast
        ring
      · rw [List.filter_cons_of_neg (by simpa using h)]
        simp only [caseCorrectIs, h, if_false, zero_add]

/-- The conditional sum over the joined rows of one word counts that word's
partner reviews carrying the flag. -/
theorem sum_case_leftJoin_single {α : Type} (flag : Bool) (a : α)
    (r : List models.WordReviewItem) (cond : α → models.WordReviewItem → Bool) :
    ((leftJoin [a] r cond).map fun x => caseCorrectIs flag x.2).sum =
      (((r.filter (cond a)).filter fun i => decide (i.Correct = flag)).length : Int) := by
  simp only [leftJoin, List.flatMap_cons, List.flatMap_nil, List.append_nil]
  cases hm : r.filter (cond a) with
  | nil => rfl
  | cons b bs =>
      simp only [List.map_map]
      exact sum_flags_eq_length flag (b :: bs)

theorem head?_leftJoin_single_fst {α β : Type} (a : α) (r : List β) (cond : α → β → Bool) :
    (leftJoin [a] r cond).head?.map (fun x => x.1) = some a := by
  simp only [leftJoin, List.flatMap_cons, List.flatMap_nil, List.append_nil]
  split <;> rfl

theorem filter_eq_singleton_of_nodup {α : Type} (f : α → Int) (l : List α) (w : α)
    (hpk : (l.map f).Nodup) (hw : w ∈ l) :
    l.filter (fun x => decide (f x = f w)) = [w] := by
  induction l with
  | nil => cases hw
  | cons a l ih =>
      rw [List.map_cons, List.nodup_cons] at hpk
      rcases List.mem_cons.mp hw with h | h
      · subst h
        rw [List.filter_cons_of_pos (by simp)]
        congr 1
        apply List.filter_eq_nil_iff.mpr
        intro x hx hfx
        apply hpk.1
        have : f x = f w := by simpa using hfx
        rw [← this]
        exact List.mem_map_of_mem f hx
      · have hne : f a ≠ f w := by
          intro e
          apply hpk.1
          rw [e]
          exact List.mem_map_of_mem f h
        rw [List.filter_cons_of_neg (by simpa using hne)]
        exact ih hpk.2 h

/-- The statistics statement of `GetWord` in closed form, for a stored word
whose id is unique in `words` (the primary key): one row, carrying the word and
its two lifetime counts. -/
theorem selectWord_eq (s : Store) (w : models.Word)
    (hpk : (s.words.map fun x => x.ID).Nodup) (hw : w ∈ s.words) :
    selectWord s w.ID =
      [{ toWord := w, CorrectCount := lifetimeCount s w.ID true,
         WrongCount := lifetimeCount s w.ID false }] := by
  unfold selectWord
  simp only []
  rw [filter_leftJoin (fun x : models.Word => decide (x.ID = w.ID)) s.words
    s.word_review_items (fun w wr => decide (w.ID = wr.WordID))]
  rw [filter_eq_singleton_of_nodup (fun x : models.Word => x.ID) s.words w hpk hw]
  set cond : models.Word → models.WordReviewItem → Bool :=
    fun w wr => decide (w.ID = wr.WordID) with hcond
  have hne := leftJoin_single_ne_nil w s.word_review_items cond
  rw [groupBy_const (fun r => r.1.ID) w.ID _ hne
    (fun x hx => by
      show x.1.ID = w.ID
      rw [fst_of_mem_leftJoin_single w _ cond x hx])]
  simp only [List.filterMap_cons, List.filterMap_nil]
  have hhead := head?_leftJoin_single_fst w s.word_review_items cond
  cases hh : (leftJoin [w] s.word_review_items cond).head? with
  | none => rw [hh] at hhead; cases hhead
  | some r =>
      rw [hh] at hhead
      simp only [Option.map_some', Option.some.injEq] at hhead
      simp only [Option.map_some']
      rw [sum?_of_ne_nil _ _ hne, sum?_of_ne_nil _ _ hne]
      rw [sum_case_leftJoin_single true, sum_case_leftJoin_single false]
      simp only [coalesce0, Option.getD_some, lifetimeCount, hhead, List.filter_filter, hcond]
      have key : ∀ flag : Bool,
          (fun a : models.WordReviewItem =>
            decide (a.Correct = flag) && decide (w.ID = a.WordID)) =
          (fun r => decide (r.WordID = w.ID) && decide (r.Correct = flag)) := by
        intro flag
        funext i
        rw [Bool.and_comm]
        congr 1
        simp only [eq_comm]
      rw [key true, key false]

/-- A word id that is not stored selects no row. -/
theorem selectWord_eq_nil (s : Store) (id : Int) (h : ∀ w ∈ s.words, w.ID ≠ id) :
    selectWord s id = [] := by
  unfold selectWord
  simp only []
  rw [filter_leftJoin (fun x : models.Word => decide (x.ID = id)) s.words
    s.word_review_items (fun w wr => decide (w.ID = wr.WordID))]
  have : s.words.filter (fun x => decide (x.ID = id)) = [] := by
    apply List.filter_eq_nil_iff.mpr
    intro x hx
    simpa using h x hx
  rw [this, leftJoin_nil, groupBy_nil]
  rfl

end sql

/-! ## Lemmas on binding and the handlers -/

theorem GetDefaultPagination_of_inRange (page pageSize : Int)
    (h1 : 1 ≤ page) (h2 : 1 ≤ pageSize) (h3 : pageSize ≤ 100) :
    validation.GetDefaultPagination page pageSize = (page, pageSize) := by
  unfold validation.GetDefaultPagination
  have e1 : ¬ page < 1 := by omega
  have e2 : ¬ (pageSize < 1 ∨ pageSize > 100) := by omega
  simp only [e1, e2, if_false]

namespace gin

/-- A pagination request that passes `ShouldBindQuery` holds the two bound
integers and they are in range. -/
theorem ShouldBindQuery_ok (c : Context) (pg : validation.PaginationRequest)
    (h : ShouldBindQuery c = .ok pg) :
    bindInt c "page" = .ok pg.Page ∧ bindInt c "page_size" = .ok pg.PageSize ∧
    1 ≤ pg.Page ∧ 1 ≤ pg.PageSize ∧ pg.PageSize ≤ 100 := by
  unfold ShouldBindQuery at h
  cases hp : bindInt c "page" with
  | error e => rw [hp] at h; cases h
  | ok page =>
      cases hs : bindInt c "page_size" with
      | error e => rw [hp, hs] at h; cases h
      | ok pageSize =>
          rw [hp, hs] at h
          simp only [] at h
          by_cases h1 : page < 1
          · simp [h1] at h
          · by_cases h2 : pageSize < 1
            · simp [h1, h2] at h
            · by_cases h3 : pageSize > 100
              · simp [h1, h2, h3] at h
              · simp only [h1, h2, h3, if_false, List.append_nil] at h
                injection h with h
                subst h
                refine ⟨rfl, rfl, ?_, ?_, ?_⟩ <;> simp only [] <;> omega

/-- Bound integers of which one is out of range do not pass `ShouldBindQuery`. -/
theorem ShouldBindQuery_outOfRange (c : Context) (p s : Int)
    (hp : bindInt c "page" = .ok p) (hs : bindInt c "page_size" = .ok s)
    (hbad : p < 1 ∨ s < 1 ∨ 100 < s) :
    ∃ err, ShouldBindQuery c = .error err := by
  cases h : ShouldBindQuery c with
  | error e => exact ⟨e, rfl⟩
  | ok pg =>
      obtain ⟨h1, h2, h3, h4, h5⟩ := ShouldBindQuery_ok c pg h
      rw [hp] at h1
      rw [hs] at h2
      injection h1 with h1
      injection h2 with h2
      omega

end gin

namespace handlers

/-- A 200 list reply built by `envelope` carries the page and page size it was
given, and the page count computed from them. -/
theorem envelope_eq_list (items i : Items) (page pageSize total cp tp ti ipp : Int)
    (h : envelope items page pageSize total = .JSON StatusOK (.list i cp tp ti ipp)) :
    cp = page ∧ ipp = pageSize ∧ ti = total ∧ totalPages total pageSize = some tp := by
  unfold envelope at h
  cases ht : totalPages total pageSize with
  | none => rw [ht] at h; cases h
  | some pages =>
      rw [ht] at h
      simp only [Reply.JSON.injEq, Body.list.injEq, true_and] at h
      obtain ⟨_, h1, h2, h3, h4⟩ := h
      exact ⟨h1.symm, h4.symm, h3.symm, by rw [h2]⟩

/-- What `StudyHandler.GetStudySessions` does with the result of the query binding. -/
theorem GetStudySessions_outcome (db : DBService) (c : gin.Context) :
    (∀ e, gin.ShouldBindQuery c = .error e →
      StudyHandler.GetStudySessions db c =
        ⟨.JSON StatusBadRequest (.error "Invalid pagination parameters"), [], db⟩) ∧
    (∀ pg, gin.ShouldBindQuery c = .ok pg →
      (StudyHandler.GetStudySessions db c).calls = [.GetStudySessions pg.Page pg.PageSize] ∧
      ∀ i cp tp ti ipp,
        (StudyHandler.GetStudySessions db c).reply = .JSON StatusOK (.list i cp tp ti ipp) →
        cp = pg.Page ∧ ipp = pg.PageSize ∧ totalPages ti ipp = some tp) := by
  constructor
  · intro e he
    unfold StudyHandler.GetStudySessions
    rw [he]
  · intro pg hpg
    obtain ⟨_, _, h1, h2, h3⟩ := gin.ShouldBindQuery_ok c pg hpg
    unfold StudyHandler.GetStudySessions
    rw [hpg]
    simp only [GetDefaultPagination_of_inRange _ _ h1 h2 h3]
    cases hr : db.GetStudySessions pg.Page pg.PageSize with
    | error err =>
        refine ⟨rfl, ?_⟩
        intro i cp tp ti ipp h
        cases h
    | ok r =>
        obtain ⟨sessions, total⟩ := r
        refine ⟨rfl, ?_⟩
        intro i cp tp ti ipp h
        obtain ⟨e1, e2, e3, e4⟩ := envelope_eq_list _ _ _ _ _ _ _ _ _ h
        subst e1 e2 e3
        exact ⟨rfl, rfl, e4⟩

/-- What `StudyHandler.GetStudySessionWords` does with the result of the query binding. -/
theorem GetStudySessionWords_outcome (db : DBService) (c : gin.Context) :
    (∀ e, gin.ShouldBindQuery c = .error e →
      ∃ msg, StudyHandler.GetStudySessionWords db c =
        ⟨.JSON StatusBadRequest (.error msg), [], db⟩) ∧
    (∀ pg, gin.ShouldBindQuery c = .ok pg →
      (∀ call ∈ (StudyHandler.GetStudySessionWords db c).calls,
        call.pagination = some (pg.Page, pg.PageSize)) ∧
      ∀ i cp tp ti ipp,
        (StudyHandler.GetStudySessionWords db c).reply = .JSON StatusOK (.list i cp tp ti ipp) →
        cp = pg.Page ∧ ipp = pg.PageSize ∧ totalPages ti ipp = some tp) := by
  constructor
  · intro e he
    unfold StudyHandler.GetStudySessionWords
    rcases hid : strconv.ParseInt (c.Param "id") with ⟨id, _ | cause⟩
    · simp only [he]
      exact ⟨_, rfl⟩
    · exact ⟨_, rfl⟩
  · intro pg hpg
    obtain ⟨_, _, h1, h2, h3⟩ := gin.ShouldBindQuery_ok c pg hpg
    unfold StudyHandler.GetStudySessionWords
    rcases hid : strconv.ParseInt (c.Param "id") with ⟨id, _ | cause⟩
    · simp only [hpg, GetDefaultPagination_of_inRange _ _ h1 h2 h3]
      cases hr : db.GetStudySessionWords id pg.Page pg.PageSize with
      | error err =>
          refine ⟨?_, ?_⟩
          · intro call hc
            simp only [List.mem_singleton] at hc
            subst hc
            rfl
          · intro i cp tp ti ipp h
            cases h
      | ok r =>
          obtain ⟨words, total⟩ := r
          refine ⟨?_, ?_⟩
          · intro call hc
            simp only [List.mem_singleton] at hc
            subst hc
            rfl
          · intro i cp tp ti ipp h
            obtain ⟨e1, e2, e3, e4⟩ := envelope_eq_list _ _ _ _ _ _ _ _ _ h
            subst e1 e2 e3
            exact ⟨rfl, rfl, e4⟩
    · refine ⟨?_, ?_⟩
      · intro call hc
        cases hc
      · intro i cp tp ti ipp h
        cases h

/-- What `StudyHandler.GetStudyActivitySessions` does with the result of the query
binding. -/
theorem GetStudyActivitySessions_outcome (db : DBService) (c : gin.Context) :
    (∀ e, gin.ShouldBindQuery c = .error e →
      ∃ msg, StudyHandler.GetStudyActivitySessions db c =
        ⟨.JSON StatusBadRequest (.error msg), [], db⟩) ∧
    (∀ pg, gin.ShouldBindQuery c = .ok pg →
      (∀ call ∈ (StudyHandler.GetStudyActivitySessions db c).calls,
        call.pagination = some (pg.Page, pg.PageSize)) ∧
      ∀ i cp tp ti ipp,
        (StudyHandler.GetStudyActivitySessions db c).reply =
          .JSON StatusOK (.list i cp tp ti ipp) →
        cp = pg.Page ∧ ipp = pg.PageSize ∧ totalPages ti ipp = some tp) := by
  constructor
  · intro e he
    unfold StudyHandler.GetStudyActivitySessions
    rcases hid : strconv.ParseInt (c.Param "id") with ⟨id, _ | cause⟩
    · simp only [he]
      exact ⟨_, rfl⟩
    · exact ⟨_, rfl⟩
  · intro pg hpg
    obtain ⟨_, _, h1, h2, h3⟩ := gin.ShouldBindQuery_ok c pg hpg
    unfold StudyHandler.GetStudyActivitySessions
    rcases hid : strconv.ParseInt (c.Param "id") with ⟨id, _ | cause⟩
    · simp only [hpg, GetDefaultPagination_of_inRange _ _ h1 h2 h3]
      cases hr : db.GetStudyActivitySessions id pg.Page pg.PageSize with
      | error err =>
          refine ⟨?_, ?_⟩
          · intro call hc
            simp only [List.mem_singleton] at hc
            subst hc
            rfl
          · intro i cp tp ti ipp h
            cases h
      | ok r =>
          obtain ⟨sessions, total⟩ := r
          refine ⟨?_, ?_⟩
          · intro call hc
            simp only [List.mem_singleton] at hc
            subst hc
            rfl
          · intro i cp tp ti ipp h
            obtain ⟨e1, e2, e3, e4⟩ := envelope_eq_list _ _ _ _ _ _ _ _ _ h
            subst e1 e2 e3
            exact ⟨rfl, rfl, e4⟩
    · refine ⟨?_, ?_⟩
      · intro call hc
        cases hc
      · intro i cp tp ti ipp h
        cases h

end handlers

namespace gin

/-- A query value that does not parse makes `ShouldBindQuery` fail. -/
theorem ShouldBindQuery_of_bindInt_error (c : Context) (e : GoError)
    (h : bindInt c "page" = .error e ∨ bindInt c "page_size" = .error e) :
    ∃ err, ShouldBindQuery c = .error err := by
  cases hq : ShouldBindQuery c with
  | error err => exact ⟨err, rfl⟩
  | ok pg =>
      obtain ⟨h1, h2, _⟩ := ShouldBindQuery_ok c pg hq
      rcases h with h | h
      · rw [h1] at h; cases h
      · rw [h2] at h; cases h

end gin

namespace sql

/-- Recording a review of one word leaves the statistics row of every other
word as it was. -/
theorem selectWord_insertReview_other (st : Store) (wordID sessionID : Int) (correct : Bool)
    (now v : Int) (hv : v ≠ wordID) :
    selectWord (insertReview st wordID sessionID correct now) v = selectWord st v := by
  unfold selectWord
  simp only []
  rw [filter_leftJoin (fun x : models.Word => decide (x.ID = v))
    (insertReview st wordID sessionID correct now).words
    (insertReview st wordID sessionID correct now).word_review_items
    (fun w wr => decide (w.ID = wr.WordID))]
  rw [filter_leftJoin (fun x : models.Word => decide (x.ID = v)) st.words
    st.word_review_items (fun w wr => decide (w.ID = wr.WordID))]
  have hwords : (insertReview st wordID sessionID correct now).words = st.words := rfl
  rw [hwords]
  congr 2
  apply leftJoin_congr
  intro a ha
  have hav : a.ID = v := by
    have := (List.mem_filter.mp ha).2
    simpa using this
  simp only [insertReview, List.filter_append]
  rw [List.filter_cons_of_neg (by simp only [hav, decide_eq_true_eq]; exact hv)]
  simp

/-- Recording a review of a word adds one to the lifetime count of its flag and
nothing to the other count. -/
theorem lifetimeCount_insertReview (st : Store) (wordID sessionID : Int) (correct : Bool)
    (now : Int) (flag : Bool) :
    lifetimeCount (insertReview st wordID sessionID correct now) wordID flag =
      lifetimeCount st wordID flag + (if correct = flag then 1 else 0) := by
  unfold lifetimeCount
  simp only [insertReview, List.filter_append, List.length_append]
  by_cases h : correct = flag
  · rw [List.filter_cons_of_pos (by simp [h])]
    simp [h]
  · rw [List.filter_cons_of_neg (by simp [h])]
    simp [h]

end sql

namespace DBService

/-- A successful `AddWordReview` returns the same connection over the store with
the one review row appended. -/
theorem AddWordReview_ok (s s1 : DBService) (wordID sessionID : Int) (correct : Bool)
    (h : s.AddWordReview wordID sessionID correct = .ok s1) :
    s1 = { s with store := sql.insertReview s.store wordID sessionID correct s.now } := by
  unfold AddWordReview at h
  split at h
  · cases h
  · split at h
    · cases h
    · injection h with h
      exact h.symm

/-- The method `GetWord` on a connection whose two statements run, for a stored
word with a unique id. -/
theorem GetWord_stored (s : DBService) (w : models.Word)
    (hpk : (s.store.words.map fun x => x.ID).Nodup) (hw : w ∈ s.store.words)
    (hf1 : s.faults.lookup .selectWord = none)
    (hf2 : s.faults.lookup .selectWordGroups = none) :
    s.GetWord w.ID =
      .ok (some { toWord := w, CorrectCount := lifetimeCount s.store w.ID true,
                  WrongCount := lifetimeCount s.store w.ID false }) := by
  unfold GetWord QueryRow Query
  rw [sql.selectWord_eq s.store w hpk hw]
  simp only [hf1, hf2]

end DBService

namespace errors

/-- An error chain ends in one error: one that reaches a `ValidationErrors` does
not reach `sql.ErrNoRows`. -/
theorem not_IsErrNoRows_of_AsValidationErrors (err : GoError)
    (h : AsValidationErrors err = true) : IsErrNoRows err = false := by
  induction err with
  | wrapped text cause ih =>
      simp only [AsValidationErrors] at h
      simp only [IsErrNoRows]
      exact ih h
  | ErrNoRows => simp [AsValidationErrors] at h
  | driver msg => rfl
  | Errorf text => rfl
  | NumError msg => rfl
  | decode msg => rfl
  | ValidationErrors failed => rfl

end errors

namespace DBService

theorem GetLastStudySession_error (s : DBService) (e : GoError)
    (h : s.GetLastStudySession = .error e) : e.isFormatted = true := by
  unfold GetLastStudySession at h
  repeat' split at h
  all_goals (cases h; try rfl)

theorem GetStudyProgress_error (s : DBService) (e : GoError)
    (h : s.GetStudyProgress = .error e) : e.isFormatted = true := by
  unfold GetStudyProgress at h
  repeat' split at h
  all_goals (cases h; try rfl)

theorem GetQuickStats_error (s : DBService) (e : GoError)
    (h : s.GetQuickStats = .error e) : e.isFormatted = true := by
  unfold GetQuickStats at h
  repeat' split at h
  all_goals (cases h; try rfl)

theorem GetWords_error (s : DBService) (page pageSize : Int) (e : GoError)
    (h : s.GetWords page pageSize = .error e) : e.isFormatted = true := by
  unfold GetWords at h
  simp only [] at h
  repeat' split at h
  all_goals (cases h; try rfl)

theorem AddWordReview_error (s : DBService) (wordID sessionID : Int) (correct : Bool)
    (e : GoError) (h : s.AddWordReview wordID sessionID correct = .error e) :
    e.isFormatted = true := by
  unfold AddWordReview at h
  repeat' split at h
  all_goals (cases h; try rfl)

theorem CreateStudySession_error (s : DBService) (groupID activityID : Int) (e : GoError)
    (h : s.CreateStudySession groupID activityID = .error e) : e.isFormatted = true := by
  unfold CreateStudySession at h
  repeat' split at h
  all_goals (cases h; try rfl)

theorem GetWord_error (s : DBService) (id : Int) (e : GoError)
    (h : s.GetWord id = .error e) : e.isFormatted = true := by
  unfold GetWord at h
  repeat' split at h
  all_goals (cases h; try rfl)

theorem GetGroups_error (s : DBService) (page pageSize : Int) (e : GoError)
    (h : s.GetGroups page pageSize = .error e) : e.isFormatted = true := by
  unfold GetGroups at h
  simp only [] at h
  repeat' split at h
  all_goals (cases h; try rfl)

theorem GetGroup_error (s : DBService) (id : Int) (e : GoError)
    (h : s.GetGroup id = .error e) : e.isFormatted = true := by
  unfold GetGroup at h
  repeat' split at h
  all_goals (cases h; try rfl)

theorem GetGroupWords_error (s : DBService) (groupID page pageSize : Int) (e : GoError)
    (h : s.GetGroupWords groupID page pageSize = .error e) : e.isFormatted = true := by
  unfold GetGroupWords at h
  simp only [] at h
  repeat' split at h
  all_goals (cases h; try rfl)

theorem GetStudySessions_error (s : DBService) (page pageSize : Int) (e : GoError)
    (h : s.GetStudySessions page pageSize = .error e) : e.isFormatted = true := by
  unfold GetStudySessions at h
  simp only [] at h
  repeat' split at h
  all_goals (cases h; try rfl)

theorem GetStudySession_error (s : DBService) (id : Int) (e : GoError)
    (h : s.GetStudySession id = .error e) : e.isFormatted = true := by
  unfold GetStudySession at h
  repeat' split at h
  all_goals (cases h; try rfl)

theorem scanSessionWords_error (rows : List sql.SessionWordRow) (e : GoError)
    (h : scanSessionWords rows = .error e) : e.isFormatted = true := by
  induction rows with
  | nil => cases h
  | cons r rs ih =>
      unfold scanSessionWords at h
      split at h
      · cases h; rfl
      · split at h
        · injection h with h
          subst h
          exact ih (by assumption)
        · cases h

theorem GetStudySessionWords_error (s : DBService) (sessionID page pageSize : Int)
    (e : GoError) (h : s.GetStudySessionWords sessionID page pageSize = .error e) :
    e.isFormatted = true := by
  unfold GetStudySessionWords at h
  simp only [] at h
  split at h
  · cases h; rfl
  · split at h
    · cases h; rfl
    · split at h
      · injection h with h
        subst h
        exact scanSessionWords_error _ _ (by assumption)
      · cases h

theorem GetStudyActivity_error (s : DBService) (id : Int) (e : GoError)
    (h : s.GetStudyActivity id = .error e) : e.isFormatted = true := by
  unfold GetStudyActivity at h
  repeat' split at h
  all_goals (cases h; try rfl)

theorem GetStudyActivitySessions_error (s : DBService) (activityID page pageSize : Int)
    (e : GoError) (h : s.GetStudyActivitySessions activityID page pageSize = .error e) :
    e.isFormatted = true := by
  unfold GetStudyActivitySessions at h
  simp only [] at h
  repeat' split at h
  all_goals (cases h; try rfl)

end DBService

namespace errors

/-- A formatted error reaches neither `sql.ErrNoRows` nor a `ValidationErrors`. -/
theorem not_Is_of_isFormatted (e : GoError) (h : e.isFormatted = true) :
    IsErrNoRows e = false ∧ AsValidationErrors e = false := by
  cases e <;> first | exact ⟨rfl, rfl⟩ | cases h

end errors

namespace handlers

theorem envelope_ne_Error (items : Items) (page pageSize total : Int) (e : GoError) :
    envelope items page pageSize total ≠ .Error e := by
  unfold envelope
  split <;> intro h <;> cases h

theorem GetStudySessions_recorded (db : DBService) (c : gin.Context) (e : GoError)
    (h : (StudyHandler.GetStudySessions db c).reply = .Error e) : e.isFormatted = true := by
  unfold StudyHandler.GetStudySessions at h
  split at h
  · cases h
  · simp only [] at h
    split at h
    · next err hr =>
        simp only [Reply.Error.injEq] at h
        subst h
        exact DBService.GetStudySessions_error _ _ _ _ hr
    · exact absurd h (envelope_ne_Error _ _ _ _ _)

theorem GetStudySession_recorded (db : DBService) (c : gin.Context) (e : GoError)
    (h : (StudyHandler.GetStudySession db c).reply = .Error e) : e.isFormatted = true := by
  unfold StudyHandler.GetStudySession at h
  split at h
  · cases h
  · split at h
    · next err hr =>
        simp only [Reply.Error.injEq] at h
        subst h
        exact DBService.GetStudySession_error _ _ _ hr
    · cases h
    · cases h

theorem GetStudySessionWords_recorded (db : DBService) (c : gin.Context) (e : GoError)
    (h : (StudyHandler.GetStudySessionWords db c).reply = .Error e) :
    e.isFormatted = true := by
  unfold StudyHandler.GetStudySessionWords at h
  split at h
  · cases h
  · split at h
    · cases h
    · simp only [] at h
      split at h
      · next err hr =>
          simp only [Reply.Error.injEq] at h
          subst h
          exact DBService.GetStudySessionWords_error _ _ _ _ _ hr
      · exact absurd h (envelope_ne_Error _ _ _ _ _)

theorem GetStudyActivity_recorded (db : DBService) (c : gin.Context) (e : GoError)
    (h : (StudyHandler.GetStudyActivity db c).reply = .Error e) : e.isFormatted = true := by
  unfold StudyHandler.GetStudyActivity at h
  split at h
  · cases h
  · split at h
    · next err hr =>
        simp only [Reply.Error.injEq] at h
        subst h
        exact DBService.GetStudyActivity_error _ _ _ hr
    · cases h
    · cases h

theorem GetStudyActivitySessions_recorded (db : DBService) (c : gin.Context) (e : GoError)
    (h : (StudyHandler.GetStudyActivitySessions db c).reply = .Error e) :
    e.isFormatted = true := by
  unfold StudyHandler.GetStudyActivitySessions at h
  split at h
  · cases h
  · split at h
    · cases h
    · simp only [] at h
      split at h
      · next err hr =>
          simp only [Reply.Error.injEq] at h
          subst h
          exact DBService.GetStudyActivitySessions_error _ _ _ _ _ hr
      · exact absurd h (envelope_ne_Error _ _ _ _ _)

theorem CreateStudySession_recorded (db : DBService) (c : gin.Context) (e : GoError)
    (h : (StudyHandler.CreateStudySession db c).reply = .Error e) : e.isFormatted = true := by
  unfold StudyHandler.CreateStudySession at h
  split at h
  · cases h
  · split at h
    · next err hr =>
        simp only [Reply.Error.injEq] at h
        subst h
        exact DBService.CreateStudySession_error _ _ _ _ hr
    · cases h

end handlers

namespace sql

/-- A non-negative `LIMIT` bounds the number of rows. -/
theorem length_limitOffset_le {α : Type} (limit offset : Int) (rows : List α)
    (h : 0 ≤ limit) : ((limitOffset limit offset rows).length : Int) ≤ limit := by
  unfold limitOffset
  simp only []
  rw [if_neg (by omega), List.length_take]
  omega

end sql

namespace DBService

theorem Query_ok {α : Type} (s : DBService) (stmt : Stmt) (rows r : List α)
    (h : s.Query stmt rows = .ok r) : r = rows := by
  unfold Query at h
  split at h
  · cases h
  · injection h with h
    exact h.symm

theorem scanSessionWords_length (rows : List sql.SessionWordRow)
    (words : List models.WordWithStats) (h : scanSessionWords rows = .ok words) :
    words.length = rows.length := by
  induction rows generalizing words with
  | nil =>
      unfold scanSessionWords at h
      injection h with h
      subst h
      rfl
  | cons r rs ih =>
      unfold scanSessionWords at h
      split at h
      · cases h
      · split at h
        · cases h
        · next ws hws =>
            injection h with h
            subst h
            rw [List.length_cons, List.length_cons, ih ws hws]

theorem GetWords_ok (s : DBService) (page pageSize : Int)
    (items : List models.WordWithStats) (total : Int)
    (h : s.GetWords page pageSize = .ok (items, total)) :
    items = sql.selectWords s.store pageSize (goMul (goSub page 1) pageSize) ∧
    total = sql.countWords s.store ∧ s.faults.lookup .countWords = none ∧
    s.faults.lookup .selectWords = none := by
  unfold GetWords QueryRow Query at h
  simp only [] at h
  cases h1 : s.faults.lookup .countWords with
  | some msg => rw [h1] at h; cases h
  | none =>
      cases h2 : s.faults.lookup .selectWords with
      | some msg => rw [h1, h2] at h; cases h
      | none =>
          rw [h1, h2] at h
          simp only [Except.ok.injEq, Prod.mk.injEq] at h
          exact ⟨h.1.symm, h.2.symm, rfl, rfl⟩

theorem GetGroups_ok (s : DBService) (page pageSize : Int)
    (items : List models.Group) (total : Int)
    (h : s.GetGroups page pageSize = .ok (items, total)) :
    items = sql.selectGroups s.store pageSize (goMul (goSub page 1) pageSize) ∧
    total = sql.countGroups s.store ∧ s.faults.lookup .countGroups = none ∧
    s.faults.lookup .selectGroups = none := by
  unfold GetGroups QueryRow Query at h
  simp only [] at h
  cases h1 : s.faults.lookup .countGroups with
  | some msg => rw [h1] at h; cases h
  | none =>
      cases h2 : s.faults.lookup .selectGroups with
      | some msg => rw [h1, h2] at h; cases h
      | none =>
          rw [h1, h2] at h
          simp only [Except.ok.injEq, Prod.mk.injEq] at h
          exact ⟨h.1.symm, h.2.symm, rfl, rfl⟩

theorem GetGroupWords_ok (s : DBService) (groupID page pageSize : Int)
    (items : List models.WordWithStats) (total : Int)
    (h : s.GetGroupWords groupID page pageSize = .ok (items, total)) :
    items = sql.selectGroupWords s.store groupID pageSize (goMul (goSub page 1) pageSize) ∧
    total = sql.countGroupWords s.store groupID := by
  unfold GetGroupWords QueryRow Query at h
  simp only [] at h
  cases h1 : s.faults.lookup .countGroupWords with
  | some msg => rw [h1] at h; cases h
  | none =>
      cases h2 : s.faults.lookup .selectGroupWords with
      | some msg => rw [h1, h2] at h; cases h
      | none =>
          rw [h1, h2] at h
          simp only [Except.ok.injEq, Prod.mk.injEq] at h
          exact ⟨h.1.symm, h.2.symm⟩

theorem GetStudySessions_ok (s : DBService) (page pageSize : Int)
    (items : List models.StudySession) (total : Int)
    (h : s.GetStudySessions page pageSize = .ok (items, total)) :
    items = sql.selectSessions s.store pageSize (goMul (goSub page 1) pageSize) ∧
    total = sql.countSessions s.store ∧ s.faults.lookup .countSessions = none ∧
    s.faults.lookup .selectSessions = none := by
  unfold GetStudySessions QueryRow Query at h
  simp only [] at h
  cases h1 : s.faults.lookup .countSessions with
  | some msg => rw [h1] at h; cases h
  | none =>
      cases h2 : s.faults.lookup .selectSessions with
      | some msg => rw [h1, h2] at h; cases h
      | none =>
          rw [h1, h2] at h
          simp only [Except.ok.injEq, Prod.mk.injEq] at h
          exact ⟨h.1.symm, h.2.symm, rfl, rfl⟩

theorem GetStudySessionWords_ok (s : DBService) (sessionID page pageSize : Int)
    (items : List models.WordWithStats) (total : Int)
    (h : s.GetStudySessionWords sessionID page pageSize = .ok (items, total)) :
    scanSessionWords
        (sql.selectSessionWords s.store sessionID pageSize (goMul (goSub page 1) pageSize)) =
      .ok items ∧
    total = sql.countSessionWords s.store sessionID := by
  unfold GetStudySessionWords QueryRow Query at h
  simp only [] at h
  cases h1 : s.faults.lookup .countSessionWords with
  | some msg => rw [h1] at h; cases h
  | none =>
      cases h2 : s.faults.lookup .selectSessionWords with
      | some msg => rw [h1, h2] at h; cases h
      | none =>
          rw [h1, h2] at h
          simp only [] at h
          split at h
          · cases h
          · next ws hws =>
              simp only [Except.ok.injEq, Prod.mk.injEq] at h
              obtain ⟨rfl, rfl⟩ := h
              exact ⟨hws, rfl⟩

theorem GetStudyActivitySessions_ok (s : DBService) (activityID page pageSize : Int)
    (items : List models.StudySession) (total : Int)
    (h : s.GetStudyActivitySessions activityID page pageSize = .ok (items, total)) :
    items =
      sql.selectActivitySessions s.store activityID pageSize (goMul (goSub page 1) pageSize) ∧
    total = sql.countActivitySessions s.store activityID := by
  unfold GetStudyActivitySessions QueryRow Query at h
  simp only [] at h
  cases h1 : s.faults.lookup .countActivitySessions with
  | some msg => rw [h1] at h; cases h
  | none =>
      cases h2 : s.faults.lookup .selectActivitySessions with
      | some msg => rw [h1, h2] at h; cases h
      | none =>
          rw [h1, h2] at h
          simp only [Except.ok.injEq, Prod.mk.injEq] at h
          exact ⟨h.1.symm, h.2.symm⟩

end DBService

namespace strconv

/-- The digit loop without an error has read decimal digits only and returns
their value on top of the accumulator. -/
theorem parseUintLoop_ok (cs : List Char) (n m : Nat) (h : parseUintLoop cs n = (m, none)) :
    (∀ c ∈ cs, '0' ≤ c ∧ c ≤ '9') ∧
    m = cs.foldl (fun k c => 10 * k + (c.toNat - '0'.toNat)) n := by
  induction cs generalizing n with
  | nil =>
      unfold parseUintLoop at h
      simp only [Prod.mk.injEq, and_true] at h
      exact ⟨fun c hc => absurd hc (List.not_mem_nil c), h.symm⟩
  | cons c cs ih =>
      unfold parseUintLoop at h
      split at h
      · next hd =>
          split at h
          · cases h
          · simp only [] at h
            split at h
            · cases h
            · obtain ⟨h1, h2⟩ := ih _ h
              refine ⟨?_, ?_⟩
              · intro x hx
                rcases List.mem_cons.mp hx with rfl | hx
                · exact hd
                · exact h1 x hx
              · rw [List.foldl_cons, h2, Nat.mul_comm 10 n]
      · cases h

/-- A range error of the digit loop comes with the largest `uint64`. -/
theorem parseUintLoop_range (cs : List Char) (n m : Nat)
    (h : parseUintLoop cs n = (m, some .ErrRange)) : m = maxUint64 := by
  induction cs generalizing n with
  | nil =>
      unfold parseUintLoop at h
      cases h
  | cons c cs ih =>
      unfold parseUintLoop at h
      split at h
      · split at h
        · simp only [Prod.mk.injEq, and_true] at h
          exact h.symm
        · simp only [] at h
          split at h
          · simp only [Prod.mk.injEq, and_true] at h
            exact h.symm
          · exact ih _ h
      · cases h

end strconv

/-- What `strconv.ParseInt` accepts is a base-10 representation of a 64-bit signed
integer. -/
theorem isBase10Int64_of_ParseInt (s : String) (v : Int)
    (h : strconv.ParseInt s = (v, none)) : isBase10Int64 s = true := by
  unfold strconv.ParseInt at h
  unfold isBase10Int64
  cases hs : s.toList with
  | nil =>
      rw [hs] at h
      cases h
  | cons c cs =>
      rw [hs] at h
      simp only [] at h ⊢
      generalize hd : (if c = '+' ∨ c = '-' then cs else c :: cs) = digits at h ⊢
      rcases hp : strconv.ParseUint digits with ⟨un, _ | cause⟩
      · -- no error from ParseUint
        have hne : digits ≠ [] := by
          intro e
          rw [e] at hp
          cases hp
        have hloop : strconv.parseUintLoop digits 0 = (un, none) := by
          unfold strconv.ParseUint at hp
          cases digits with
          | nil => exact absurd rfl hne
          | cons d ds => exact hp
        obtain ⟨hall, hval⟩ := strconv.parseUintLoop_ok digits 0 un hloop
        have hdec : decimalValue digits = un := by
          unfold decimalValue
          exact hval.symm
        rw [hp] at h
        simp only [] at h
        have e1 : digits.isEmpty = false := by
          cases digits with
          | nil => exact absurd rfl hne
          | cons d ds => rfl
        have e2 : digits.all (fun d => decide ('0' ≤ d ∧ d ≤ '9')) = true := by
          rw [List.all_eq_true]
          intro x hx
          exact decide_eq_true (hall x hx)
        rw [e1, e2, hdec]
        simp only [Bool.not_false, Bool.and_self, Bool.true_and]
        by_cases hneg : c = '-'
        · simp only [hneg, if_true, decide_eq_true_eq]
          simp only [hneg, ge_iff_le, not_true_eq_false, false_and, if_false, true_and] at h
          split at h
          · cases h
          · omega
        · simp only [hneg, if_false, decide_eq_true_eq]
          simp only [hneg, not_false_eq_true, true_and, false_and, if_false] at h
          split at h
          · cases h
          · omega
      · -- an error from ParseUint is passed on
        rw [hp] at h
        cases cause with
        | ErrSyntax => cases h
        | ErrRange =>
            have hmax : un = strconv.maxUint64 := by
              unfold strconv.ParseUint at hp
              cases digits with
              | nil => cases hp
              | cons d ds => exact strconv.parseUintLoop_range _ _ _ hp
            simp only [] at h
            subst hmax
            by_cases hneg : c = '-'
            · simp only [hneg, strconv.maxUint64, not_true_eq_false, false_and, if_false,
                true_and] at h
              rw [if_pos (by decide)] at h
              cases h
            · simp only [hneg, strconv.maxUint64, not_false_eq_true, true_and] at h
              rw [if_pos (by decide)] at h
              cases h

/-- A path value that is no base-10 representation of a 64-bit signed integer
makes `strconv.ParseInt` return an error. -/
theorem ParseInt_error_of_not_isBase10Int64 (s : String) (h : isBase10Int64 s = false) :
    ∃ v cause, strconv.ParseInt s = (v, some cause) := by
  rcases hp : strconv.ParseInt s with ⟨v, _ | cause⟩
  · have := isBase10Int64_of_ParseInt s v hp
    rw [h] at this
    cases this
  · exact ⟨v, cause, rfl⟩

namespace sql

/-- The sorted list of the distinct grouping keys of a row list. -/
theorem groupBy_eq_map {α : Type} (key : α → Int) (rows : List α) :
    groupBy key rows =
      (((rows.map key).dedup).insertionSort (· ≤ ·)).map fun k =>
        rows.filter fun r => decide (key r = k) := rfl

theorem mem_groupKeys {α : Type} (key : α → Int) (rows : List α) (k : Int) :
    k ∈ ((rows.map key).dedup).insertionSort (· ≤ ·) ↔ ∃ r ∈ rows, key r = k := by
  rw [(List.perm_insertionSort _ _).mem_iff, List.mem_dedup, List.mem_map]

/-- The distinct grouping keys, sorted, are strictly ascending. -/
theorem groupKeys_strictSorted (keys : List Int) :
    ((keys.dedup).insertionSort (· ≤ ·)).Pairwise (· < ·) := by
  have h1 : ((keys.dedup).insertionSort (· ≤ ·)).Sorted (· ≤ ·) :=
    List.sorted_insertionSort _ _
  have h2 : ((keys.dedup).insertionSort (· ≤ ·)).Nodup :=
    (List.perm_insertionSort _ _).nodup_iff.mpr (List.nodup_dedup _)
  exact h1.lt_of_le h2

/-- A list mapped by a partial function that is defined on each element and
answers with an element's own key gives the keys back. -/
theorem map_filterMap_of_forall {β : Type} (F : Int → Option β) (idOf : β → Int)
    (ks : List Int) (h : ∀ k ∈ ks, ∃ b, F k = some b ∧ idOf b = k) :
    (ks.filterMap F).map idOf = ks := by
  induction ks with
  | nil => rfl
  | cons k ks ih =>
      obtain ⟨b, hb, hid⟩ := h k (List.mem_cons_self k ks)
      rw [List.filterMap_cons_some hb, List.map_cons, hid,
        ih (fun x hx => h x (List.mem_cons_of_mem k hx))]

/-- The head of the group of key `k`, for a key that occurs, is a row of key `k`. -/
theorem head?_group {α : Type} (key : α → Int) (rows : List α) (k : Int)
    (hk : ∃ r ∈ rows, key r = k) :
    ∃ r, (rows.filter fun r => decide (key r = k)).head? = some r ∧ r ∈ rows ∧ key r = k := by
  obtain ⟨r0, hr0, hk0⟩ := hk
  cases hf : rows.filter (fun r => decide (key r = k)) with
  | nil =>
      have : r0 ∈ rows.filter (fun r => decide (key r = k)) :=
        List.mem_filter.mpr ⟨hr0, by simpa using hk0⟩
      rw [hf] at this
      cases this
  | cons r rs =>
      have hr : r ∈ rows.filter (fun r => decide (key r = k)) := by
        rw [hf]
        exact List.mem_cons_self r rs
      obtain ⟨h1, h2⟩ := List.mem_filter.mp hr
      exact ⟨r, rfl, h1, by simpa using h2⟩

/-- The result rows of an aggregate query, one per group and built from the
group's head, carry the distinct grouping keys in ascending order when the row's
id is the grouping key. -/
theorem map_id_aggregate {α β : Type} (key : α → Int) (rows : List α)
    (mk : List α → α → β) (idOf : β → Int) (hid : ∀ g r, idOf (mk g r) = key r) :
    ((groupBy key rows).filterMap fun g => g.head?.map (mk g)).map idOf =
      ((rows.map key).dedup).insertionSort (· ≤ ·) := by
  rw [groupBy_eq_map, List.filterMap_map]
  apply map_filterMap_of_forall
  intro k hk
  obtain ⟨r, hr, _, hkr⟩ := head?_group key rows k ((mem_groupKeys key rows k).mp hk)
  refine ⟨mk (rows.filter fun r => decide (key r = k)) r, ?_, ?_⟩
  · simp only [Function.comp, hr, Option.map_some']
  · rw [hid, hkr]

/-- The clause `LIMIT`/`OFFSET` keeps a contiguous part of the rows. -/
theorem limitOffset_sublist {α : Type} (limit offset : Int) (rows : List α) :
    (limitOffset limit offset rows).Sublist rows := by
  unfold limitOffset
  simp only []
  split
  · exact List.drop_sublist _ _
  · exact (List.take_sublist _ _).trans (List.drop_sublist _ _)

theorem orderBy_perm {α : Type} (key : α → Int) (rows : List α) :
    (orderBy key rows).Perm rows := List.perm_insertionSort _ _

theorem orderByDesc_perm {α : Type} (key : α → Int) (rows : List α) :
    (orderByDesc key rows).Perm rows := List.perm_insertionSort _ _

theorem orderBy_sorted {α : Type} (key : α → Int) (rows : List α) :
    ((orderBy key rows).map key).Pairwise (· ≤ ·) := by
  haveI : IsTotal α (fun a b => key a ≤ key b) := ⟨fun a b => le_total (key a) (key b)⟩
  haveI : IsTrans α (fun a b => key a ≤ key b) := ⟨fun a b c h1 h2 => le_trans h1 h2⟩
  rw [List.pairwise_map]
  exact List.sorted_insertionSort (fun a b => key a ≤ key b) rows

theorem orderByDesc_sorted {α : Type} (key : α → Int) (rows : List α) :
    ((orderByDesc key rows).map key).Pairwise (· ≥ ·) := by
  haveI : IsTotal α (fun a b => key b ≤ key a) := ⟨fun a b => le_total (key b) (key a)⟩
  haveI : IsTrans α (fun a b => key b ≤ key a) := ⟨fun a b c h1 h2 => le_trans h2 h1⟩
  rw [List.pairwise_map]
  exact List.sorted_insertionSort (fun a b => key b ≤ key a) rows

/-- Rows with pairwise distinct keys, ordered by key and cut by `LIMIT`/`OFFSET`,
are strictly ascending in the key. -/
theorem strictSorted_page {α : Type} (key : α → Int) (rows : List α) (limit offset : Int)
    (hnd : (rows.map key).Nodup) :
    ((limitOffset limit offset (orderBy key rows)).map key).Pairwise (· < ·) := by
  have h1 : ((orderBy key rows).map key).Sorted (· ≤ ·) := orderBy_sorted key rows
  have h2 : ((orderBy key rows).map key).Nodup :=
    ((orderBy_perm key rows).map key).nodup_iff.mpr hnd
  have h3 : ((orderBy key rows).map key).Pairwise (· < ·) := h1.lt_of_le h2
  exact h3.sublist ((limitOffset_sublist limit offset _).map key)

/-- Rows ordered by key descending and cut by `LIMIT`/`OFFSET` are non-increasing
in the key. -/
theorem sortedDesc_page {α : Type} (key : α → Int) (rows : List α) (limit offset : Int) :
    ((limitOffset limit offset (orderByDesc key rows)).map key).Pairwise (· ≥ ·) :=
  (orderByDesc_sorted key rows).sublist ((limitOffset_sublist limit offset _).map key)

/-- The rows of the `GetWords` statement carry pairwise distinct, ascending ids. -/
theorem selectWords_sorted (s : Store) (limit offset : Int) :
    ((selectWords s limit offset).map fun w => w.ID).Pairwise (· < ·) := by
  unfold selectWords
  simp only []
  apply strictSorted_page (fun w : models.WordWithStats => w.ID)
  have h := map_id_aggregate
    (fun r : models.Word × Option models.WordReviewItem => r.1.ID)
    (leftJoin s.words s.word_review_items fun w wr => decide (w.ID = wr.WordID))
    (fun g r =>
      ({ toWord := r.1,
         CorrectCount := coalesce0 (sum? (fun x => caseCorrectIs true x.2) g),
         WrongCount := coalesce0 (sum? (fun x => caseCorrectIs false x.2) g) } :
        models.WordWithStats))
    (fun w => w.ID) (fun _ _ => rfl)
  rw [h]
  exact (List.perm_insertionSort _ _).nodup_iff.mpr (List.nodup_dedup _)

/-- The rows of the `GetGroups` statement carry pairwise distinct, ascending ids. -/
theorem selectGroups_sorted (s : Store) (limit offset : Int) :
    ((selectGroups s limit offset).map fun g => g.ID).Pairwise (· < ·) := by
  unfold selectGroups
  simp only []
  apply strictSorted_page (fun g : models.Group => g.ID)
  have h := map_id_aggregate
    (fun r : GroupsRow × Option WordsGroupsRow => r.1.id)
    (leftJoin s.groups s.words_groups fun g wg => decide (g.id = wg.group_id))
    (fun g r =>
      ({ ID := r.1.id, Name := r.1.name,
         WordCount := countDistinct (g.filterMap fun x => x.2.map fun wg => wg.word_id) } :
        models.Group))
    (fun g => g.ID) (fun _ _ => rfl)
  rw [h]
  exact (List.perm_insertionSort _ _).nodup_iff.mpr (List.nodup_dedup _)

/-- The rows of the `GetStudySessions` statement are non-increasing in `created_at`. -/
theorem selectSessions_sorted (s : Store) (limit offset : Int) :
    ((selectSessions s limit offset).map fun x => x.CreatedAt).Pairwise (· ≥ ·) := by
  unfold selectSessions
  simp only []
  exact sortedDesc_page (fun x : models.StudySession => x.CreatedAt) _ limit offset

theorem mem_innerJoin {α β : Type} (l : List α) (r : List β) (cond : α → β → Bool)
    (x : α × β) : x ∈ innerJoin l r cond ↔ x.1 ∈ l ∧ x.2 ∈ r ∧ cond x.1 x.2 = true := by
  unfold innerJoin
  simp only [List.mem_flatMap, List.mem_map, List.mem_filter]
  constructor
  · rintro ⟨a, ha, b, ⟨hb, hc⟩, rfl⟩
    exact ⟨ha, hb, hc⟩
  · rintro ⟨ha, hb, hc⟩
    exact ⟨x.1, ha, x.2, ⟨hb, hc⟩, rfl⟩

theorem fst_mem_of_mem_leftJoin {α β : Type} (l : List α) (r : List β) (cond : α → β → Bool)
    (x : α × Option β) (hx : x ∈ leftJoin l r cond) : x.1 ∈ l := by
  induction l with
  | nil => cases hx
  | cons a l ih =>
      rw [leftJoin_cons, List.mem_append] at hx
      rcases hx with hx | hx
      · rw [fst_of_mem_leftJoin_single a r cond x hx]
        exact List.mem_cons_self a l
      · exact List.mem_cons_of_mem a (ih hx)

theorem exists_mem_leftJoin {α β : Type} (l : List α) (r : List β) (cond : α → β → Bool)
    (a : α) (ha : a ∈ l) : ∃ x ∈ leftJoin l r cond, x.1 = a := by
  induction l with
  | nil => cases ha
  | cons b l ih =>
      rw [leftJoin_cons]
      rcases List.mem_cons.mp ha with rfl | h
      · obtain ⟨x, hx⟩ := List.exists_mem_of_ne_nil _ (leftJoin_single_ne_nil a r cond)
        exact ⟨x, List.mem_append_left _ hx, fst_of_mem_leftJoin_single a r cond x hx⟩
      · obtain ⟨x, hx, hxa⟩ := ih h
        exact ⟨x, List.mem_append_right _ hx, hxa⟩

/-- Lists with the same members have equally many distinct members. -/
theorem dedup_length_congr (l₁ l₂ : List Int) (h : ∀ k, k ∈ l₁ ↔ k ∈ l₂) :
    l₁.dedup.length = l₂.dedup.length := by
  rw [← List.card_toFinset, ← List.card_toFinset]
  congr 1
  ext k
  simp only [List.mem_toFinset]
  exact h k

/-- An aggregate query returns one row per distinct grouping key. -/
theorem length_aggregate {α β : Type} (key : α → Int) (rows : List α)
    (mk : List α → α → β) :
    ((groupBy key rows).filterMap fun g => g.head?.map (mk g)).length =
      ((rows.map key).dedup).length := by
  have h := map_id_aggregate key rows (fun g r => (key r, mk g r)) (fun b => b.1)
    (fun _ _ => rfl)
  have h2 := congrArg List.length h
  rw [List.length_map, List.length_insertionSort] at h2
  rw [← h2, groupBy_eq_map, List.filterMap_map, List.filterMap_map]
  have key2 : ∀ (ks : List Int) (F : Int → Option α) (G₁ : Int → α → β)
      (G₂ : Int → α → Int × β),
      (ks.filterMap fun k => (F k).map (G₁ k)).length =
        (ks.filterMap fun k => (F k).map (G₂ k)).length := by
    intro ks F G₁ G₂
    induction ks with
    | nil => rfl
    | cons k ks ih =>
        cases hF : F k with
        | none =>
            rw [List.filterMap_cons_none (by simp [hF]),
              List.filterMap_cons_none (by simp [hF])]
            exact ih
        | some a =>
            rw [List.filterMap_cons_some (by simp [hF]; rfl),
              List.filterMap_cons_some (by simp [hF]; rfl)]
            simp only [List.length_cons, ih]
  exact key2 _ (fun k => (rows.filter fun r => decide (key r = k)).head?)
    (fun k => mk (rows.filter fun r => decide (key r = k)))
    (fun k r => (key r, mk (rows.filter fun r => decide (key r = k)) r))

theorem limitOffset_all {α : Type} (rows : List α) : limitOffset (-1) 0 rows = rows := by
  unfold limitOffset
  simp

/-- Whether the group a session references is stored. -/
theorem sessionKeys_mem (s : Store) (k : Int) :
    k ∈ (sessionsJoined s).map (fun r => r.1.1.id) ↔
      k ∈ (s.study_sessions.filter fun x =>
        s.groups.any fun g => decide (x.group_id = g.id)).map fun x => x.id := by
  simp only [List.mem_map, List.mem_filter, List.any_eq_true, decide_eq_true_eq]
  constructor
  · rintro ⟨r, hr, rfl⟩
    have h1 := fst_mem_of_mem_leftJoin _ _ _ r hr
    rw [mem_innerJoin] at h1
    obtain ⟨ha, hb, hc⟩ := h1
    exact ⟨r.1.1, ⟨ha, r.1.2, hb, by simpa using hc⟩, rfl⟩
  · rintro ⟨x, ⟨hx, g, hg, hxg⟩, rfl⟩
    have hmem : (x, g) ∈ innerJoin s.study_sessions s.groups
        (fun ss g => decide (ss.group_id = g.id)) := by
      rw [mem_innerJoin]
      exact ⟨hx, hg, by simpa using hxg⟩
    obtain ⟨r, hr, hra⟩ := exists_mem_leftJoin _ s.word_review_items
      (fun r wr => decide (r.1.id = wr.StudySessionID)) (x, g) hmem
    exact ⟨r, hr, by rw [hra]⟩

/-- The list statement of `GetStudySessions` without `LIMIT` yields one row per
session whose group is stored, when session ids are unique. -/
theorem length_selectSessions_all (s : Store)
    (hids : (s.study_sessions.map fun x => x.id).Nodup) :
    (selectSessions s (-1) 0).length =
      (s.study_sessions.filter fun x =>
        s.groups.any fun g => decide (x.group_id = g.id)).length := by
  unfold selectSessions
  simp only []
  rw [limitOffset_all, (orderByDesc_perm _ _).length_eq]
  rw [length_aggregate (fun r : (StudySessionsRow × GroupsRow) × Option models.WordReviewItem =>
    r.1.1.id) (sessionsJoined s) (fun _ r => sessionOf r)]
  rw [dedup_length_congr _ _ (sessionKeys_mem s)]
  have hnd : ((s.study_sessions.filter fun x =>
      s.groups.any fun g => decide (x.group_id = g.id)).map fun x => x.id).Nodup :=
    hids.sublist ((List.filter_sublist _).map _)
  rw [hnd.dedup, List.length_map]

theorem selectSessions_page (s : Store) (limit offset : Int) :
    selectSessions s limit offset = limitOffset limit offset (selectSessions s (-1) 0) := by
  unfold selectSessions
  simp only []
  rw [limitOffset_all]

/-- With unique left keys, the group of a left row's key in a left join consists
of that row's joined rows. -/
theorem group_of_left {α β : Type} (l : List α) (r : List β) (cond : α → β → Bool)
    (key : α → Int) (hnd : (l.map key).Nodup) (a : α) (ha : a ∈ l) :
    (leftJoin l r cond).filter (fun x => decide (key x.1 = key a)) = leftJoin [a] r cond := by
  rw [filter_leftJoin (fun x : α => decide (key x = key a)) l r cond]
  rw [filter_eq_singleton_of_nodup key l a hnd ha]

/-- With unique left keys, an aggregate over a left join grouped by the left key
has, for every left row, the result row built from that row's joined rows. -/
theorem mem_aggregate_leftJoin {α β γ : Type} (l : List α) (r : List β)
    (cond : α → β → Bool) (key : α → Int) (mk : List (α × Option β) → α × Option β → γ)
    (hnd : (l.map key).Nodup) (a : α) (ha : a ∈ l) :
    ∃ x, x.1 = a ∧
      mk (leftJoin [a] r cond) x ∈
        (groupBy (fun x => key x.1) (leftJoin l r cond)).filterMap fun g =>
          g.head?.map (mk g) := by
  have hhead := head?_leftJoin_single_fst a r cond
  cases hh : (leftJoin [a] r cond).head? with
  | none => rw [hh] at hhead; cases hhead
  | some x =>
      rw [hh] at hhead
      simp only [Option.map_some', Option.some.injEq] at hhead
      refine ⟨x, hhead, ?_⟩
      rw [List.mem_filterMap]
      refine ⟨leftJoin [a] r cond, ?_, by rw [hh]; rfl⟩
      rw [groupBy_eq_map, List.mem_map]
      refine ⟨key a, ?_, ?_⟩
      · rw [mem_groupKeys]
        obtain ⟨y, hy, hya⟩ := exists_mem_leftJoin l r cond a ha
        exact ⟨y, hy, by rw [hya]⟩
      · exact group_of_left l r cond key hnd a ha

/-- The keys of the joined rows of a left join are the keys of the left rows. -/
theorem leftJoin_keys_mem {α β : Type} (l : List α) (r : List β) (cond : α → β → Bool)
    (key : α → Int) (k : Int) :
    k ∈ (leftJoin l r cond).map (fun x => key x.1) ↔ k ∈ l.map key := by
  simp only [List.mem_map]
  constructor
  · rintro ⟨x, hx, rfl⟩
    exact ⟨x.1, fst_mem_of_mem_leftJoin l r cond x hx, rfl⟩
  · rintro ⟨a, ha, rfl⟩
    obtain ⟨x, hx, hxa⟩ := exists_mem_leftJoin l r cond a ha
    exact ⟨x, hx, by rw [hxa]⟩

theorem limitOffset_of_length_le {α : Type} (limit : Int) (rows : List α)
    (h : (rows.length : Int) ≤ limit) : limitOffset limit 0 rows = rows := by
  unfold limitOffset
  simp only [Int.toNat_zero, List.drop_zero]
  rw [if_neg (by omega)]
  apply List.take_of_length_le
  omega

/-- The first page of the `GetGroups` statement, when ids are unique and the
groups fit the page: one item per group, each group among them. -/
theorem selectGroups_all (s : Store) (limit : Int)
    (hids : (s.groups.map fun g => g.id).Nodup) (hfit : (s.groups.length : Int) ≤ limit) :
    (selectGroups s limit 0).length = s.groups.length ∧
    ∀ g ∈ s.groups, ∃ item ∈ selectGroups s limit 0, item.ID = g.id ∧ item.Name = g.name := by
  unfold selectGroups
  simp only []
  set rows := (groupBy (fun r => r.1.id)
      (leftJoin s.groups s.words_groups fun g wg => decide (g.id = wg.group_id))).filterMap
    (fun g => g.head?.map fun r =>
      ({ ID := r.1.id, Name := r.1.name,
         WordCount := countDistinct (g.filterMap fun x => x.2.map fun wg => wg.word_id) } :
        models.Group)) with hrows
  have hlen : rows.length = s.groups.length := by
    rw [hrows]
    rw [length_aggregate (fun r : GroupsRow × Option WordsGroupsRow => r.1.id) _
      (fun g r =>
        ({ ID := r.1.id, Name := r.1.name,
           WordCount := countDistinct (g.filterMap fun x => x.2.map fun wg => wg.word_id) } :
          models.Group))]
    rw [dedup_length_congr _ _
      (leftJoin_keys_mem s.groups s.words_groups _ (fun g : GroupsRow => g.id))]
    rw [hids.dedup, List.length_map]
  have hlen2 : (orderBy (fun g : models.Group => g.ID) rows).length = s.groups.length := by
    rw [(orderBy_perm _ _).length_eq, hlen]
  rw [limitOffset_of_length_le limit _ (by rw [hlen2]; exact hfit)]
  refine ⟨hlen2, ?_⟩
  intro g hg
  obtain ⟨x, hx, hmem⟩ := mem_aggregate_leftJoin s.groups s.words_groups
    (fun g wg => decide (g.id = wg.group_id)) (fun g : GroupsRow => g.id)
    (fun g r =>
      ({ ID := r.1.id, Name := r.1.name,
         WordCount := countDistinct (g.filterMap fun x => x.2.map fun wg => wg.word_id) } :
        models.Group)) hids g hg
  refine ⟨_, (orderBy_perm _ _).mem_iff.mpr hmem, ?_, ?_⟩
  · simp only [hx]
  · simp only [hx]

end sql

/-- The page count of a store with fewer than 100 rows in pages of 100. -/
theorem totalPages_lt_100 (n : Int) (h0 : 0 ≤ n) (h1 : n < 100) :
    totalPages n 100 = some (if n = 0 then 0 else 1) := by
  have hnum : goSub (goAdd n 100) 1 = n + 99 := by
    unfold goSub goAdd
    rw [wrapInt_sub_one_wrapInt]
    rw [wrapInt_of_inRange _ (by unfold minInt; omega) (by unfold maxInt; omega)]
    omega
  unfold totalPages goQuo
  rw [hnum, if_neg (by decide), Int.tdiv_eq_ediv (by omega) (by decide)]
  have hq : (n + 99) / 100 = if n = 0 then 0 else 1 := by
    split <;> omega
  rw [hq, wrapInt_of_inRange _ (by unfold minInt; split <;> omega)
    (by unfold maxInt; split <;> omega)]

/-- The offset of a page whose product fits an `int` is the product. -/
theorem offset_eq (page pageSize : Int) (h1 : 1 ≤ page) (h2 : 1 ≤ pageSize)
    (hfit : (page - 1) * pageSize ≤ maxInt) :
    goMul (goSub page 1) pageSize = (page - 1) * pageSize := by
  have hnn : 0 ≤ (page - 1) * pageSize := mul_nonneg (by omega) (by omega)
  have hp : page - 1 ≤ (page - 1) * pageSize := by nlinarith
  have hsub : goSub page 1 = page - 1 := by
    unfold goSub
    apply wrapInt_of_inRange
    · unfold minInt; omega
    · omega
  rw [hsub]
  unfold goMul
  apply wrapInt_of_inRange
  · unfold minInt; omega
  · exact hfit

namespace sql

/-- Consecutive pages of size `m` of a list make up its first `k * m` elements. -/
theorem flatMap_pages {α : Type} (rows : List α) (m k : Nat) :
    ((List.range k).flatMap fun i => (rows.drop (i * m)).take m) = rows.take (k * m) := by
  induction k with
  | zero => simp
  | succ k ih =>
      rw [List.range_succ, List.flatMap_append, ih, List.flatMap_singleton]
      rw [Nat.succ_mul, List.take_add]

theorem selectWords_page (s : Store) (limit offset : Int) :
    selectWords s limit offset = limitOffset limit offset (selectWords s (-1) 0) := by
  unfold selectWords
  simp only []
  rw [limitOffset_all]

/-- A result row of an aggregate query is built from a row of its group. -/
theorem of_mem_aggregate {α β : Type} (key : α → Int) (rows : List α)
    (mk : List α → α → β) (b : β)
    (hb : b ∈ (groupBy key rows).filterMap fun g => g.head?.map (mk g)) :
    ∃ g r, r ∈ rows ∧ b = mk g r := by
  rw [List.mem_filterMap] at hb
  obtain ⟨g, hg, hgb⟩ := hb
  rw [groupBy_eq_map, List.mem_map] at hg
  obtain ⟨k, _, rfl⟩ := hg
  cases hh : (rows.filter fun r => decide (key r = k)).head? with
  | none => rw [hh] at hgb; cases hgb
  | some r =>
      rw [hh] at hgb
      simp only [Option.map_some', Option.some.injEq] at hgb
      have hr : r ∈ rows.filter fun r => decide (key r = k) :=
        List.mem_of_mem_head? (by rw [hh]; exact rfl)
      exact ⟨_, r, (List.mem_filter.mp hr).1, hgb.symm⟩

/-- The list statement of `GetWords` without `LIMIT`, for unique word ids: one row
per stored word. -/
theorem selectWords_all (s : Store) (hpk : (s.words.map fun w => w.ID).Nodup) :
    (selectWords s (-1) 0).length = s.words.length ∧
    ((selectWords s (-1) 0).map fun w => w.toWord).Perm s.words := by
  have hsorted := selectWords_sorted s (-1) 0
  unfold selectWords at hsorted ⊢
  simp only [] at hsorted ⊢
  rw [limitOffset_all] at hsorted ⊢
  set mk : List (models.Word × Option models.WordReviewItem) →
      models.Word × Option models.WordReviewItem → models.WordWithStats :=
    fun g r =>
      ({ toWord := r.1,
         CorrectCount := coalesce0 (sum? (fun x => caseCorrectIs true x.2) g),
         WrongCount := coalesce0 (sum? (fun x => caseCorrectIs false x.2) g) } :
        models.WordWithStats) with hmk
  set joined := leftJoin s.words s.word_review_items fun w wr => decide (w.ID = wr.WordID)
    with hjoined
  set rows := (groupBy (fun r : models.Word × Option models.WordReviewItem => r.1.ID)
    joined).filterMap (fun g => g.head?.map (mk g)) with hrows
  have hlen : rows.length = s.words.length := by
    rw [hrows, length_aggregate (fun r : models.Word × Option models.WordReviewItem => r.1.ID)
      joined mk]
    rw [dedup_length_congr _ _
      (leftJoin_keys_mem s.words s.word_review_items _ (fun w : models.Word => w.ID))]
    rw [hpk.dedup, List.length_map]
  refine ⟨by rw [(orderBy_perm _ _).length_eq, hlen], ?_⟩
  have hnd1 : ((orderBy (fun w : models.WordWithStats => w.ID) rows).map
      fun w => w.toWord).Nodup := by
    have hid : ((orderBy (fun w : models.WordWithStats => w.ID) rows).map
        fun w => w.ID).Nodup := by
      have := hsorted
      exact (List.Pairwise.imp (fun h => ne_of_lt h) this)
    have hcomp : ((orderBy (fun w : models.WordWithStats => w.ID) rows).map fun w => w.ID) =
        (((orderBy (fun w : models.WordWithStats => w.ID) rows).map fun w => w.toWord).map
          fun w => w.ID) := by
      rw [List.map_map]
      rfl
    rw [hcomp] at hid
    exact List.Nodup.of_map _ hid
  have hnd2 : s.words.Nodup := List.Nodup.of_map _ hpk
  rw [List.perm_ext_iff_of_nodup hnd1 hnd2]
  intro w
  rw [List.mem_map]
  constructor
  · rintro ⟨b, hb, rfl⟩
    have hb2 : b ∈ rows := (orderBy_perm _ _).mem_iff.mp hb
    obtain ⟨g, r, hr, rfl⟩ := of_mem_aggregate _ joined mk b hb2
    exact fst_mem_of_mem_leftJoin _ _ _ r hr
  · intro hw
    obtain ⟨x, hx, hmem⟩ := mem_aggregate_leftJoin s.words s.word_review_items
      (fun w wr => decide (w.ID = wr.WordID)) (fun w : models.Word => w.ID) mk hpk w hw
    exact ⟨_, (orderBy_perm _ _).mem_iff.mpr hmem, by simp only [hmk, hx]⟩

end sql

namespace DBService

/-- The method `GetWords` on a connection that runs its two statements. -/
theorem GetWords_run (s : DBService) (page pageSize : Int)
    (hf1 : s.faults.lookup .countWords = none) (hf2 : s.faults.lookup .selectWords = none) :
    s.GetWords page pageSize =
      .ok (sql.limitOffset pageSize (goMul (goSub page 1) pageSize)
            (sql.selectWords s.store (-1) 0),
           (s.store.words.length : Int)) := by
  unfold GetWords QueryRow Query
  simp only [hf1, hf2]
  rw [sql.selectWords_page]
  rfl

/-- The page after `i` full pages, when the offset `i * pageSize` fits an `int`:
the next `pageSize` rows of the whole listing. -/
theorem wordsOnPage_eq (s : DBService) (pageSize : Int) (i : Nat)
    (hf1 : s.faults.lookup .countWords = none) (hf2 : s.faults.lookup .selectWords = none)
    (h1 : 1 ≤ pageSize) (hfit : (i : Int) * pageSize ≤ maxInt) :
    s.wordsOnPage ((i : Int) + 1) pageSize =
      ((sql.selectWords s.store (-1) 0).drop (i * pageSize.toNat)).take pageSize.toNat := by
  unfold wordsOnPage
  rw [GetWords_run s _ _ hf1 hf2]
  simp only []
  rw [offset_eq _ _ (by omega) h1 (by simpa using hfit)]
  unfold sql.limitOffset
  simp only []
  rw [if_neg (by omega)]
  have e : (((i : Int) + 1 - 1) * pageSize).toNat = i * pageSize.toNat := by
    have hps : ((pageSize.toNat : Nat) : Int) = pageSize := Int.toNat_of_nonneg (by omega)
    have : ((i : Int) + 1 - 1) * pageSize = ((i * pageSize.toNat : Nat) : Int) := by
      push_cast
      rw [hps]
      ring
    rw [this, Int.toNat_ofNat]
  rw [e]

end DBService

namespace sql

theorem mem_leftJoin_some {α β : Type} (l : List α) (r : List β) (cond : α → β → Bool)
    (a : α) (b : β) :
    (a, some b) ∈ leftJoin l r cond ↔ a ∈ l ∧ b ∈ r ∧ cond a b = true := by
  induction l with
  | nil => simp [leftJoin]
  | cons c l ih =>
      rw [leftJoin_cons, List.mem_append, ih]
      have hsingle : (a, some b) ∈ leftJoin [c] r cond ↔ a = c ∧ b ∈ r ∧ cond a b = true := by
        simp only [leftJoin, List.flatMap_cons, List.flatMap_nil, List.append_nil]
        cases hm : r.filter (cond c) with
        | nil =>
            simp only [List.mem_singleton, Prod.mk.injEq, reduceCtorEq, and_false, false_iff]
            rintro ⟨rfl, hb, hc⟩
            have : b ∈ r.filter (cond a) := List.mem_filter.mpr ⟨hb, hc⟩
            rw [hm] at this
            cases this
        | cons x xs =>
            simp only [List.mem_map, Prod.mk.injEq, Option.some.injEq]
            constructor
            · rintro ⟨y, hy, rfl, rfl⟩
              rw [← hm] at hy
              exact ⟨rfl, (List.mem_filter.mp hy).1, (List.mem_filter.mp hy).2⟩
            · rintro ⟨rfl, hb, hc⟩
              refine ⟨b, ?_, rfl, rfl⟩
              rw [← hm]
              exact List.mem_filter.mpr ⟨hb, hc⟩
      rw [hsingle, List.mem_cons]
      constructor
      · rintro (⟨rfl, hb, hc⟩ | ⟨ha, hb, hc⟩)
        · exact ⟨Or.inl rfl, hb, hc⟩
        · exact ⟨Or.inr ha, hb, hc⟩
      · rintro ⟨rfl | ha, hb, hc⟩
        · exact Or.inl ⟨rfl, hb, hc⟩
        · exact Or.inr ⟨ha, hb, hc⟩

end sql

namespace sql

theorem selectGroup_eq (s : Store) (id : Int) :
    selectGroup s id =
      (groupBy (fun r => r.1.id) (groupRows s id)).filterMap fun g =>
        g.head?.map (groupRowOf g) := rfl

theorem selectGroups_eq (s : Store) (limit offset : Int) :
    selectGroups s limit offset =
      limitOffset limit offset (orderBy (fun g => g.ID)
        ((groupBy (fun r => r.1.id)
          (leftJoin s.groups s.words_groups fun g wg => decide (g.id = wg.group_id))).filterMap
          fun g => g.head?.map (groupRowOf g))) := rfl

theorem groupRows_key (s : Store) (id : Int) (x : GroupsRow × Option WordsGroupsRow)
    (hx : x ∈ groupRows s id) : x.1.id = id := by
  have := (List.mem_filter.mp hx).2
  simpa using this

theorem groupRows_ne_nil (s : Store) (id : Int) (hg : ∃ g ∈ s.groups, g.id = id) :
    groupRows s id ≠ [] := by
  obtain ⟨g, hg, hid⟩ := hg
  obtain ⟨x, hx, hxg⟩ := exists_mem_leftJoin s.groups s.words_groups
    (fun g wg => decide (g.id = wg.group_id)) g hg
  have : x ∈ groupRows s id :=
    List.mem_filter.mpr ⟨hx, by simp only [hxg, hid, decide_True]⟩
  exact List.ne_nil_of_mem this

/-- The statement of `GetGroup` for a stored group id: one row, built from the
joined rows of that id. -/
theorem selectGroup_stored (s : Store) (id : Int) (hg : ∃ g ∈ s.groups, g.id = id) :
    ∃ r, (groupRows s id).head? = some r ∧
      selectGroup s id = [groupRowOf (groupRows s id) r] ∧
      (groupRowOf (groupRows s id) r).ID = id := by
  have hne := groupRows_ne_nil s id hg
  rw [selectGroup_eq, groupBy_const (fun r : GroupsRow × Option WordsGroupsRow => r.1.id) id
    (groupRows s id) hne (groupRows_key s id)]
  cases hh : (groupRows s id).head? with
  | none =>
      rw [List.head?_eq_none_iff] at hh
      exact absurd hh hne
  | some r =>
      refine ⟨r, rfl, ?_, ?_⟩
      · simp only [List.filterMap_cons, List.filterMap_nil, hh, Option.map_some']
      · exact groupRows_key s id r (List.mem_of_mem_head? (by rw [hh]; exact rfl))

/-- The word ids counted by `COUNT(DISTINCT wg.word_id)` for a stored group id are
the `word_id`s of its rows in `words_groups`. -/
theorem groupRows_wordIds (s : Store) (id : Int) (hg : ∃ g ∈ s.groups, g.id = id) (k : Int) :
    k ∈ (groupRows s id).filterMap (fun x => x.2.map fun wg => wg.word_id) ↔
      k ∈ (s.words_groups.filter fun wg => decide (wg.group_id = id)).map
        fun wg => wg.word_id := by
  simp only [List.mem_filterMap, List.mem_map, List.mem_filter, decide_eq_true_eq]
  constructor
  · rintro ⟨⟨a, b⟩, hx, hk⟩
    cases b with
    | none => cases hk
    | some wg =>
        simp only [Option.map_some', Option.some.injEq] at hk
        have hkey := groupRows_key s id _ hx
        have hmem := (List.mem_filter.mp hx).1
        rw [mem_leftJoin_some] at hmem
        obtain ⟨_, hwg, hc⟩ := hmem
        simp only [decide_eq_true_eq] at hc
        simp only [] at hkey
        exact ⟨wg, ⟨hwg, by rw [← hc, hkey]⟩, hk⟩
  · rintro ⟨wg, ⟨hwg, hwid⟩, hk⟩
    obtain ⟨g, hg, hid⟩ := hg
    refine ⟨(g, some wg), ?_, by simp only [Option.map_some', hk]⟩
    apply List.mem_filter.mpr
    refine ⟨?_, by simp only [hid, decide_True]⟩
    rw [mem_leftJoin_some]
    exact ⟨hg, hwg, by simp only [hid, hwid, decide_True]⟩

/-- The word ids counted by the count statement of `GetGroupWords` are the
`word_id`s of the group's rows in `words_groups` that are ids of stored words. -/
theorem countGroupWords_ids (s : Store) (id : Int) (k : Int) :
    k ∈ ((innerJoin s.words s.words_groups fun w wg => decide (w.ID = wg.word_id)).filter
        fun r => decide (r.2.group_id = id)).map (fun r => r.1.ID) ↔
      k ∈ (s.words_groups.filter fun wg => decide (wg.group_id = id)).map
          (fun wg => wg.word_id) ∧ ∃ w ∈ s.words, w.ID = k := by
  simp only [List.mem_map, List.mem_filter, decide_eq_true_eq, mem_innerJoin]
  constructor
  · rintro ⟨⟨w, wg⟩, ⟨⟨hw, hwg, hc⟩, hgid⟩, rfl⟩
    simp only [] at hc hgid ⊢
    exact ⟨⟨wg, ⟨hwg, hgid⟩, hc.symm⟩, w, hw, rfl⟩
  · rintro ⟨⟨wg, ⟨hwg, hgid⟩, rfl⟩, w, hw, hwk⟩
    exact ⟨(w, wg), ⟨⟨hw, hwg, hwk⟩, hgid⟩, hwk⟩

/-- An item of the `GetGroups` listing with a given id is the row of the `GetGroup`
statement for that id. -/
theorem selectGroups_entry (s : Store) (limit offset id : Int) (item : models.Group)
    (hitem : item ∈ selectGroups s limit offset) (hid : item.ID = id) :
    item ∈ selectGroup s id := by
  rw [selectGroups_eq] at hitem
  have h1 := (limitOffset_sublist limit offset _).subset hitem
  have h2 := (orderBy_perm _ _).mem_iff.mp h1
  rw [List.mem_filterMap] at h2
  obtain ⟨g, hg, hgi⟩ := h2
  rw [groupBy_eq_map, List.mem_map] at hg
  obtain ⟨k, hk, rfl⟩ := hg
  cases hh : ((leftJoin s.groups s.words_groups
      fun g wg => decide (g.id = wg.group_id)).filter
      fun r => decide (r.1.id = k)).head? with
  | none => rw [hh] at hgi; cases hgi
  | some r =>
      rw [hh] at hgi
      simp only [Option.map_some', Option.some.injEq] at hgi
      have hh2 : (groupRows s k).head? = some r := hh
      have hr : r ∈ groupRows s k := List.mem_of_mem_head? (by rw [hh2]; exact rfl)
      have hrk : r.1.id = k := groupRows_key s k r hr
      have hki : k = id := by
        rw [← hid, ← hgi]
        exact hrk.symm
      subst hki
      have hstored : ∃ g ∈ s.groups, g.id = k :=
        ⟨r.1, fst_mem_of_mem_leftJoin _ _ _ r (List.mem_filter.mp hr).1, hrk⟩
      obtain ⟨r2, hr2, hsel, _⟩ := selectGroup_stored s k hstored
      have hrr : r2 = r := by
        rw [hh2] at hr2
        injection hr2 with hr2
        exact hr2.symm
      rw [hsel, hrr, ← hgi]
      exact List.mem_singleton.mpr rfl

end sql

namespace sql

/-- The count of `GetGroupWords` and the `word_count` of the groups statements
agree for a stored group all of whose rows in `words_groups` reference stored
words. -/
theorem countGroupWords_eq (s : Store) (id : Int) (hg : ∃ g ∈ s.groups, g.id = id)
    (hint : ∀ wg ∈ s.words_groups, wg.group_id = id → ∃ w ∈ s.words, w.ID = wg.word_id)
    (r : GroupsRow × Option WordsGroupsRow) :
    countGroupWords s id = (groupRowOf (groupRows s id) r).WordCount := by
  unfold countGroupWords groupRowOf countDistinct
  simp only []
  rw [dedup_length_congr _ _ (fun k => ?_)]
  rw [countGroupWords_ids, groupRows_wordIds s id hg]
  constructor
  · exact fun h => h.1
  · intro h
    refine ⟨h, ?_⟩
    obtain ⟨wg, hwg, rfl⟩ := List.mem_map.mp h
    obtain ⟨hwg1, hwg2⟩ := List.mem_filter.mp hwg
    exact hint wg hwg1 (by simpa using hwg2)

/-- The first page of the `GetGroups` statement, when the groups fit the page, has
the row of every stored group id. -/
theorem selectGroups_has (s : Store) (limit id : Int) (hg : ∃ g ∈ s.groups, g.id = id)
    (hfit : (s.groups.length : Int) ≤ limit) (r : GroupsRow × Option WordsGroupsRow)
    (hr : (groupRows s id).head? = some r) :
    groupRowOf (groupRows s id) r ∈ selectGroups s limit 0 := by
  rw [selectGroups_eq]
  have hlen : ((orderBy (fun g : models.Group => g.ID)
      ((groupBy (fun r => r.1.id)
        (leftJoin s.groups s.words_groups fun g wg => decide (g.id = wg.group_id))).filterMap
        fun g => g.head?.map (groupRowOf g))).length : Int) ≤ limit := by
    rw [(orderBy_perm _ _).length_eq]
    rw [length_aggregate (fun r : GroupsRow × Option WordsGroupsRow => r.1.id) _ groupRowOf]
    rw [dedup_length_congr _ _
      (leftJoin_keys_mem s.groups s.words_groups _ (fun g : GroupsRow => g.id))]
    have h1 := (List.dedup_sublist (s.groups.map fun g => g.id)).length_le
    rw [List.length_map] at h1
    omega
  rw [limitOffset_of_length_le limit _ hlen]
  rw [(orderBy_perm _ _).mem_iff, List.mem_filterMap]
  refine ⟨groupRows s id, ?_, by rw [hr]; rfl⟩
  rw [groupBy_eq_map, List.mem_map]
  refine ⟨id, ?_, rfl⟩
  rw [mem_groupKeys]
  obtain ⟨g, hg, hid⟩ := hg
  obtain ⟨x, hx, hxg⟩ := exists_mem_leftJoin s.groups s.words_groups
    (fun g wg => decide (g.id = wg.group_id)) g hg
  exact ⟨x, hx, by rw [hxg, hid]⟩

end sql

namespace DBService

/-- The method `GetGroup` on a connection that runs its statement, when the
statement has a first row. -/
theorem GetGroup_run (s : DBService) (id : Int)
    (hf : s.faults.lookup .selectGroup = none) (g : models.Group) (rest : List models.Group)
    (h : sql.selectGroup s.store id = g :: rest) : s.GetGroup id = .ok (some g) := by
  unfold GetGroup QueryRow
  simp only [hf, h]

/-- The method `GetGroupWords` on a connection that runs its two statements. -/
theorem GetGroupWords_run (s : DBService) (groupID page pageSize : Int)
    (hf1 : s.faults.lookup .countGroupWords = none)
    (hf2 : s.faults.lookup .selectGroupWords = none) :
    s.GetGroupWords groupID page pageSize =
      .ok (sql.selectGroupWords s.store groupID pageSize (goMul (goSub page 1) pageSize),
           sql.countGroupWords s.store groupID) := by
  unfold GetGroupWords QueryRow Query
  simp only [hf1, hf2]

/-- The method `GetGroups` on a connection that runs its two statements. -/
theorem GetGroups_run (s : DBService) (page pageSize : Int)
    (hf1 : s.faults.lookup .countGroups = none)
    (hf2 : s.faults.lookup .selectGroups = none) :
    s.GetGroups page pageSize =
      .ok (sql.selectGroups s.store pageSize (goMul (goSub page 1) pageSize),
           sql.countGroups s.store) := by
  unfold GetGroups QueryRow Query
  simp only [hf1, hf2]

theorem offset_first_page (pageSize : Int) : goMul (goSub 1 1) pageSize = 0 := by
  unfold goMul goSub wrapInt
  simp

end DBService

/-! ## Rounding to a double -/

namespace Float64

theorem log2Fuel_spec (fuel n : Nat) (h : n ≤ fuel) (hn : 0 < n) :
    2 ^ log2Fuel fuel n ≤ n ∧ n < 2 ^ (log2Fuel fuel n + 1) := by
  induction fuel generalizing n with
  | zero => omega
  | succ fuel ih =>
      rw [log2Fuel]
      split
      · constructor
        · simp only [pow_zero]
          omega
        · simp only [zero_add, pow_one]
          omega
      · obtain ⟨h1, h2⟩ := ih (n / 2) (by omega) (by omega)
        rw [pow_succ] at h2
        rw [pow_succ, pow_succ, pow_succ]
        generalize 2 ^ log2Fuel fuel (n / 2) = p at h1 h2
        constructor <;> omega

theorem ilog2_spec (n : Nat) (hn : 0 < n) : 2 ^ ilog2 n ≤ n ∧ n < 2 ^ (ilog2 n + 1) :=
  log2Fuel_spec n n (le_refl n) hn

theorem roundHalfEven_cases (n d : Nat) :
    (roundHalfEven n d = n / d ∧ (2 * (n % d) < d ∨ (2 * (n % d) = d ∧ (n / d) % 2 = 0))) ∨
    (roundHalfEven n d = n / d + 1 ∧
      (d < 2 * (n % d) ∨ (2 * (n % d) = d ∧ (n / d) % 2 = 1))) := by
  unfold roundHalfEven
  simp only []
  by_cases h1 : 2 * (n % d) < d
  · left
    rw [if_pos h1]
    exact ⟨rfl, Or.inl h1⟩
  · rw [if_neg h1]
    by_cases h2 : d < 2 * (n % d)
    · right
      rw [if_pos h2]
      exact ⟨rfl, Or.inl h2⟩
    · rw [if_neg h2]
      by_cases h3 : (n / d) % 2 = 0
      · left
        rw [if_pos h3]
        exact ⟨rfl, Or.inr ⟨by omega, h3⟩⟩
      · right
        rw [if_neg h3]
        exact ⟨rfl, Or.inr ⟨by omega, by omega⟩⟩

/-- The rounded integer is within one half of the fraction. -/
theorem roundHalfEven_err (n d : Nat) (hd : 0 < d) :
    2 * (roundHalfEven n d * d) ≤ 2 * n + d ∧ 2 * n ≤ 2 * (roundHalfEven n d * d) + d := by
  have hdm := Nat.div_add_mod n d
  have hr := Nat.mod_lt n hd
  rw [Nat.mul_comm] at hdm
  rcases roundHalfEven_cases n d with ⟨h, hc⟩ | ⟨h, hc⟩
  · rw [h]
    generalize n / d * d = p at hdm ⊢
    constructor <;> omega
  · rw [h, Nat.add_mul, Nat.one_mul]
    generalize n / d * d = p at hdm ⊢
    constructor <;> omega

/-- Rounding to the nearest integer is monotone in the fraction. -/
theorem roundHalfEven_mono (n₁ d₁ n₂ d₂ : Nat) (h₁ : 0 < d₁) (h₂ : 0 < d₂)
    (h : n₁ * d₂ ≤ n₂ * d₁) : roundHalfEven n₁ d₁ ≤ roundHalfEven n₂ d₂ := by
  have e₁ := Nat.div_add_mod n₁ d₁
  have e₂ := Nat.div_add_mod n₂ d₂
  have r₁ := Nat.mod_lt n₁ h₁
  have r₂ := Nat.mod_lt n₂ h₂
  have C₁ := roundHalfEven_cases n₁ d₁
  have C₂ := roundHalfEven_cases n₂ d₂
  generalize roundHalfEven n₁ d₁ = m₁ at C₁ ⊢
  generalize roundHalfEven n₂ d₂ = m₂ at C₂ ⊢
  generalize n₁ / d₁ = q₁ at e₁ C₁
  generalize n₂ / d₂ = q₂ at e₂ C₂
  generalize n₁ % d₁ = a at e₁ r₁ C₁
  generalize n₂ % d₂ = b at e₂ r₂ C₂
  rw [← e₁, ← e₂] at h
  have hb' : b * d₁ < d₂ * d₁ := Nat.mul_lt_mul_of_pos_right r₂ h₁
  have hle : q₁ ≤ q₂ := by
    by_contra hcon
    have hq : q₂ + 1 ≤ q₁ := by omega
    have : (q₂ + 1) * (d₁ * d₂) ≤ q₁ * (d₁ * d₂) := Nat.mul_le_mul_right _ hq
    nlinarith
  rcases C₁ with ⟨e, c₁⟩ | ⟨e, c₁⟩ <;> rcases C₂ with ⟨e', c₂⟩ | ⟨e', c₂⟩ <;> rw [e, e']
  · exact hle
  · omega
  · by_contra hcon
    have hq : q₁ = q₂ := by omega
    subst hq
    have hab : a * d₂ ≤ b * d₁ := by nlinarith
    rcases c₁ with c₁ | ⟨c₁, p₁⟩ <;> rcases c₂ with c₂ | ⟨c₂, p₂⟩
    · have k₁ := Nat.mul_lt_mul_of_pos_right c₁ h₂
      have k₂ := Nat.mul_lt_mul_of_pos_right c₂ h₁
      nlinarith
    · have k₁ := Nat.mul_lt_mul_of_pos_right c₁ h₂
      have k₂ := congrArg (fun x => x * d₁) c₂
      simp only [] at k₂
      nlinarith
    · have k₁ := congrArg (fun x => x * d₂) c₁
      have k₂ := Nat.mul_lt_mul_of_pos_right c₂ h₁
      simp only [] at k₁
      nlinarith
    · omega
  · omega

theorem roundHalfEven_one (n : Nat) : roundHalfEven n 1 = n := by
  unfold roundHalfEven
  simp only [Nat.mod_one, Nat.div_one, Nat.mul_zero, Nat.lt_one_iff, if_true, Nat.zero_lt_one]

end Float64

namespace Float64

theorem two_zpow_pos (e : Int) : (0 : ℚ) < (2 : ℚ) ^ e := zpow_pos (by norm_num) e

/-- The scaled numerator over the scaled denominator is the fraction times `2 ^ s`. -/
theorem frac_scale (n d : Nat) (s : Int) :
    ((n * 2 ^ s.toNat : Nat) : ℚ) / ((d * 2 ^ (-s).toNat : Nat) : ℚ) =
      (n : ℚ) / (d : ℚ) * (2 : ℚ) ^ s := by
  rcases le_total 0 s with h | h
  · obtain ⟨k, rfl⟩ := Int.eq_ofNat_of_zero_le h
    have e : (-(k : Int)).toNat = 0 := by omega
    rw [e, Int.toNat_ofNat, pow_zero, mul_one, zpow_natCast]
    push_cast
    ring
  · obtain ⟨k, hk⟩ := Int.exists_eq_neg_ofNat h
    subst hk
    have e : (-(k : Int)).toNat = 0 := by omega
    rw [e, neg_neg, Int.toNat_ofNat, pow_zero, mul_one, zpow_neg, zpow_natCast]
    push_cast
    rw [div_mul_eq_mul_div, div_eq_mul_inv, div_eq_mul_inv, mul_inv]
    ring

theorem scaled_den_pos (d : Nat) (hd : 0 < d) (s : Int) : 0 < d * 2 ^ (-s).toNat :=
  Nat.mul_pos hd (Nat.pow_pos (by decide))

theorem toRat_nonneg (x : Float64) (h : 0 ≤ x.mant) : 0 ≤ x.toRat := by
  unfold toRat
  exact mul_nonneg (by exact_mod_cast h) (le_of_lt (two_zpow_pos _))

theorem round_mant_nonneg (n d : Nat) : 0 ≤ (round n d).mant := by
  unfold round
  simp only []
  split_ifs
  · exact le_refl _
  · exact le_of_lt (pow_pos (by decide) 52)
  · exact Int.natCast_nonneg _
  · exact le_of_lt (pow_pos (by decide) 52)
  · exact Int.natCast_nonneg _

theorem round_zero (d : Nat) : round 0 d = ⟨0, 0⟩ := by
  unfold round
  rw [if_pos rfl]

theorem toRat_zero : toRat ⟨0, 0⟩ = 0 := by
  unfold toRat
  simp

/-- The rounding of a positive fraction: the power of two that brings it into
`[2 ^ 52, 2 ^ 53)` and the integer nearest to the scaled fraction. -/
theorem round_spec (n d : Nat) (hn : 0 < n) (hd : 0 < d) :
    ∃ s : Int,
      (2 : ℚ) ^ 52 ≤ (n : ℚ) / (d : ℚ) * (2 : ℚ) ^ s ∧
      (n : ℚ) / (d : ℚ) * (2 : ℚ) ^ s < (2 : ℚ) ^ 53 ∧
      (round n d).toRat =
        (roundHalfEven (n * 2 ^ s.toNat) (d * 2 ^ (-s).toNat) : ℚ) * (2 : ℚ) ^ (-s) := by
  obtain ⟨a₁, a₂⟩ := ilog2_spec n hn
  obtain ⟨b₁, b₂⟩ := ilog2_spec d hd
  have hnq : (0 : ℚ) < (n : ℚ) := by exact_mod_cast hn
  have hdq : (0 : ℚ) < (d : ℚ) := by exact_mod_cast hd
  have a₁q : ((2 : ℚ) ^ ilog2 n) ≤ (n : ℚ) := by exact_mod_cast a₁
  have a₂q : (n : ℚ) < 2 * (2 : ℚ) ^ ilog2 n := by
    rw [pow_succ] at a₂
    have : ((n : Nat) : ℚ) < ((2 ^ ilog2 n * 2 : Nat) : ℚ) := by exact_mod_cast a₂
    push_cast at this
    linarith
  have b₁q : ((2 : ℚ) ^ ilog2 d) ≤ (d : ℚ) := by exact_mod_cast b₁
  have b₂q : (d : ℚ) < 2 * (2 : ℚ) ^ ilog2 d := by
    rw [pow_succ] at b₂
    have : ((d : Nat) : ℚ) < ((2 ^ ilog2 d * 2 : Nat) : ℚ) := by exact_mod_cast b₂
    push_cast at this
    linarith
  have hA : (0 : ℚ) < (2 : ℚ) ^ ilog2 n := by positivity
  have hB : (0 : ℚ) < (2 : ℚ) ^ ilog2 d := by positivity
  set s0 : Int := (ilog2 d : Int) + 53 - (ilog2 n : Int) with hs0
  have hX0 : (n : ℚ) / (d : ℚ) * (2 : ℚ) ^ s0 =
      (n : ℚ) * (2 : ℚ) ^ ilog2 d * (2 : ℚ) ^ 53 / ((d : ℚ) * (2 : ℚ) ^ ilog2 n) := by
    rw [hs0, zpow_sub₀ (by norm_num), zpow_add₀ (by norm_num), zpow_natCast, zpow_natCast]
    have : ((2 : ℚ) ^ (53 : Int)) = (2 : ℚ) ^ 53 := by norm_cast
    rw [this]
    field_simp
    ring
  have hlo : (2 : ℚ) ^ 52 < (n : ℚ) / (d : ℚ) * (2 : ℚ) ^ s0 := by
    rw [hX0, lt_div_iff₀ (by positivity)]
    have h1 : (d : ℚ) * (2 : ℚ) ^ ilog2 n < 2 * (2 : ℚ) ^ ilog2 d * (n : ℚ) := by
      calc (d : ℚ) * (2 : ℚ) ^ ilog2 n < 2 * (2 : ℚ) ^ ilog2 d * (2 : ℚ) ^ ilog2 n :=
            mul_lt_mul_of_pos_right b₂q hA
        _ ≤ 2 * (2 : ℚ) ^ ilog2 d * (n : ℚ) :=
            mul_le_mul_of_nonneg_left a₁q (by positivity)
    have h2 : (2 : ℚ) ^ 53 = 2 * (2 : ℚ) ^ 52 := by norm_num
    rw [h2]
    nlinarith
  have hhi : (n : ℚ) / (d : ℚ) * (2 : ℚ) ^ s0 < (2 : ℚ) ^ 54 := by
    rw [hX0, div_lt_iff₀ (by positivity)]
    have h1 : (n : ℚ) * (2 : ℚ) ^ ilog2 d < 2 * (2 : ℚ) ^ ilog2 n * (d : ℚ) := by
      calc (n : ℚ) * (2 : ℚ) ^ ilog2 d < 2 * (2 : ℚ) ^ ilog2 n * (2 : ℚ) ^ ilog2 d :=
            mul_lt_mul_of_pos_right a₂q hB
        _ ≤ 2 * (2 : ℚ) ^ ilog2 n * (d : ℚ) :=
            mul_le_mul_of_nonneg_left b₁q (by positivity)
    have h2 : (2 : ℚ) ^ 54 = 2 * (2 : ℚ) ^ 53 := by norm_num
    rw [h2]
    nlinarith
  have htest : (2 ^ 53 * (d * 2 ^ (-s0).toNat) ≤ n * 2 ^ s0.toNat) ↔
      (2 : ℚ) ^ 53 ≤ (n : ℚ) / (d : ℚ) * (2 : ℚ) ^ s0 := by
    rw [← frac_scale n d s0, le_div_iff₀ (by exact_mod_cast scaled_den_pos d hd s0)]
    constructor
    · intro h
      exact_mod_cast h
    · intro h
      exact_mod_cast h
  unfold round
  rw [if_neg (by omega)]
  simp only []
  rw [← hs0]
  by_cases ht : 2 ^ 53 * (d * 2 ^ (-s0).toNat) ≤ n * 2 ^ s0.toNat
  · rw [if_pos ht]
    have hge := htest.mp ht
    have hs : (2 : ℚ) ^ (s0 - 1) = (2 : ℚ) ^ s0 / 2 := by
      rw [zpow_sub₀ (by norm_num), zpow_one]
    refine ⟨s0 - 1, ?_, ?_, ?_⟩
    · rw [hs]
      have h2 : (2 : ℚ) ^ 53 = 2 * (2 : ℚ) ^ 52 := by norm_num
      rw [h2] at hge
      linarith
    · rw [hs]
      have h2 : (2 : ℚ) ^ 54 = 2 * (2 : ℚ) ^ 53 := by norm_num
      rw [h2] at hhi
      linarith
    · split
      · rename_i hm
        rw [hm]
        unfold toRat
        simp only []
        have : (1 - (s0 - 1) : Int) = -(s0 - 1) + 1 := by ring
        rw [this, zpow_add₀ (by norm_num), zpow_one]
        push_cast
        ring
      · unfold toRat
        simp only [Int.cast_natCast]
  · rw [if_neg ht]
    have hlt : (n : ℚ) / (d : ℚ) * (2 : ℚ) ^ s0 < (2 : ℚ) ^ 53 := by
      by_contra hcon
      exact ht (htest.mpr (not_lt.mp hcon))
    refine ⟨s0, le_of_lt hlo, hlt, ?_⟩
    split
    · rename_i hm
      rw [hm]
      unfold toRat
      simp only []
      have : (1 - s0 : Int) = -s0 + 1 := by ring
      rw [this, zpow_add₀ (by norm_num), zpow_one]
      push_cast
      ring
    · unfold toRat
      simp only [Int.cast_natCast]

end Float64

namespace Float64

theorem roundHalfEven_err_rat (n d : Nat) (hd : 0 < d) :
    |(roundHalfEven n d : ℚ) - (n : ℚ) / (d : ℚ)| ≤ 1 / 2 := by
  obtain ⟨h₁, h₂⟩ := roundHalfEven_err n d hd
  have hdq : (0 : ℚ) < (d : ℚ) := by exact_mod_cast hd
  have q₁ : (2 : ℚ) * ((roundHalfEven n d : ℚ) * (d : ℚ)) ≤ 2 * (n : ℚ) + (d : ℚ) := by
    exact_mod_cast h₁
  have q₂ : (2 : ℚ) * (n : ℚ) ≤ 2 * ((roundHalfEven n d : ℚ) * (d : ℚ)) + (d : ℚ) := by
    exact_mod_cast h₂
  rw [abs_le]
  constructor
  · rw [neg_le_sub_iff_le_add, div_le_iff₀ hdq]
    linarith
  · rw [sub_le_iff_le_add, ← sub_le_iff_le_add', le_div_iff₀ hdq]
    linarith

theorem round_nonneg (n d : Nat) : 0 ≤ (round n d).toRat :=
  toRat_nonneg _ (round_mant_nonneg n d)

/-- The rounded integer of a fraction in `[2 ^ 52, 2 ^ 53)` lies in `[2 ^ 52, 2 ^ 53]`. -/
theorem roundHalfEven_range (N D : Nat) (hD : 0 < D)
    (hlo : (2 : ℚ) ^ 52 ≤ (N : ℚ) / (D : ℚ)) (hhi : (N : ℚ) / (D : ℚ) < (2 : ℚ) ^ 53) :
    (2 : ℚ) ^ 52 ≤ (roundHalfEven N D : ℚ) ∧ (roundHalfEven N D : ℚ) ≤ (2 : ℚ) ^ 53 := by
  have hDq : (0 : ℚ) < (D : ℚ) := by exact_mod_cast hD
  have h₁ : 2 ^ 52 * D ≤ N := by
    rw [le_div_iff₀ hDq] at hlo
    exact_mod_cast hlo
  have h₂ : N ≤ 2 ^ 53 * D := by
    rw [div_lt_iff₀ hDq] at hhi
    have := le_of_lt hhi
    exact_mod_cast this
  have m₁ := roundHalfEven_mono (2 ^ 52) 1 N D Nat.one_pos hD (by omega)
  have m₂ := roundHalfEven_mono N D (2 ^ 53) 1 hD Nat.one_pos (by omega)
  rw [roundHalfEven_one] at m₁ m₂
  constructor
  · exact_mod_cast m₁
  · exact_mod_cast m₂

/-- Rounding to a double is monotone in the fraction. -/
theorem round_mono (n₁ d₁ n₂ d₂ : Nat) (h₁ : 0 < d₁) (h₂ : 0 < d₂)
    (h : n₁ * d₂ ≤ n₂ * d₁) : (round n₁ d₁).toRat ≤ (round n₂ d₂).toRat := by
  rcases Nat.eq_zero_or_pos n₁ with hz | hn₁
  · rw [hz, round_zero, toRat_zero]
    exact round_nonneg _ _
  have hn₂ : 0 < n₂ := by
    rcases Nat.eq_zero_or_pos n₂ with hz | hp
    · rw [hz, Nat.zero_mul] at h
      have := Nat.mul_pos hn₁ h₂
      omega
    · exact hp
  obtain ⟨s₁, lo₁, hi₁, v₁⟩ := round_spec n₁ d₁ hn₁ h₁
  obtain ⟨s₂, lo₂, hi₂, v₂⟩ := round_spec n₂ d₂ hn₂ h₂
  have hx : (n₁ : ℚ) / (d₁ : ℚ) ≤ (n₂ : ℚ) / (d₂ : ℚ) := by
    rw [div_le_div_iff₀ (by exact_mod_cast h₁) (by exact_mod_cast h₂)]
    exact_mod_cast h
  have hx₁ : (0 : ℚ) < (n₁ : ℚ) / (d₁ : ℚ) :=
    div_pos (by exact_mod_cast hn₁) (by exact_mod_cast h₁)
  have r₁ := roundHalfEven_range _ _ (scaled_den_pos d₁ h₁ s₁)
    (by rw [frac_scale]; exact lo₁) (by rw [frac_scale]; exact hi₁)
  have r₂ := roundHalfEven_range _ _ (scaled_den_pos d₂ h₂ s₂)
    (by rw [frac_scale]; exact lo₂) (by rw [frac_scale]; exact hi₂)
  rw [v₁, v₂]
  have hs : s₂ ≤ s₁ := by
    by_contra hcon
    have hs : s₁ + 1 ≤ s₂ := by omega
    have hp : (2 : ℚ) ^ (s₁ + 1) ≤ (2 : ℚ) ^ s₂ := zpow_le_zpow_right₀ (by norm_num) hs
    rw [zpow_add₀ (by norm_num), zpow_one] at hp
    have k₁ : (n₁ : ℚ) / (d₁ : ℚ) * ((2 : ℚ) ^ s₁ * 2) ≤
        (n₂ : ℚ) / (d₂ : ℚ) * (2 : ℚ) ^ s₂ :=
      mul_le_mul hx hp (by positivity) (le_trans (le_of_lt hx₁) hx)
    have h2 : (2 : ℚ) ^ 53 = 2 * (2 : ℚ) ^ 52 := by norm_num
    rw [h2] at hi₂
    linarith
  rcases eq_or_lt_of_le hs with he | hlt
  · subst he
    apply mul_le_mul_of_nonneg_right _ (le_of_lt (two_zpow_pos _))
    have := roundHalfEven_mono (n₁ * 2 ^ s₂.toNat) (d₁ * 2 ^ (-s₂).toNat)
      (n₂ * 2 ^ s₂.toNat) (d₂ * 2 ^ (-s₂).toNat) (scaled_den_pos d₁ h₁ s₂)
      (scaled_den_pos d₂ h₂ s₂) (by
        have := Nat.mul_le_mul_right (2 ^ s₂.toNat * 2 ^ (-s₂).toNat) h
        calc n₁ * 2 ^ s₂.toNat * (d₂ * 2 ^ (-s₂).toNat)
            = n₁ * d₂ * (2 ^ s₂.toNat * 2 ^ (-s₂).toNat) := by ring
          _ ≤ n₂ * d₁ * (2 ^ s₂.toNat * 2 ^ (-s₂).toNat) := this
          _ = n₂ * 2 ^ s₂.toNat * (d₁ * 2 ^ (-s₂).toNat) := by ring)
    exact_mod_cast this
  · have hp : (2 : ℚ) ^ (-s₁ + 1) ≤ (2 : ℚ) ^ (-s₂) :=
      zpow_le_zpow_right₀ (by norm_num) (by omega)
    rw [zpow_add₀ (by norm_num), zpow_one] at hp
    have p₁ := two_zpow_pos (-s₁)
    have p₂ := two_zpow_pos (-s₂)
    have h2 : (2 : ℚ) ^ 53 = 2 * (2 : ℚ) ^ 52 := by norm_num
    calc (roundHalfEven (n₁ * 2 ^ s₁.toNat) (d₁ * 2 ^ (-s₁).toNat) : ℚ) * (2 : ℚ) ^ (-s₁)
        ≤ (2 : ℚ) ^ 53 * (2 : ℚ) ^ (-s₁) := mul_le_mul_of_nonneg_right r₁.2 (le_of_lt p₁)
      _ = (2 : ℚ) ^ 52 * ((2 : ℚ) ^ (-s₁) * 2) := by rw [h2]; ring
      _ ≤ (2 : ℚ) ^ 52 * (2 : ℚ) ^ (-s₂) := mul_le_mul_of_nonneg_left hp (by positivity)
      _ ≤ (roundHalfEven (n₂ * 2 ^ s₂.toNat) (d₂ * 2 ^ (-s₂).toNat) : ℚ) * (2 : ℚ) ^ (-s₂) :=
          mul_le_mul_of_nonneg_right r₂.1 (le_of_lt p₂)

/-- The rounding error relative to the fraction is at most `2 ^ -53`. -/
theorem round_err (n d : Nat) (hd : 0 < d) :
    |(round n d).toRat - (n : ℚ) / (d : ℚ)| ≤ (n : ℚ) / (d : ℚ) * (2 : ℚ) ^ (-53 : Int) := by
  rcases Nat.eq_zero_or_pos n with hz | hn
  · rw [hz, round_zero, toRat_zero]
    simp
  obtain ⟨s, lo, hi, v⟩ := round_spec n d hn hd
  have he := roundHalfEven_err_rat (n * 2 ^ s.toNat) (d * 2 ^ (-s).toNat)
    (scaled_den_pos d hd s)
  rw [frac_scale] at he
  have p := two_zpow_pos (-s)
  have hx : (n : ℚ) / (d : ℚ) = (n : ℚ) / (d : ℚ) * (2 : ℚ) ^ s * (2 : ℚ) ^ (-s) := by
    rw [mul_assoc, ← zpow_add₀ (by norm_num)]
    simp
  have hu : (2 : ℚ) ^ (-53 : Int) = 1 / 2 / (2 : ℚ) ^ 52 := by
    rw [zpow_neg]
    norm_num
  rw [v]
  nth_rewrite 1 [hx]
  rw [← sub_mul, abs_mul, abs_of_pos p]
  nth_rewrite 2 [hx]
  rw [mul_right_comm]
  apply mul_le_mul_of_nonneg_right _ (le_of_lt p)
  refine le_trans he ?_
  rw [hu, mul_div_assoc', le_div_iff₀ (by positivity)]
  nlinarith

/-- An integer below `2 ^ 53` is a double. -/
theorem round_exact_int (n : Nat) (hn : n < 2 ^ 53) : (round n 1).toRat = (n : ℚ) := by
  rcases Nat.eq_zero_or_pos n with hz | hp
  · rw [hz, round_zero, toRat_zero]
    simp
  obtain ⟨s, lo, hi, v⟩ := round_spec n 1 hp Nat.one_pos
  have hs : 0 ≤ s := by
    by_contra hcon
    have hp1 : (2 : ℚ) ^ s ≤ (2 : ℚ) ^ (0 : Int) := zpow_le_zpow_right₀ (by norm_num) (by omega)
    rw [zpow_zero] at hp1
    have hnq : (n : ℚ) < (2 : ℚ) ^ 53 := by exact_mod_cast hn
    have hs1 : (2 : ℚ) ^ s ≤ (2 : ℚ) ^ (-1 : Int) := zpow_le_zpow_right₀ (by norm_num) (by omega)
    have h2 : (2 : ℚ) ^ 53 = 2 * (2 : ℚ) ^ 52 := by norm_num
    have h3 : (2 : ℚ) ^ (-1 : Int) = 1 / 2 := by norm_num
    rw [h3] at hs1
    rw [Nat.cast_one, div_one] at lo
    have : (n : ℚ) * (2 : ℚ) ^ s ≤ (n : ℚ) * (1 / 2) :=
      mul_le_mul_of_nonneg_left hs1 (by positivity)
    linarith
  rw [v]
  obtain ⟨k, rfl⟩ := Int.eq_ofNat_of_zero_le hs
  have e : (-(k : Int)).toNat = 0 := by omega
  rw [e, Int.toNat_ofNat, pow_zero, mul_one, roundHalfEven_one, zpow_neg, zpow_natCast]
  push_cast
  rw [mul_assoc, mul_inv_cancel₀ (by positivity), mul_one]

end Float64

namespace Float64

theorem round_mono_rat (n₁ d₁ n₂ d₂ : Nat) (h₁ : 0 < d₁) (h₂ : 0 < d₂)
    (h : (n₁ : ℚ) / (d₁ : ℚ) ≤ (n₂ : ℚ) / (d₂ : ℚ)) :
    (round n₁ d₁).toRat ≤ (round n₂ d₂).toRat := by
  apply round_mono n₁ d₁ n₂ d₂ h₁ h₂
  rw [div_le_div_iff₀ (by exact_mod_cast h₁) (by exact_mod_cast h₂)] at h
  exact_mod_cast h

/-- The rounded value depends on the value of the fraction only. -/
theorem round_congr_rat (n₁ d₁ n₂ d₂ : Nat) (h₁ : 0 < d₁) (h₂ : 0 < d₂)
    (h : (n₁ : ℚ) / (d₁ : ℚ) = (n₂ : ℚ) / (d₂ : ℚ)) :
    (round n₁ d₁).toRat = (round n₂ d₂).toRat :=
  le_antisymm (round_mono_rat _ _ _ _ h₁ h₂ (le_of_eq h))
    (round_mono_rat _ _ _ _ h₂ h₁ (le_of_eq h.symm))

theorem toRat_of_nonneg (a : Float64) (h : 0 ≤ a.mant) :
    a.toRat = (a.mant.natAbs : ℚ) * (2 : ℚ) ^ a.exp := by
  unfold toRat
  have : ((a.mant.natAbs : Int) : ℚ) = (a.mant : ℚ) := by
    rw [Int.natAbs_of_nonneg h]
  rw [← this, Int.cast_natCast]

theorem mant_pos_of_toRat_pos (a : Float64) (h : 0 < a.toRat) : 0 < a.mant := by
  unfold toRat at h
  have := (pos_iff_pos_of_mul_pos h).mpr (two_zpow_pos a.exp)
  exact_mod_cast this

theorem ofInt_natCast (n : Nat) : ofInt (n : Int) = round n 1 := by
  unfold ofInt withSign
  rw [if_neg (by simp), Int.natAbs_ofNat]

/-- The division of a double that is not negative by a positive one: the exact
quotient, rounded. -/
theorem div_eq_round (a b : Float64) (ha : 0 ≤ a.mant) (hb : 0 < b.mant) :
    ∃ N D : Nat, 0 < D ∧ div a b = round N D ∧ (N : ℚ) / (D : ℚ) = a.toRat / b.toRat := by
  refine ⟨a.mant.natAbs * 2 ^ (a.exp - b.exp).toNat,
    b.mant.natAbs * 2 ^ (b.exp - a.exp).toNat, ?_, ?_, ?_⟩
  · exact Nat.mul_pos (Int.natAbs_pos.mpr (by omega)) (Nat.pow_pos (by decide))
  · unfold div withSign
    have h₁ : decide (a.mant < 0) = false := by simp; omega
    have h₂ : decide (b.mant < 0) = false := by simp; omega
    rw [h₁, h₂]
    rfl
  · have e : b.exp - a.exp = -(a.exp - b.exp) := by ring
    rw [e, frac_scale, toRat_of_nonneg a ha, toRat_of_nonneg b (le_of_lt hb),
      zpow_sub₀ (by norm_num)]
    have hbq : (b.mant.natAbs : ℚ) ≠ 0 :=
      Nat.cast_ne_zero.mpr (Int.natAbs_ne_zero.mpr (by omega))
    have hp : (2 : ℚ) ^ b.exp ≠ 0 := ne_of_gt (two_zpow_pos _)
    field_simp

/-- The multiplication of two doubles that are not negative: the exact product,
rounded. -/
theorem mul_eq_round (a b : Float64) (ha : 0 ≤ a.mant) (hb : 0 ≤ b.mant) :
    ∃ N D : Nat, 0 < D ∧ mul a b = round N D ∧ (N : ℚ) / (D : ℚ) = a.toRat * b.toRat := by
  refine ⟨a.mant.natAbs * b.mant.natAbs * 2 ^ (a.exp + b.exp).toNat,
    1 * 2 ^ (-(a.exp + b.exp)).toNat, ?_, ?_, ?_⟩
  · exact Nat.mul_pos Nat.one_pos (Nat.pow_pos (by decide))
  · unfold mul withSign
    have h₁ : decide (a.mant < 0) = false := by simp; omega
    have h₂ : decide (b.mant < 0) = false := by simp; omega
    rw [h₁, h₂, Nat.one_mul]
    rfl
  · rw [frac_scale, toRat_of_nonneg a ha, toRat_of_nonneg b hb, zpow_add₀ (by norm_num)]
    push_cast
    ring

theorem toRat_round_one : (round 1 1).toRat = 1 := by
  have := round_exact_int 1 (by norm_num)
  simpa using this

theorem toRat_round_hundred : (round 100 1).toRat = 100 := by
  have := round_exact_int 100 (by norm_num)
  simpa using this

set_option maxRecDepth 100000 in
/-- The REAL expression `CAST(c AS FLOAT) / t * 100` at 7 of 25: the double
`7881299347898369 * 2 ^ -48`, printed 28.000000000000004, which is the IEEE 754
result of `(7.0 / 25) * 100` and is one unit in the last place above the double
28. -/
theorem rate_seven_of_twenty_five :
    mul (div (ofInt 7) (ofInt 25)) (ofInt 100) = ⟨7881299347898369, -48⟩ ∧
    ofInt 28 = ⟨7881299347898368, -48⟩ := by
  decide

/-- The value of the REAL expression `CAST(c AS FLOAT) / t * 100` for counts
`c ≤ t`, `t > 0`: between 0 and 100; exactly `c / t * 100` when `c` is 0 or `t`;
within a relative error of `2 ^ -51` of it when `t < 2 ^ 53`. -/
theorem rate_spec (c t : Nat) (hct : c ≤ t) (ht : 0 < t) :
    0 ≤ (mul (div (ofInt c) (ofInt t)) (ofInt 100)).toRat ∧
    (mul (div (ofInt c) (ofInt t)) (ofInt 100)).toRat ≤ 100 ∧
    (c = 0 ∨ c = t →
      (mul (div (ofInt c) (ofInt t)) (ofInt 100)).toRat = (c : ℚ) / (t : ℚ) * 100) ∧
    (t < 2 ^ 53 →
      |(mul (div (ofInt c) (ofInt t)) (ofInt 100)).toRat - (c : ℚ) / (t : ℚ) * 100| ≤
        (c : ℚ) / (t : ℚ) * 100 * (2 : ℚ) ^ (-51 : Int)) := by
  have e100 : ofInt 100 = round 100 1 := ofInt_natCast 100
  have ec : ofInt (c : Int) = round c 1 := ofInt_natCast c
  have et : ofInt (t : Int) = round t 1 := ofInt_natCast t
  rw [e100, ec, et]
  have htq : (0 : ℚ) < (t : ℚ) := by exact_mod_cast ht
  have hc0 : 0 ≤ (round c 1).mant := round_mant_nonneg c 1
  have hct' : (round c 1).toRat ≤ (round t 1).toRat :=
    round_mono c 1 t 1 Nat.one_pos Nat.one_pos (by omega)
  have ht1 : 1 ≤ (round t 1).toRat := by
    rw [← toRat_round_one]
    exact round_mono 1 1 t 1 Nat.one_pos Nat.one_pos (by omega)
  have htm : 0 < (round t 1).mant := mant_pos_of_toRat_pos _ (by linarith)
  obtain ⟨N, D, hD, hq, hx⟩ := div_eq_round (round c 1) (round t 1) hc0 htm
  have hcn := round_nonneg c 1
  have hq0 : 0 ≤ (round N D).mant := round_mant_nonneg N D
  have hh0 : 0 ≤ (round 100 1).mant := round_mant_nonneg 100 1
  rw [hq]
  obtain ⟨N', D', hD', hr, hy⟩ := mul_eq_round (round N D) (round 100 1) hq0 hh0
  rw [hr]
  rw [toRat_round_hundred] at hy
  have hxle : (N : ℚ) / (D : ℚ) ≤ 1 := by
    rw [hx, div_le_one (by linarith)]
    exact hct'
  have hq1 : (round N D).toRat ≤ 1 := by
    rw [← toRat_round_one]
    apply round_mono_rat N D 1 1 hD Nat.one_pos
    simpa using hxle
  have hqn := round_nonneg N D
  refine ⟨round_nonneg _ _, ?_, ?_, ?_⟩
  · rw [← toRat_round_hundred]
    apply round_mono_rat N' D' 100 1 hD' Nat.one_pos
    rw [hy]
    simp only [Nat.cast_ofNat, Nat.cast_one, div_one]
    linarith
  · intro h
    have hxv : (N : ℚ) / (D : ℚ) = (c : ℚ) / (t : ℚ) := by
      rcases h with h | h
      · rw [hx, h, round_zero, toRat_zero]
        simp
      · rw [hx, h, div_self (by linarith), div_self (ne_of_gt htq)]
    have hqv : (round N D).toRat = (c : ℚ) / (t : ℚ) := by
      rcases h with h | h
      · rw [h] at hxv ⊢
        have : (N : ℚ) / (D : ℚ) = ((0 : Nat) : ℚ) / ((1 : Nat) : ℚ) := by
          rw [hxv]
          simp
        rw [round_congr_rat N D 0 1 hD Nat.one_pos this, round_zero, toRat_zero]
        simp
      · rw [h] at hxv ⊢
        have : (N : ℚ) / (D : ℚ) = ((1 : Nat) : ℚ) / ((1 : Nat) : ℚ) := by
          rw [hxv, div_self (ne_of_gt htq)]
          simp
        rw [round_congr_rat N D 1 1 hD Nat.one_pos this, toRat_round_one,
          div_self (ne_of_gt htq)]
    rw [hqv] at hy
    rcases h with h | h
    · rw [h] at hy ⊢
      have : (N' : ℚ) / (D' : ℚ) = ((0 : Nat) : ℚ) / ((1 : Nat) : ℚ) := by
        rw [hy]
        simp
      rw [round_congr_rat N' D' 0 1 hD' Nat.one_pos this, round_zero, toRat_zero]
      simp
    · rw [h] at hy ⊢
      have : (N' : ℚ) / (D' : ℚ) = ((100 : Nat) : ℚ) / ((1 : Nat) : ℚ) := by
        rw [hy, div_self (ne_of_gt htq)]
        simp
      rw [round_congr_rat N' D' 100 1 hD' Nat.one_pos this, toRat_round_hundred,
        div_self (ne_of_gt htq)]
      simp
  · intro hlt
    have hcv : (round c 1).toRat = (c : ℚ) := round_exact_int c (by omega)
    have htv : (round t 1).toRat = (t : ℚ) := round_exact_int t hlt
    rw [hcv, htv] at hx
    have e₁ := round_err N D hD
    have e₂ := round_err N' D' hD'
    rw [hx] at e₁
    rw [hy] at e₂
    have hxn : (0 : ℚ) ≤ (c : ℚ) / (t : ℚ) := by positivity
    have hu : (2 : ℚ) ^ (-53 : Int) = 1 / 9007199254740992 := by
      rw [zpow_neg]
      norm_num
    have hv : (2 : ℚ) ^ (-51 : Int) = 1 / 2251799813685248 := by
      rw [zpow_neg]
      norm_num
    rw [hu] at e₁ e₂
    rw [hv]
    rw [abs_le] at e₁ e₂ ⊢
    constructor <;> nlinarith [e₁.1, e₁.2, e₂.1, e₂.2]

end Float64

/-! ## Claims -/

/-- C1: for all integers `page`, `pageSize`, `GetDefaultPagination` returns
`(p, s)` with `p = page` when `page ≥ 1` and `p = 1` otherwise, `s = pageSize`
when `1 ≤ pageSize ≤ 100` and `s = 100` otherwise; so `p ≥ 1`, `1 ≤ s ≤ 100`,
and in-range inputs come back unchanged. -/
theorem C1_GetDefaultPagination (page pageSize : Int) :
    (validation.GetDefaultPagination page pageSize).1 = (if 1 ≤ page then page else 1) ∧
    (validation.GetDefaultPagination page pageSize).2 =
      (if 1 ≤ pageSize ∧ pageSize ≤ 100 then pageSize else 100) ∧
    1 ≤ (validation.GetDefaultPagination page pageSize).1 ∧
    1 ≤ (validation.GetDefaultPagination page pageSize).2 ∧
    (validation.GetDefaultPagination page pageSize).2 ≤ 100 ∧
    (1 ≤ page → 1 ≤ pageSize → pageSize ≤ 100 →
      validation.GetDefaultPagination page pageSize = (page, pageSize)) := by
  unfold validation.GetDefaultPagination
  refine ⟨?_, ?_, ?_, ?_, ?_, ?_⟩
  · simp only []
    split_ifs <;> omega
  · simp only []
    split_ifs <;> omega
  · simp only []
    split_ifs <;> omega
  · simp only []
    split_ifs <;> omega
  · simp only []
    split_ifs <;> omega
  · intro h1 h2 h3
    have e1 : ¬ page < 1 := by omega
    have e2 : ¬ (pageSize < 1 ∨ pageSize > 100) := by omega
    simp only [e1, e2, if_false]

/-- C1 at a concrete input: page 3 with page size 20 comes back unchanged. -/
theorem C1_GetDefaultPagination_witness :
    validation.GetDefaultPagination 3 20 = (3, 20) :=
  (C1_GetDefaultPagination 3 20).2.2.2.2.2 (by decide) (by decide) (by decide)

/-- C2: for every `total_items ≥ 0` and `1 ≤ page_size ≤ 100` the handlers'
expression `(total_items + page_size - 1) / page_size`, with Go's truncating
integer division, equals `ceil(total_items / page_size)`; and evaluated on 64-bit
Go `int`s (`totalPages`) it does not panic and yields that same value whenever the
sum fits an `int`, which it does for every row count a store returns. -/
theorem C2_totalPages_eq_ceil (total pageSize : Int)
    (h0 : 0 ≤ total) (h1 : 1 ≤ pageSize) (h2 : pageSize ≤ 100) :
    Int.tdiv (total + pageSize - 1) pageSize = Int.ceil ((total : ℚ) / (pageSize : ℚ)) ∧
    (total + pageSize - 1 ≤ maxInt →
      totalPages total pageSize = some (Int.ceil ((total : ℚ) / (pageSize : ℚ)))) := by
  have hdiv : Int.tdiv (total + pageSize - 1) pageSize =
      Int.ceil ((total : ℚ) / (pageSize : ℚ)) := by
    rw [Int.tdiv_eq_ediv (by omega) (by omega), ceil_div_eq total pageSize (by omega)]
  refine ⟨hdiv, ?_⟩
  intro hfit
  have hne : pageSize ≠ 0 := by omega
  have hnum : goSub (goAdd total pageSize) 1 = total + pageSize - 1 := by
    unfold goSub goAdd
    rw [wrapInt_sub_one_wrapInt]
    apply wrapInt_of_inRange
    · unfold minInt; omega
    · exact hfit
  have hq0 : 0 ≤ (total + pageSize - 1) / pageSize :=
    Int.ediv_nonneg (by omega) (by omega)
  have hq1 : (total + pageSize - 1) / pageSize ≤ total + pageSize - 1 :=
    Int.ediv_le_self _ (by omega)
  unfold totalPages goQuo
  rw [hnum, if_neg hne, ← hdiv, Int.tdiv_eq_ediv (by omega) (by omega)]
  rw [wrapInt_of_inRange _ (by unfold minInt; omega) (by omega)]

/-- C2 at a concrete count: 101 items in pages of 100 make 2 pages, also on Go
`int`s. -/
theorem C2_totalPages_eq_ceil_witness :
    totalPages 101 100 = some (Int.ceil (((101 : Int) : ℚ) / ((100 : Int) : ℚ))) :=
  (C2_totalPages_eq_ceil 101 100 (by decide) (by decide) (by decide)).2 (by decide)

/-- C3 (as stated) fails: `GET /api/words?page=0&page_size=1000` hands page 0 and
page size 1000 to the repository, and `GET /api/study_sessions?page=1&page_size=101`
is answered 400 without any repository call instead of falling back to 100. -/
theorem C3_counterexample :
    (handlers.WordsHandler.GetWords handlers.exampleDB
        ⟨[], [("page", "0"), ("page_size", "1000")], none⟩).calls = [.GetWords 0 1000] ∧
    handlers.StudyHandler.GetStudySessions handlers.exampleDB
        ⟨[], [("page", "1"), ("page_size", "101")], none⟩ =
      ⟨.JSON 400 (.error "Invalid pagination parameters"), [], handlers.exampleDB⟩ := by
  constructor <;> decide

/-- C3 (amended): on the three study list endpoints every page and page size that
reaches the repository, and that the envelope is computed from, is the bound
query value and satisfies `page ≥ 1`, `1 ≤ page_size ≤ 100`; a supplied value
that does not parse or is out of range is answered 400 with no repository call
(no fallback).  On the words, groups and group-words endpoints absent parameters
give page 1 and page size 100. -/
theorem C3_pagination_passed (db : DBService) (c : gin.Context) :
    (∀ call ∈ (handlers.StudyHandler.GetStudySessions db c).calls ++
          (handlers.StudyHandler.GetStudySessionWords db c).calls ++
          (handlers.StudyHandler.GetStudyActivitySessions db c).calls,
        ∀ p s, call.pagination = some (p, s) →
          gin.bindInt c "page" = .ok p ∧ gin.bindInt c "page_size" = .ok s ∧
          1 ≤ p ∧ 1 ≤ s ∧ s ≤ 100) ∧
    (∀ out ∈ [handlers.StudyHandler.GetStudySessions db c,
          handlers.StudyHandler.GetStudySessionWords db c,
          handlers.StudyHandler.GetStudyActivitySessions db c],
        ∀ i cp tp ti ipp, out.reply = .JSON handlers.StatusOK (.list i cp tp ti ipp) →
          1 ≤ cp ∧ 1 ≤ ipp ∧ ipp ≤ 100 ∧ totalPages ti ipp = some tp) ∧
    (∀ p s, gin.bindInt c "page" = .ok p → gin.bindInt c "page_size" = .ok s →
        ((c.query.lookup "page" ≠ none ∧ p < 1) ∨
         (c.query.lookup "page_size" ≠ none ∧ (s < 1 ∨ 100 < s))) →
        ∀ out ∈ [handlers.StudyHandler.GetStudySessions db c,
          handlers.StudyHandler.GetStudySessionWords db c,
          handlers.StudyHandler.GetStudyActivitySessions db c],
          ∃ msg, out = ⟨.JSON handlers.StatusBadRequest (.error msg), [], db⟩) ∧
    (∀ e, (gin.bindInt c "page" = .error e ∨ gin.bindInt c "page_size" = .error e) →
        ∀ out ∈ [handlers.StudyHandler.GetStudySessions db c,
          handlers.StudyHandler.GetStudySessionWords db c,
          handlers.StudyHandler.GetStudyActivitySessions db c],
          ∃ msg, out = ⟨.JSON handlers.StatusBadRequest (.error msg), [], db⟩) ∧
    (c.query.lookup "page" = none → c.query.lookup "page_size" = none →
        (handlers.WordsHandler.GetWords db c).calls = [.GetWords 1 100] ∧
        (handlers.GroupsHandler.GetGroups db c).calls = [.GetGroups 1 100] ∧
        ∀ call ∈ (handlers.GroupsHandler.GetGroupWords db c).calls,
          call.pagination = some (1, 100)) := by
  have hA := handlers.GetStudySessions_outcome db c
  have hB := handlers.GetStudySessionWords_outcome db c
  have hC := handlers.GetStudyActivitySessions_outcome db c
  have reject : (∃ err, gin.ShouldBindQuery c = .error err) →
      ∀ out ∈ [handlers.StudyHandler.GetStudySessions db c,
          handlers.StudyHandler.GetStudySessionWords db c,
          handlers.StudyHandler.GetStudyActivitySessions db c],
          ∃ msg, out = ⟨.JSON handlers.StatusBadRequest (.error msg), [], db⟩ := by
    rintro ⟨err, herr⟩ out hout
    simp only [List.mem_cons, List.mem_singleton, List.not_mem_nil, or_false] at hout
    rcases hout with rfl | rfl | rfl
    · exact ⟨_, hA.1 err herr⟩
    · exact hB.1 err herr
    · exact hC.1 err herr
  refine ⟨?_, ?_, ?_, ?_, ?_⟩
  · intro call hcall p s hps
    cases hq : gin.ShouldBindQuery c with
    | error e =>
        exfalso
        have h1 := hA.1 e hq
        obtain ⟨_, h2⟩ := hB.1 e hq
        obtain ⟨_, h3⟩ := hC.1 e hq
        rw [h1, h2, h3] at hcall
        cases hcall
    | ok pg =>
        obtain ⟨b1, b2, r1, r2, r3⟩ := gin.ShouldBindQuery_ok c pg hq
        have key : call.pagination = some (pg.Page, pg.PageSize) := by
          simp only [List.mem_append] at hcall
          rcases hcall with (h | h) | h
          · rw [(hA.2 pg hq).1] at h
            simp only [List.mem_singleton] at h
            subst h
            rfl
          · exact (hB.2 pg hq).1 call h
          · exact (hC.2 pg hq).1 call h
        rw [key] at hps
        simp only [Option.some.injEq, Prod.mk.injEq] at hps
        obtain ⟨rfl, rfl⟩ := hps
        exact ⟨b1, b2, r1, r2, r3⟩
  · intro out hout i cp tp ti ipp hrep
    cases hq : gin.ShouldBindQuery c with
    | error e =>
        exfalso
        obtain ⟨msg, hm⟩ := reject ⟨e, hq⟩ out hout
        rw [hm] at hrep
        simp only [handlers.StatusBadRequest, handlers.StatusOK, handlers.Reply.JSON.injEq] at hrep
        omega
    | ok pg =>
        obtain ⟨_, _, r1, r2, r3⟩ := gin.ShouldBindQuery_ok c pg hq
        simp only [List.mem_cons, List.mem_singleton, List.not_mem_nil, or_false] at hout
        have key : cp = pg.Page ∧ ipp = pg.PageSize ∧ totalPages ti ipp = some tp := by
          rcases hout with rfl | rfl | rfl
          · exact (hA.2 pg hq).2 i cp tp ti ipp hrep
          · exact (hB.2 pg hq).2 i cp tp ti ipp hrep
          · exact (hC.2 pg hq).2 i cp tp ti ipp hrep
        obtain ⟨rfl, rfl, h3⟩ := key
        exact ⟨r1, r2, r3, h3⟩
  · intro p s hp hs hbad
    apply reject
    apply gin.ShouldBindQuery_outOfRange c p s hp hs
    rcases hbad with ⟨_, h⟩ | ⟨_, h | h⟩
    · exact Or.inl h
    · exact Or.inr (Or.inl h)
    · exact Or.inr (Or.inr h)
  · intro e he
    exact reject (gin.ShouldBindQuery_of_bindInt_error c e he)
  · intro hp hs
    have e1 : (strconv.Atoi (c.DefaultQuery "page" "1")).1 = 1 := by
      simp only [gin.Context.DefaultQuery, hp, Option.getD_none]
      decide
    have e2 : (strconv.Atoi (c.DefaultQuery "page_size" "100")).1 = 100 := by
      simp only [gin.Context.DefaultQuery, hs, Option.getD_none]
      decide
    refine ⟨?_, ?_, ?_⟩
    · unfold handlers.WordsHandler.GetWords
      simp only [e1, e2]
      cases db.GetWords 1 100 with
      | error err => rfl
      | ok r => rfl
    · unfold handlers.GroupsHandler.GetGroups
      simp only [e1, e2]
      cases db.GetGroups 1 100 with
      | error err => rfl
      | ok r => rfl
    · intro call hcall
      unfold handlers.GroupsHandler.GetGroupWords at hcall
      rcases hid : strconv.ParseInt (c.Param "id") with ⟨id, _ | cause⟩
      · simp only [hid, e1, e2] at hcall
        cases hr : db.GetGroupWords id 1 100 with
        | error err =>
            simp only [hr, List.mem_singleton] at hcall
            subst hcall
            rfl
        | ok r =>
            simp only [hr, List.mem_singleton] at hcall
            subst hcall
            rfl
      · simp only [hid] at hcall
        cases hcall

/-- C3 at concrete requests: without query parameters `GetWords` asks the
repository for page 1 of size 100, and a supplied `page_size=101` on the study
sessions endpoint is answered 400. -/
theorem C3_pagination_passed_witness :
    (handlers.WordsHandler.GetWords handlers.exampleDB ⟨[], [], none⟩).calls =
      [.GetWords 1 100] ∧
    ∃ msg, handlers.StudyHandler.GetStudySessions handlers.exampleDB
        ⟨[], [("page", "1"), ("page_size", "101")], none⟩ =
      ⟨.JSON handlers.StatusBadRequest (.error msg), [], handlers.exampleDB⟩ :=
  ⟨((C3_pagination_passed handlers.exampleDB ⟨[], [], none⟩).2.2.2.2 rfl rfl).1,
   (C3_pagination_passed handlers.exampleDB
      ⟨[], [("page", "1"), ("page_size", "101")], none⟩).2.2.1 1 101 (by decide) (by decide)
      (Or.inr ⟨by decide, Or.inr (by decide)⟩) _ (List.mem_cons_self _ _)⟩

/-- C4 (the code at the failing input): a request without `page` and `page_size`
binds both fields to 0, fails the `min=1` tags and is answered 400 on each of the
three endpoints that bind `PaginationRequest`; the repository is not called, so
`GetDefaultPagination` never sees the zero values. -/
theorem C4_absent_pagination_rejected (db : DBService) (c : gin.Context)
    (hp : c.query.lookup "page" = none) (hs : c.query.lookup "page_size" = none) :
    handlers.StudyHandler.GetStudySessions db c =
      ⟨.JSON handlers.StatusBadRequest (.error "Invalid pagination parameters"), [], db⟩ ∧
    (∃ msg, handlers.StudyHandler.GetStudySessionWords db c =
      ⟨.JSON handlers.StatusBadRequest (.error msg), [], db⟩) ∧
    (∃ msg, handlers.StudyHandler.GetStudyActivitySessions db c =
      ⟨.JSON handlers.StatusBadRequest (.error msg), [], db⟩) := by
  have b1 : gin.bindInt c "page" = .ok 0 := by
    unfold gin.bindInt
    rw [hp]
  have b2 : gin.bindInt c "page_size" = .ok 0 := by
    unfold gin.bindInt
    rw [hs]
  obtain ⟨err, herr⟩ := gin.ShouldBindQuery_outOfRange c 0 0 b1 b2 (Or.inl (by decide))
  exact ⟨(handlers.GetStudySessions_outcome db c).1 err herr,
    (handlers.GetStudySessionWords_outcome db c).1 err herr,
    (handlers.GetStudyActivitySessions_outcome db c).1 err herr⟩

/-- C4 at a concrete request: `GET /api/study_sessions` without a query string. -/
theorem C4_absent_pagination_rejected_witness :
    handlers.StudyHandler.GetStudySessions handlers.exampleDB ⟨[], [], none⟩ =
      ⟨.JSON handlers.StatusBadRequest (.error "Invalid pagination parameters"), [],
        handlers.exampleDB⟩ :=
  (C4_absent_pagination_rejected handlers.exampleDB ⟨[], [], none⟩ rfl rfl).1

/-- C5 (the code on every body `{"correct": b}`): with integer path parameters,
`b = true` reaches the repository and, when the insert succeeds, is answered 200
with the receipt echoing ids and flag; `b = false` fails the `required` tag of the
bound struct and is answered 400 "Invalid request body" without any repository
call, the store left as it was. -/
theorem C5_AddWordReview_handler (db : DBService) (c : gin.Context)
    (wordID sessionID : Int) (members : List (String × gin.JVal)) (b : Bool)
    (hw : strconv.ParseInt (c.Param "word_id") = (wordID, none))
    (hs : strconv.ParseInt (c.Param "id") = (sessionID, none))
    (hbody : c.body = some members)
    (hb : members.lookup "correct" = some (.bool b)) :
    handlers.WordsHandler.AddWordReview db c =
      (if b = true then
        match db.AddWordReview wordID sessionID true with
        | .ok db1 =>
            ⟨.JSON handlers.StatusOK (.review true wordID sessionID true),
              [.AddWordReview wordID sessionID true], db1⟩
        | .error err =>
            ⟨.JSON handlers.StatusInternalServerError (.error err.Error),
              [.AddWordReview wordID sessionID true], db⟩
      else
        ⟨.JSON handlers.StatusBadRequest (.error "Invalid request body"), [], db⟩) := by
  unfold handlers.WordsHandler.AddWordReview
  simp only [hw, hs]
  unfold gin.ShouldBindJSONReview gin.decodeBool
  simp only [hbody, hb]
  cases b with
  | false => rfl
  | true =>
      rw [if_neg (by decide), if_pos rfl]
      simp only []
      cases hr : db.AddWordReview wordID sessionID true with
      | error err => rfl
      | ok db1 => rfl

/-- C5 at the failing request: `POST /api/study_sessions/1/words/1/review` with
body `{"correct": false}` is answered 400 and nothing is stored. -/
theorem C5_AddWordReview_handler_witness :
    handlers.WordsHandler.AddWordReview handlers.exampleDB
        ⟨[("id", "1"), ("word_id", "1")], [], some [("correct", .bool false)]⟩ =
      ⟨.JSON handlers.StatusBadRequest (.error "Invalid request body"), [],
        handlers.exampleDB⟩ :=
  C5_AddWordReview_handler handlers.exampleDB
    ⟨[("id", "1"), ("word_id", "1")], [], some [("correct", .bool false)]⟩ 1 1
    [("correct", .bool false)] false (by decide) (by decide) rfl (by decide)

/-- C6: in a store that holds word `w` (ids being the primary key of `words`) and
on a connection that runs the two statements of `GetWord`, after a successful
`AddWordReview(w, s, true)` the repository `GetWord(w)` reports `correct_count`
exactly 1 higher and the same `wrong_count`; after a successful
`AddWordReview(w, s, false)` it reports `wrong_count` exactly 1 higher and the same
`correct_count`; `GetWord(v)` of every other id `v` returns what it returned before. -/
theorem C6_review_updates_stats (s s1 : DBService) (w : models.Word) (sessionID : Int)
    (correct : Bool)
    (hpk : (s.store.words.map fun x => x.ID).Nodup) (hw : w ∈ s.store.words)
    (hf1 : s.faults.lookup .selectWord = none)
    (hf2 : s.faults.lookup .selectWordGroups = none)
    (hadd : s.AddWordReview w.ID sessionID correct = .ok s1) :
    ∃ before after : models.WordWithStats,
      s.GetWord w.ID = .ok (some before) ∧ s1.GetWord w.ID = .ok (some after) ∧
      after.toWord = w ∧ before.toWord = w ∧
      after.CorrectCount = before.CorrectCount + (if correct = true then 1 else 0) ∧
      after.WrongCount = before.WrongCount + (if correct = true then 0 else 1) ∧
      ∀ v, v ≠ w.ID → s1.GetWord v = s.GetWord v := by
  have hs1 := DBService.AddWordReview_ok s s1 w.ID sessionID correct hadd
  subst hs1
  have hbefore := DBService.GetWord_stored s w hpk hw hf1 hf2
  have hafter := DBService.GetWord_stored
    { s with store := sql.insertReview s.store w.ID sessionID correct s.now } w hpk hw hf1 hf2
  refine ⟨_, _, hbefore, hafter, rfl, rfl, ?_, ?_, ?_⟩
  · simp only []
    rw [sql.lifetimeCount_insertReview]
  · simp only []
    rw [sql.lifetimeCount_insertReview]
    cases correct <;> rfl
  · intro v hv
    unfold DBService.GetWord DBService.QueryRow DBService.Query
    simp only []
    rw [sql.selectWord_insertReview_other s.store w.ID sessionID correct s.now v hv]
    rfl

/-- C6 at a concrete store: after one more correct review of word 1 in session 1
the repository reports 3 correct and 0 wrong answers for it. -/
theorem C6_review_updates_stats_witness :
    ∃ before after : models.WordWithStats,
      handlers.exampleDB.GetWord 1 = .ok (some before) ∧
      (DBService.mk (sql.insertReview handlers.exampleDB.store 1 1 true 20) false [] 20).GetWord 1 =
        .ok (some after) ∧
      after.toWord = ⟨1, "你好", "nihao", "hello", ""⟩ ∧
      before.toWord = ⟨1, "你好", "nihao", "hello", ""⟩ ∧
      after.CorrectCount = before.CorrectCount + (if true = true then 1 else 0) ∧
      after.WrongCount = before.WrongCount + (if true = true then 0 else 1) ∧
      ∀ v, v ≠ (1 : Int) →
        (DBService.mk (sql.insertReview handlers.exampleDB.store 1 1 true 20) false [] 20).GetWord v =
          handlers.exampleDB.GetWord v :=
  C6_review_updates_stats handlers.exampleDB
    (DBService.mk (sql.insertReview handlers.exampleDB.store 1 1 true 20) false [] 20)
    ⟨1, "你好", "nihao", "hello", ""⟩ 1 true (by decide) (by decide) (by decide) (by decide)
    (by decide)

/-- C7 (the code at the failing input): word 1 has two review rows, both correct
and both in session 1, so its lifetime aggregates are 2 and 0, which is what
`GetWord` reports; `GetStudySessionWords(1, 1, 100)` joins each of the two session
rows with each of the two lifetime rows and reports `correct_count` 4. -/
theorem C7_session_words_counts_multiplied :
    handlers.exampleDB.GetStudySessionWords 1 1 100 =
      .ok ([{ toWord := ⟨1, "你好", "nihao", "hello", ""⟩, CorrectCount := 4, WrongCount := 0 }],
        1) ∧
    lifetimeCount handlers.exampleDB.store 1 true = 2 ∧
    lifetimeCount handlers.exampleDB.store 1 false = 0 ∧
    handlers.exampleDB.GetWord 1 =
      .ok (some { toWord := ⟨1, "你好", "nihao", "hello", ""⟩, CorrectCount := 2,
                  WrongCount := 0 }) := by
  refine ⟨?_, ?_, ?_, ?_⟩ <;> decide

/-- C8: for an id that no stored word has, on a connection that runs the
statistics statement, the repository `GetWord(id)` returns no entity and no error,
and the `GetWord` handler answers 404 with the message "Word not found". -/
theorem C8_GetWord_not_found (s : DBService) (c : gin.Context) (id : Int)
    (hid : ∀ w ∈ s.store.words, w.ID ≠ id)
    (hf : s.faults.lookup .selectWord = none)
    (hparam : strconv.ParseInt (c.Param "id") = (id, none)) :
    s.GetWord id = .ok none ∧
    handlers.WordsHandler.GetWord s c =
      ⟨.JSON handlers.StatusNotFound (.error "Word not found"), [.GetWord id], s⟩ := by
  have h : s.GetWord id = .ok none := by
    unfold DBService.GetWord DBService.QueryRow
    rw [sql.selectWord_eq_nil s.store id hid]
    simp only [hf]
  refine ⟨h, ?_⟩
  unfold handlers.WordsHandler.GetWord
  simp only [hparam, h]

/-- C8 at a concrete request: `GET /api/words/3` on the example store, which
holds the words 1 and 2. -/
theorem C8_GetWord_not_found_witness :
    handlers.exampleDB.GetWord 3 = .ok none ∧
    handlers.WordsHandler.GetWord handlers.exampleDB ⟨[("id", "3")], [], none⟩ =
      ⟨.JSON handlers.StatusNotFound (.error "Word not found"), [.GetWord 3],
        handlers.exampleDB⟩ :=
  C8_GetWord_not_found handlers.exampleDB ⟨[("id", "3")], [], none⟩ 3 (by decide) (by decide)
    (by decide)

/-- C9: a `CreateStudySession` request whose JSON object decodes to a `group_id`
or a `study_activity_id` below 1 (an absent or `null` member decodes to 0) is
answered 400 "Invalid request body"; the handler makes no repository call and
leaves the store as it was. -/
theorem C9_CreateStudySession_rejected (db : DBService) (c : gin.Context)
    (members : List (String × gin.JVal)) (groupID activityID : Int)
    (hbody : c.body = some members)
    (hg : gin.decodeInt64 members "group_id" = .ok groupID)
    (ha : gin.decodeInt64 members "study_activity_id" = .ok activityID)
    (hbad : groupID < 1 ∨ activityID < 1) :
    handlers.StudyHandler.CreateStudySession db c =
      ⟨.JSON handlers.StatusBadRequest (.error "Invalid request body"), [], db⟩ := by
  unfold handlers.StudyHandler.CreateStudySession gin.ShouldBindJSONCreateStudySession
  simp only [hbody, hg, ha]
  by_cases g0 : groupID = 0
  · simp [g0]
  · by_cases g1 : groupID < 1
    · simp [g0, g1]
    · by_cases a0 : activityID = 0
      · simp [g0, g1, a0]
      · have a1 : activityID < 1 := by omega
        simp [g0, g1, a0, a1]

/-- C9 at concrete requests: a body without `group_id`. -/
theorem C9_CreateStudySession_rejected_witness :
    handlers.StudyHandler.CreateStudySession handlers.exampleDB
        ⟨[], [], some [("study_activity_id", .int 1)]⟩ =
      ⟨.JSON handlers.StatusBadRequest (.error "Invalid request body"), [],
        handlers.exampleDB⟩ :=
  C9_CreateStudySession_rejected handlers.exampleDB
    ⟨[], [], some [("study_activity_id", .int 1)]⟩ [("study_activity_id", .int 1)] 0 1 rfl
    (by decide) (by decide) (Or.inl (by decide))

/-- C10 (as stated) fails: in the example store every session references group 1
and no group has id 5, yet on the connection `NewDBService` opens (no foreign-key
enforcement) `CreateStudySession(5, 1)` returns a session and adds the row with
`group_id` 5. -/
theorem C10_counterexample :
    (∀ x ∈ handlers.exampleDB.store.study_sessions,
      ∃ g ∈ handlers.exampleDB.store.groups, g.id = x.group_id) ∧
    (∀ g ∈ handlers.exampleDB.store.groups, g.id ≠ 5) ∧
    (handlers.exampleDB.CreateStudySession 5 1).map (fun r => (r.1, r.2.store.study_sessions)) =
      .ok (⟨2, 5, 20, 1, ""⟩, [⟨1, 1, 10, 1⟩, ⟨2, 5, 20, 1⟩]) := by
  refine ⟨?_, ?_, ?_⟩ <;> decide

/-- C10 (amended): `CreateStudySession` looks up no group itself.  For a
`group_id` that matches no stored group it returns an error (and so adds no row)
on a connection that enforces the group reference; on a connection that does not,
and that runs the `INSERT`, it succeeds: the returned session and the one row
appended to `study_sessions` carry the unmatched `group_id`. -/
theorem C10_CreateStudySession_unmatched_group (s : DBService) (groupID activityID : Int)
    (hno : ∀ g ∈ s.store.groups, g.id ≠ groupID) :
    (s.foreign_keys = true → ∃ err, s.CreateStudySession groupID activityID = .error err) ∧
    (s.foreign_keys = false → s.faults.lookup .insertSession = none →
      ∃ session s1, s.CreateStudySession groupID activityID = .ok (session, s1) ∧
        session.GroupID = groupID ∧
        s1.store.study_sessions =
          s.store.study_sessions ++ [sql.newSession s.store groupID activityID s.now] ∧
        (sql.newSession s.store groupID activityID s.now).group_id = groupID) := by
  have hnot : ¬ ∃ g ∈ s.store.groups, g.id = groupID := by
    rintro ⟨g, hg, he⟩
    exact hno g hg he
  constructor
  · intro hfk
    unfold DBService.CreateStudySession
    cases hfault : s.faults.lookup .insertSession with
    | some msg => exact ⟨_, rfl⟩
    | none =>
        simp only []
        rw [if_pos ⟨hfk, hnot⟩]
        exact ⟨_, rfl⟩
  · intro hfk hfault
    unfold DBService.CreateStudySession
    simp only [hfault]
    rw [if_neg (by rw [hfk]; simp)]
    exact ⟨_, _, rfl, rfl, rfl, rfl⟩

/-- C10 at a concrete store: on the example connection, which enforces no
foreign keys, `CreateStudySession(5, 1)` appends the session row with `group_id` 5. -/
theorem C10_CreateStudySession_unmatched_group_witness :
    ∃ session s1, handlers.exampleDB.CreateStudySession 5 1 = .ok (session, s1) ∧
      session.GroupID = 5 ∧
      s1.store.study_sessions =
        handlers.exampleDB.store.study_sessions ++
          [sql.newSession handlers.exampleDB.store 5 1 handlers.exampleDB.now] ∧
      (sql.newSession handlers.exampleDB.store 5 1 handlers.exampleDB.now).group_id = 5 :=
  (C10_CreateStudySession_unmatched_group handlers.exampleDB 5 1 (by decide)).2 rfl rfl

/-- C11: with at least one recorded error `ErrorHandler` decides from the last
one alone: 404 when it is or wraps `sql.ErrNoRows`, 400 when it is (or wraps) a
`validator.ValidationErrors`, and otherwise 500 with the fixed message "Internal
server error" and the fixed details "An unexpected error occurred", whatever the
error text; with no recorded error it writes nothing. -/
theorem C11_ErrorHandler (errs : List GoError) (err : GoError) :
    middleware.ErrorHandler [] = none ∧
    middleware.ErrorHandler (errs ++ [err]) = middleware.ErrorHandler [err] ∧
    (errors.IsErrNoRows err = true →
      middleware.ErrorHandler (errs ++ [err]) =
        some { Status := 404, Message := "Resource not found", Details := err.Error }) ∧
    (errors.AsValidationErrors err = true →
      middleware.ErrorHandler (errs ++ [err]) =
        some { Status := 400, Message := "Validation error", Details := err.Error }) ∧
    (errors.IsErrNoRows err = false → errors.AsValidationErrors err = false →
      middleware.ErrorHandler (errs ++ [err]) =
        some { Status := 500, Message := "Internal server error",
               Details := "An unexpected error occurred" }) := by
  have hlast : middleware.ErrorHandler (errs ++ [err]) = middleware.ErrorHandler [err] := by
    unfold middleware.ErrorHandler
    rw [List.getLast?_append, List.getLast?_singleton]
    rfl
  refine ⟨rfl, hlast, ?_, ?_, ?_⟩
  · intro h
    rw [hlast]
    unfold middleware.ErrorHandler
    simp only [List.getLast?_singleton, h, if_true]
    rfl
  · intro h
    rw [hlast]
    unfold middleware.ErrorHandler
    simp only [List.getLast?_singleton, h, errors.not_IsErrNoRows_of_AsValidationErrors err h,
      if_true]
    rfl
  · intro h1 h2
    rw [hlast]
    unfold middleware.ErrorHandler
    simp only [List.getLast?_singleton, h1, h2]
    rfl

/-- C11 at concrete errors: a database failure recorded after a no-rows error is
answered with the generic 500 body. -/
theorem C11_ErrorHandler_witness :
    middleware.ErrorHandler ([GoError.ErrNoRows] ++ [GoError.Errorf "error: disk I/O error"]) =
      some { Status := 500, Message := "Internal server error",
             Details := "An unexpected error occurred" } :=
  (C11_ErrorHandler [GoError.ErrNoRows] (GoError.Errorf "error: disk I/O error")).2.2.2.2
    rfl rfl

/-- C12 (the code): with unique session ids, `GetStudySessions` returns as
`total_count` the number of all rows of `study_sessions`, while its list statement
inner-joins `groups` and yields, over all pages, one row per session whose group
is stored.  The two agree when every session references a stored group; a
session whose `group_id` matches no group is counted and is missing from every
page. -/
theorem C12_sessions_count_vs_listed (s : DBService) (page pageSize : Int)
    (items : List models.StudySession) (total : Int)
    (hids : (s.store.study_sessions.map fun x => x.id).Nodup)
    (h : s.GetStudySessions page pageSize = .ok (items, total)) :
    total = (s.store.study_sessions.length : Int) ∧
    items = sql.limitOffset pageSize (goMul (goSub page 1) pageSize)
      (sql.selectSessions s.store (-1) 0) ∧
    (sql.selectSessions s.store (-1) 0).length =
      (s.store.study_sessions.filter fun x =>
        s.store.groups.any fun g => decide (x.group_id = g.id)).length ∧
    ((∀ x ∈ s.store.study_sessions, ∃ g ∈ s.store.groups, x.group_id = g.id) →
      ((sql.selectSessions s.store (-1) 0).length : Int) = total) ∧
    ((∃ x ∈ s.store.study_sessions, ∀ g ∈ s.store.groups, x.group_id ≠ g.id) →
      ((sql.selectSessions s.store (-1) 0).length : Int) < total) := by
  obtain ⟨hitems, htotal, _, _⟩ := DBService.GetStudySessions_ok s page pageSize items total h
  have hlen := sql.length_selectSessions_all s.store hids
  have ht : total = (s.store.study_sessions.length : Int) := by
    rw [htotal]
    rfl
  refine ⟨ht, ?_, hlen, ?_, ?_⟩
  · rw [hitems]
    exact sql.selectSessions_page _ _ _
  · intro hall
    rw [hlen, ht]
    congr 1
    apply congrArg List.length
    apply List.filter_eq_self.mpr
    intro x hx
    obtain ⟨g, hg, hxg⟩ := hall x hx
    simp only [List.any_eq_true, decide_eq_true_eq]
    exact ⟨g, hg, hxg⟩
  · intro hex
    rw [hlen, ht]
    have : (s.store.study_sessions.filter fun x =>
        s.store.groups.any fun g => decide (x.group_id = g.id)).length <
        s.store.study_sessions.length := by
      rw [List.length_filter_lt_length_iff_exists]
      obtain ⟨x, hx, hno⟩ := hex
      refine ⟨x, hx, ?_⟩
      simp only [List.any_eq_true, decide_eq_true_eq, not_exists, not_and]
      exact hno
    exact_mod_cast this

/-- C12 at the failing store: session 2 references the missing group 5;
`GetStudySessions(1, 100)` counts 2 sessions and its list statement yields fewer. -/
theorem C12_sessions_count_vs_listed_witness :
    ((sql.selectSessions handlers.orphanDB.store (-1) 0).length : Int) < 2 :=
  (C12_sessions_count_vs_listed handlers.orphanDB 1 100
      [{ ID := 1, GroupID := 1, CreatedAt := 10, StudyActivityID := 1,
         GroupName := "Greetings" }]
      2 (by decide) (by decide)).2.2.2.2 ⟨⟨2, 5, 20, 1⟩, by decide, by decide⟩

/-- C13 (as stated) fails for `n = 0`: on a store without groups the listing with
`page=1` and `page_size=100` returns no group and the envelope has
`total_pages = 0`, not 1. -/
theorem C13_counterexample :
    (handlers.GroupsHandler.GetGroups
        { handlers.exampleDB with store := ⟨[], [], [], [], [], []⟩ }
        ⟨[], [("page", "1"), ("page_size", "100")], none⟩).reply =
      .JSON 200 (.list (.groups []) 1 0 0 100) := by
  decide

/-- C13 (amended): for a store with `n` groups, `n < 100`, unique group ids, on a
connection that runs the two statements of `GetGroups`, listing groups with
`page=1` and `page_size=100` (given or defaulted) is answered 200 with `n` items,
every stored group among them with its id and name, `total_items = n`, and
`total_pages = 1` when `n ≥ 1`, `total_pages = 0` when `n = 0`. -/
theorem C13_groups_first_page (db : DBService) (c : gin.Context)
    (hpage : c.DefaultQuery "page" "1" = "1")
    (hsize : c.DefaultQuery "page_size" "100" = "100")
    (hf1 : db.faults.lookup .countGroups = none)
    (hf2 : db.faults.lookup .selectGroups = none)
    (hids : (db.store.groups.map fun g => g.id).Nodup)
    (hn : db.store.groups.length < 100) :
    ∃ items : List models.Group,
      (handlers.GroupsHandler.GetGroups db c).reply =
        .JSON 200 (.list (.groups items) 1 (if db.store.groups.length = 0 then 0 else 1)
          (db.store.groups.length : Int) 100) ∧
      items.length = db.store.groups.length ∧
      ∀ g ∈ db.store.groups, ∃ item ∈ items, item.ID = g.id ∧ item.Name = g.name := by
  have e1 : (strconv.Atoi (c.DefaultQuery "page" "1")).1 = 1 := by
    rw [hpage]
    decide
  have e2 : (strconv.Atoi (c.DefaultQuery "page_size" "100")).1 = 100 := by
    rw [hsize]
    decide
  have hoff : goMul (goSub 1 1) 100 = 0 := by decide
  have hrepo : db.GetGroups 1 100 =
      .ok (sql.selectGroups db.store 100 0, (db.store.groups.length : Int)) := by
    unfold DBService.GetGroups DBService.QueryRow DBService.Query
    simp only [hf1, hf2, hoff]
    rfl
  obtain ⟨hlen, hmem⟩ := sql.selectGroups_all db.store 100 hids (by omega)
  have hpages := totalPages_lt_100 (db.store.groups.length : Int) (by omega) (by omega)
  refine ⟨sql.selectGroups db.store 100 0, ?_, hlen, hmem⟩
  unfold handlers.GroupsHandler.GetGroups
  simp only [e1, e2, hrepo]
  unfold handlers.envelope
  rw [hpages]
  simp only [handlers.StatusOK]
  congr 2
  split <;> split <;> first | rfl | omega

/-- C13 at a concrete store: the example store has one group, "Greetings"; the
listing without query parameters has one item and one page. -/
theorem C13_groups_first_page_witness :
    ∃ items : List models.Group,
      (handlers.GroupsHandler.GetGroups handlers.exampleDB ⟨[], [], none⟩).reply =
        .JSON 200 (.list (.groups items) 1
          (if handlers.exampleDB.store.groups.length = 0 then 0 else 1)
          (handlers.exampleDB.store.groups.length : Int) 100) ∧
      items.length = handlers.exampleDB.store.groups.length ∧
      ∀ g ∈ handlers.exampleDB.store.groups,
        ∃ item ∈ items, item.ID = g.id ∧ item.Name = g.name :=
  C13_groups_first_page handlers.exampleDB ⟨[], [], none⟩ (by decide) (by decide)
    (by decide) (by decide) (by decide) (by decide)

/-- C14: for `page ≥ 1` and `1 ≤ page_size ≤ 100`, on every store and connection,
whatever each of the six paginated repository methods returns as items has at
most `page_size` elements. -/
theorem C14_page_length_le (s : DBService) (page pageSize id : Int)
    (_h1 : 1 ≤ page) (h2 : 1 ≤ pageSize) (_h3 : pageSize ≤ 100) :
    (∀ items total, s.GetWords page pageSize = .ok (items, total) →
      (items.length : Int) ≤ pageSize) ∧
    (∀ items total, s.GetGroups page pageSize = .ok (items, total) →
      (items.length : Int) ≤ pageSize) ∧
    (∀ items total, s.GetGroupWords id page pageSize = .ok (items, total) →
      (items.length : Int) ≤ pageSize) ∧
    (∀ items total, s.GetStudySessions page pageSize = .ok (items, total) →
      (items.length : Int) ≤ pageSize) ∧
    (∀ items total, s.GetStudySessionWords id page pageSize = .ok (items, total) →
      (items.length : Int) ≤ pageSize) ∧
    (∀ items total, s.GetStudyActivitySessions id page pageSize = .ok (items, total) →
      (items.length : Int) ≤ pageSize) := by
  have h0 : 0 ≤ pageSize := by omega
  refine ⟨?_, ?_, ?_, ?_, ?_, ?_⟩
  · intro items total h
    rw [(DBService.GetWords_ok s page pageSize items total h).1]
    exact sql.length_limitOffset_le _ _ _ h0
  · intro items total h
    rw [(DBService.GetGroups_ok s page pageSize items total h).1]
    exact sql.length_limitOffset_le _ _ _ h0
  · intro items total h
    rw [(DBService.GetGroupWords_ok s id page pageSize items total h).1]
    exact sql.length_limitOffset_le _ _ _ h0
  · intro items total h
    rw [(DBService.GetStudySessions_ok s page pageSize items total h).1]
    exact sql.length_limitOffset_le _ _ _ h0
  · intro items total h
    rw [DBService.scanSessionWords_length _ _
      (DBService.GetStudySessionWords_ok s id page pageSize items total h).1]
    exact sql.length_limitOffset_le _ _ _ h0
  · intro items total h
    rw [(DBService.GetStudyActivitySessions_ok s id page pageSize items total h).1]
    exact sql.length_limitOffset_le _ _ _ h0

/-- C14 at a concrete call: page 1 of size 1 of the two example words has one
item. -/
theorem C14_page_length_le_witness :
    ((sql.selectWords handlers.exampleDB.store 1 0).length : Int) ≤ 1 :=
  (C14_page_length_le handlers.exampleDB 1 1 1 (by decide) (by decide) (by decide)).1
    (sql.selectWords handlers.exampleDB.store 1 0) 2 (by decide)

/-- C15: when the path value the handler parses is no base-10 representation of a
64-bit signed integer (optional sign, decimal digits, value from `-2^63` to
`2^63 - 1`), each of the eight handlers with an id path parameter answers 400 and
makes no repository call; for `AddWordReview` this holds for `word_id` and for
`id` alike. -/
theorem C15_malformed_id_rejected (db : DBService) (c : gin.Context) :
    (isBase10Int64 (c.Param "id") = false →
      handlers.WordsHandler.GetWord db c =
        ⟨.JSON handlers.StatusBadRequest (.error "Invalid word ID"), [], db⟩ ∧
      handlers.GroupsHandler.GetGroup db c =
        ⟨.JSON handlers.StatusBadRequest (.error "Invalid group ID"), [], db⟩ ∧
      handlers.GroupsHandler.GetGroupWords db c =
        ⟨.JSON handlers.StatusBadRequest (.error "Invalid group ID"), [], db⟩ ∧
      handlers.StudyHandler.GetStudySession db c =
        ⟨.JSON handlers.StatusBadRequest (.error "Invalid session ID"), [], db⟩ ∧
      handlers.StudyHandler.GetStudySessionWords db c =
        ⟨.JSON handlers.StatusBadRequest (.error "Invalid session ID"), [], db⟩ ∧
      handlers.StudyHandler.GetStudyActivity db c =
        ⟨.JSON handlers.StatusBadRequest (.error "Invalid activity ID"), [], db⟩ ∧
      handlers.StudyHandler.GetStudyActivitySessions db c =
        ⟨.JSON handlers.StatusBadRequest (.error "Invalid activity ID"), [], db⟩) ∧
    ((isBase10Int64 (c.Param "word_id") = false ∨ isBase10Int64 (c.Param "id") = false) →
      ∃ msg, handlers.WordsHandler.AddWordReview db c =
        ⟨.JSON handlers.StatusBadRequest (.error msg), [], db⟩) := by
  constructor
  · intro h
    obtain ⟨v, cause, hp⟩ := ParseInt_error_of_not_isBase10Int64 _ h
    refine ⟨?_, ?_, ?_, ?_, ?_, ?_, ?_⟩
    · unfold handlers.WordsHandler.GetWord
      rw [hp]
    · unfold handlers.GroupsHandler.GetGroup
      rw [hp]
    · unfold handlers.GroupsHandler.GetGroupWords
      rw [hp]
    · unfold handlers.StudyHandler.GetStudySession
      rw [hp]
    · unfold handlers.StudyHandler.GetStudySessionWords
      rw [hp]
    · unfold handlers.StudyHandler.GetStudyActivity
      rw [hp]
    · unfold handlers.StudyHandler.GetStudyActivitySessions
      rw [hp]
  · intro h
    unfold handlers.WordsHandler.AddWordReview
    rcases hw : strconv.ParseInt (c.Param "word_id") with ⟨wordID, _ | cause⟩
    · rcases hs : strconv.ParseInt (c.Param "id") with ⟨sessionID, _ | cause⟩
      · exfalso
        have e1 := isBase10Int64_of_ParseInt _ _ hw
        have e2 := isBase10Int64_of_ParseInt _ _ hs
        rcases h with h | h
        · rw [e1] at h; cases h
        · rw [e2] at h; cases h
      · exact ⟨_, rfl⟩
    · exact ⟨_, rfl⟩

/-- C15 at concrete requests: `GET /api/words/abc`, and a review posted for the
word id `9223372036854775808`, one past the largest `int64`. -/
theorem C15_malformed_id_rejected_witness :
    handlers.WordsHandler.GetWord handlers.exampleDB ⟨[("id", "abc")], [], none⟩ =
      ⟨.JSON handlers.StatusBadRequest (.error "Invalid word ID"), [], handlers.exampleDB⟩ ∧
    ∃ msg, handlers.WordsHandler.AddWordReview handlers.exampleDB
        ⟨[("id", "1"), ("word_id", "9223372036854775808")], [],
          some [("correct", .bool true)]⟩ =
      ⟨.JSON handlers.StatusBadRequest (.error msg), [], handlers.exampleDB⟩ :=
  ⟨((C15_malformed_id_rejected handlers.exampleDB ⟨[("id", "abc")], [], none⟩).1
      (by decide)).1,
   (C15_malformed_id_rejected handlers.exampleDB
      ⟨[("id", "1"), ("word_id", "9223372036854775808")], [],
        some [("correct", .bool true)]⟩).2 (Or.inl (by decide))⟩

/-- C16: on a connection that runs the quick-stats statement, `GetQuickStats`
succeeds on every store; with no review row it reports `success_rate = 0` (the
`NULLIF`/`COALESCE` pair turns the 0/0 into 0, nothing NULL reaches `Scan`); with
at least one review row, `c` correct ones of `t`, `success_rate` is the `float64`
value of `(c / t) * 100`, each operation rounded to the nearest double as the
store computes it; it lies between 0 and 100; it is the number `c / t * 100`
itself when no or every review is correct (every review the handler records is a
correct one), and within a relative error of `2 ^ -51` of it for fewer than
`2 ^ 53` reviews. -/
theorem C16_GetQuickStats (s : DBService) (hf : s.faults.lookup .selectQuickStats = none) :
    ∃ stats, s.GetQuickStats = .ok stats ∧
      (s.store.word_review_items = [] → stats.SuccessRate.toRat = 0) ∧
      (s.store.word_review_items ≠ [] →
        stats.SuccessRate =
          Float64.mul
            (Float64.div
              (Float64.ofInt
                ((s.store.word_review_items.filter fun r => decide (r.Correct = true)).length :
                  Int))
              (Float64.ofInt (s.store.word_review_items.length : Int)))
            (Float64.ofInt 100) ∧
        0 ≤ stats.SuccessRate.toRat ∧ stats.SuccessRate.toRat ≤ 100 ∧
        ((s.store.word_review_items.filter fun r => decide (r.Correct = true)).length = 0 ∨
          (s.store.word_review_items.filter fun r => decide (r.Correct = true)).length =
            s.store.word_review_items.length →
          stats.SuccessRate.toRat =
            ((s.store.word_review_items.filter fun r => decide (r.Correct = true)).length : ℚ) /
              (s.store.word_review_items.length : ℚ) * 100) ∧
        (s.store.word_review_items.length < 2 ^ 53 →
          |stats.SuccessRate.toRat -
            ((s.store.word_review_items.filter fun r => decide (r.Correct = true)).length : ℚ) /
              (s.store.word_review_items.length : ℚ) * 100| ≤
            ((s.store.word_review_items.filter fun r => decide (r.Correct = true)).length : ℚ) /
              (s.store.word_review_items.length : ℚ) * 100 * (2 : ℚ) ^ (-51 : Int))) := by
  unfold DBService.GetQuickStats DBService.scanQuickStats sql.selectQuickStats
  simp only [hf]
  cases hr : s.store.word_review_items with
  | nil =>
      refine ⟨_, rfl, ?_, ?_⟩
      · intro _
        exact Float64.toRat_zero
      · intro h
        exact absurd rfl h
  | cons r rs =>
      have hne : (((r :: rs).length : Int)) ≠ 0 := by
        simp only [List.length_cons]
        omega
      have hsum : sql.sum? (fun x => sql.caseCorrectIs true (some x)) (r :: rs) =
          some (((r :: rs).filter fun i => decide (i.Correct = true)).length : Int) := by
        rw [sql.sum?_of_ne_nil _ _ (by simp), sql.sum_flags_eq_length]
      simp only [hsum, sql.castFloat, sql.nullif0, if_neg hne, sql.divFloat, sql.mul100,
        sql.coalesce, Option.map_some', DBService.scanFloat64]
      refine ⟨_, rfl, ?_, ?_⟩
      · intro h
        cases h
      · intro _
        obtain ⟨h₁, h₂, h₃, h₄⟩ := Float64.rate_spec
          ((r :: rs).filter fun i => decide (i.Correct = true)).length (r :: rs).length
          (List.length_filter_le _ _) (by simp)
        exact ⟨rfl, h₁, h₂, h₃, h₄⟩

/-- C16 at a concrete store: the example store has two reviews, both correct, so
its success rate is the double 100; the statement runs on the example connection. -/
theorem C16_GetQuickStats_witness :
    ∃ stats, handlers.exampleDB.GetQuickStats = .ok stats ∧ stats.SuccessRate.toRat = 100 := by
  obtain ⟨stats, h₁, _, h₂⟩ := C16_GetQuickStats handlers.exampleDB (by decide)
  obtain ⟨_, _, _, h₃, _⟩ := h₂ (by decide)
  refine ⟨stats, h₁, ?_⟩
  rw [h₃ (Or.inr (by decide))]
  have e₁ : ((handlers.exampleDB.store.word_review_items.filter
      fun r => decide (r.Correct = true)).length : ℚ) = 2 := by
    have : (handlers.exampleDB.store.word_review_items.filter
      fun r => decide (r.Correct = true)).length = 2 := by decide
    rw [this]
    norm_num
  have e₂ : (handlers.exampleDB.store.word_review_items.length : ℚ) = 2 := by
    have : handlers.exampleDB.store.word_review_items.length = 2 := by decide
    rw [this]
    norm_num
  rw [e₁, e₂]
  norm_num

/-- C17 (the code at the failing inputs): the header value is the Go conversion
`string(requestID)` of an `int64`, which is the one rune U+FFFD for every value
above the last code point U+10FFFF, and so for every clock reading of
`time.Now().UnixNano()` after the first 1.2 ms of 1970.  Two such requests carry
the same `X-Request-ID` although the ids stored in their contexts differ. -/
theorem C17_request_id_header_constant (t1 t2 : Int) (h1 : 1114111 < t1) (h2 : 1114111 < t2) :
    (middleware.RequestIDMiddleware t1).header = "�" ∧
    (middleware.RequestIDMiddleware t2).header = "�" ∧
    (middleware.RequestIDMiddleware t1).header = (middleware.RequestIDMiddleware t2).header ∧
    (middleware.RequestIDMiddleware t1).context = t1 ∧
    (middleware.RequestIDMiddleware t2).context = t2 := by
  have key : ∀ t : Int, 1114111 < t → (middleware.RequestIDMiddleware t).header = "�" := by
    intro t ht
    unfold middleware.RequestIDMiddleware middleware.goString
    simp only []
    rw [if_neg (by omega)]
  exact ⟨key t1 h1, key t2 h2, by rw [key t1 h1, key t2 h2], rfl, rfl⟩

/-- C17 at two clock readings one nanosecond apart: the ids differ, the headers
are the same. -/
theorem C17_request_id_header_constant_witness :
    (middleware.RequestIDMiddleware 1700000000000000000).header = "�" ∧
    (middleware.RequestIDMiddleware 1700000000000000001).header = "�" ∧
    (middleware.RequestIDMiddleware 1700000000000000000).header =
      (middleware.RequestIDMiddleware 1700000000000000001).header ∧
    (middleware.RequestIDMiddleware 1700000000000000000).context = 1700000000000000000 ∧
    (middleware.RequestIDMiddleware 1700000000000000001).context = 1700000000000000001 :=
  C17_request_id_header_constant 1700000000000000000 1700000000000000001 (by decide)
    (by decide)

/-- C18: on every store, for every page and page size, the items `GetWords`
returns and the items `GetGroups` returns are in strictly ascending order of id
(so no id occurs twice), and the items `GetStudySessions` returns are in
non-increasing order of `created_at`. -/
theorem C18_list_ordering (s : DBService) (page pageSize : Int) :
    (∀ items total, s.GetWords page pageSize = .ok (items, total) →
      (items.map fun w => w.ID).Pairwise (· < ·)) ∧
    (∀ items total, s.GetGroups page pageSize = .ok (items, total) →
      (items.map fun g => g.ID).Pairwise (· < ·)) ∧
    (∀ items total, s.GetStudySessions page pageSize = .ok (items, total) →
      (items.map fun x => x.CreatedAt).Pairwise (· ≥ ·)) := by
  refine ⟨?_, ?_, ?_⟩
  · intro items total h
    rw [(DBService.GetWords_ok s page pageSize items total h).1]
    exact sql.selectWords_sorted _ _ _
  · intro items total h
    rw [(DBService.GetGroups_ok s page pageSize items total h).1]
    exact sql.selectGroups_sorted _ _ _
  · intro items total h
    rw [(DBService.GetStudySessions_ok s page pageSize items total h).1]
    exact sql.selectSessions_sorted _ _ _

/-- C18 at a concrete call: the first page of the example words. -/
theorem C18_list_ordering_witness :
    ((sql.selectWords handlers.exampleDB.store 100 0).map fun w => w.ID).Pairwise (· < ·) :=
  (C18_list_ordering handlers.exampleDB 1 100).1
    (sql.selectWords handlers.exampleDB.store 100 0) 2 (by decide)

/-- C19 (as stated) fails: for `page = 2^63 - 1` and `page_size = 100`, both valid
for `PaginationRequest`, the Go product `(page - 1) * pageSize` wraps to -200; the
request `GET /api/study_sessions?page=9223372036854775807&page_size=100` hands
exactly these values to the repository. -/
theorem C19_counterexample :
    1 ≤ maxInt ∧ goMul (goSub maxInt 1) 100 = -200 ∧
    goMul (goSub maxInt 1) 100 ≠ (maxInt - 1) * 100 ∧
    (handlers.StudyHandler.GetStudySessions handlers.exampleDB
        ⟨[], [("page", "9223372036854775807"), ("page_size", "100")], none⟩).calls =
      [.GetStudySessions maxInt 100] := by
  decide

/-- C19 (amended): for `page ≥ 1` and `1 ≤ page_size ≤ 100` whose product
`(page - 1) * page_size` does not exceed the largest `int` (every page up to
92233720368547759 qualifies), the offset computed on Go `int`s equals that
product and is non-negative. -/
theorem C19_offset_exact (page pageSize : Int)
    (h1 : 1 ≤ page) (h2 : 1 ≤ pageSize) (h3 : pageSize ≤ 100)
    (hfit : (page - 1) * pageSize ≤ maxInt) :
    goMul (goSub page 1) pageSize = (page - 1) * pageSize ∧
    0 ≤ goMul (goSub page 1) pageSize ∧
    (page ≤ 92233720368547759 → (page - 1) * pageSize ≤ maxInt) := by
  have hnn : 0 ≤ (page - 1) * pageSize := mul_nonneg (by omega) (by omega)
  have hp : page - 1 ≤ (page - 1) * pageSize := by nlinarith
  have hsub : goSub page 1 = page - 1 := by
    unfold goSub
    apply wrapInt_of_inRange
    · unfold minInt; omega
    · omega
  have hmul : goMul (goSub page 1) pageSize = (page - 1) * pageSize := by
    rw [hsub]
    unfold goMul
    apply wrapInt_of_inRange
    · unfold minInt; omega
    · exact hfit
  refine ⟨hmul, by rw [hmul]; exact hnn, ?_⟩
  intro hpage
  unfold maxInt
  nlinarith

/-- C19 at a concrete page: page 3 of size 20 starts at offset 40. -/
theorem C19_offset_exact_witness :
    goMul (goSub 3 1) 20 = (3 - 1) * 20 ∧ 0 ≤ goMul (goSub 3 1) 20 ∧
    ((3 : Int) ≤ 92233720368547759 → ((3 : Int) - 1) * 20 ≤ maxInt) :=
  C19_offset_exact 3 20 (by decide) (by decide) (by decide) (by decide)

/-- C20: every error one of the fifteen query and insert methods of `DBService`
returns is built by `fmt.Errorf` with `%v`: it keeps no cause, so
`errors.Is(err, sql.ErrNoRows)` is false for it (and it is no
`ValidationErrors`); hence whenever one of the six study handlers records an
error with `c.Error`, `ErrorHandler` answers 500 with the generic body. -/
theorem C20_repository_errors_generic (s : DBService) (c : gin.Context) (e : GoError) :
    ((s.GetLastStudySession = .error e ∨ s.GetStudyProgress = .error e ∨
      s.GetQuickStats = .error e ∨
      (∃ page pageSize, s.GetWords page pageSize = .error e) ∨
      (∃ wordID sessionID correct, s.AddWordReview wordID sessionID correct = .error e) ∨
      (∃ groupID activityID, s.CreateStudySession groupID activityID = .error e) ∨
      (∃ id, s.GetWord id = .error e) ∨
      (∃ page pageSize, s.GetGroups page pageSize = .error e) ∨
      (∃ id, s.GetGroup id = .error e) ∨
      (∃ groupID page pageSize, s.GetGroupWords groupID page pageSize = .error e) ∨
      (∃ page pageSize, s.GetStudySessions page pageSize = .error e) ∨
      (∃ id, s.GetStudySession id = .error e) ∨
      (∃ sessionID page pageSize,
        s.GetStudySessionWords sessionID page pageSize = .error e) ∨
      (∃ id, s.GetStudyActivity id = .error e) ∨
      (∃ activityID page pageSize,
        s.GetStudyActivitySessions activityID page pageSize = .error e)) →
      e.isFormatted = true ∧ errors.IsErrNoRows e = false ∧
      errors.AsValidationErrors e = false) ∧
    (∀ out ∈ [handlers.StudyHandler.GetStudySessions s c,
          handlers.StudyHandler.GetStudySession s c,
          handlers.StudyHandler.GetStudySessionWords s c,
          handlers.StudyHandler.GetStudyActivity s c,
          handlers.StudyHandler.GetStudyActivitySessions s c,
          handlers.StudyHandler.CreateStudySession s c],
        out.reply = .Error e →
          middleware.ErrorHandler (middleware.recorded out.reply) =
            some { Status := 500, Message := "Internal server error",
                   Details := "An unexpected error occurred" }) := by
  constructor
  · intro h
    have hf : e.isFormatted = true := by
      rcases h with h | h | h | ⟨_, _, h⟩ | ⟨_, _, _, h⟩ | ⟨_, _, h⟩ | ⟨_, h⟩ | ⟨_, _, h⟩ |
        ⟨_, h⟩ | ⟨_, _, _, h⟩ | ⟨_, _, h⟩ | ⟨_, h⟩ | ⟨_, _, _, h⟩ | ⟨_, h⟩ | ⟨_, _, _, h⟩
      · exact DBService.GetLastStudySession_error _ _ h
      · exact DBService.GetStudyProgress_error _ _ h
      · exact DBService.GetQuickStats_error _ _ h
      · exact DBService.GetWords_error _ _ _ _ h
      · exact DBService.AddWordReview_error _ _ _ _ _ h
      · exact DBService.CreateStudySession_error _ _ _ _ h
      · exact DBService.GetWord_error _ _ _ h
      · exact DBService.GetGroups_error _ _ _ _ h
      · exact DBService.GetGroup_error _ _ _ h
      · exact DBService.GetGroupWords_error _ _ _ _ _ h
      · exact DBService.GetStudySessions_error _ _ _ _ h
      · exact DBService.GetStudySession_error _ _ _ h
      · exact DBService.GetStudySessionWords_error _ _ _ _ _ h
      · exact DBService.GetStudyActivity_error _ _ _ h
      · exact DBService.GetStudyActivitySessions_error _ _ _ _ _ h
    exact ⟨hf, errors.not_Is_of_isFormatted e hf⟩
  · intro out hout hrep
    have hf : e.isFormatted = true := by
      simp only [List.mem_cons, List.mem_singleton, List.not_mem_nil, or_false] at hout
      rcases hout with rfl | rfl | rfl | rfl | rfl | rfl
      · exact handlers.GetStudySessions_recorded _ _ _ hrep
      · exact handlers.GetStudySession_recorded _ _ _ hrep
      · exact handlers.GetStudySessionWords_recorded _ _ _ hrep
      · exact handlers.GetStudyActivity_recorded _ _ _ hrep
      · exact handlers.GetStudyActivitySessions_recorded _ _ _ hrep
      · exact handlers.CreateStudySession_recorded _ _ _ hrep
    obtain ⟨h1, h2⟩ := errors.not_Is_of_isFormatted e hf
    rw [hrep]
    unfold middleware.ErrorHandler middleware.recorded
    simp only [List.getLast?_singleton, h1, h2]
    rfl

/-- C20 at a concrete failure: the driver fails the session lookup with "database
is locked"; `GetStudySession` returns the formatted error, the handler records
it, and `ErrorHandler` answers the generic 500. -/
theorem C20_repository_errors_generic_witness :
    middleware.ErrorHandler (middleware.recorded
      (handlers.StudyHandler.GetStudySession
        { handlers.exampleDB with faults := [(.selectSession, "database is locked")] }
        ⟨[("id", "1")], [], none⟩).reply) =
      some { Status := 500, Message := "Internal server error",
             Details := "An unexpected error occurred" } :=
  (C20_repository_errors_generic
      { handlers.exampleDB with faults := [(.selectSession, "database is locked")] }
      ⟨[("id", "1")], [], none⟩
      (.Errorf "error getting study session: database is locked")).2 _
    (List.mem_cons_of_mem _ (List.mem_cons_self _ _)) (by decide)

/-- C21 (as stated) fails: the example store holds 2 words, so for page size 100
the last page is page 1; yet `GetWords(9223372036854775807, 100)`, a page far
beyond it, returns both words: the offset `(page - 1) * pageSize` wraps to -200,
which the store reads as offset 0.  The request
`GET /api/words?page=9223372036854775807&page_size=100` makes exactly this call. -/
theorem C21_counterexample :
    Int.ceil (((handlers.exampleDB.store.words.length : Int) : ℚ) / ((100 : Int) : ℚ)) = 1 ∧
    handlers.exampleDB.GetWords 9223372036854775807 100 =
      .ok ([{ toWord := ⟨1, "你好", "nihao", "hello", ""⟩, CorrectCount := 2, WrongCount := 0 },
            { toWord := ⟨2, "谢谢", "xiexie", "thank you", ""⟩, CorrectCount := 0,
              WrongCount := 0 }], 2) ∧
    (handlers.WordsHandler.GetWords handlers.exampleDB
        ⟨[], [("page", "9223372036854775807"), ("page_size", "100")], none⟩).calls =
      [.GetWords 9223372036854775807 100] := by
  refine ⟨?_, by decide, by decide⟩
  rw [ceil_div_eq _ _ (by decide)]
  decide

/-- C21 (amended): for a store with unique word ids whose row count plus the page
size fits an `int`, on a connection that runs the two statements of `GetWords`,
and `1 ≤ page_size ≤ 100`: every call returns `total_count` = the number of
stored words; the items of `GetWords(p, page_size)` for
`p = 1, ..., ceil(total_count / page_size)`, concatenated, are the stored words,
each exactly once, in strictly ascending id order; and `GetWords(p, page_size)` is
empty for every `p` beyond that last page whose offset `(p - 1) * page_size` fits
an `int`. -/
theorem C21_pages_partition (s : DBService) (pageSize : Int)
    (h1 : 1 ≤ pageSize) (_h2 : pageSize ≤ 100)
    (hf1 : s.faults.lookup .countWords = none) (hf2 : s.faults.lookup .selectWords = none)
    (hpk : (s.store.words.map fun w => w.ID).Nodup)
    (hfit : (s.store.words.length : Int) + pageSize ≤ maxInt) :
    (∀ p, ∃ items, s.GetWords p pageSize = .ok (items, (s.store.words.length : Int))) ∧
    ((s.wordsOnPages pageSize
        (Int.ceil (((s.store.words.length : Int) : ℚ) / (pageSize : ℚ))).toNat).map
      fun w => w.toWord).Perm s.store.words ∧
    ((s.wordsOnPages pageSize
        (Int.ceil (((s.store.words.length : Int) : ℚ) / (pageSize : ℚ))).toNat).map
      fun w => w.ID).Pairwise (· < ·) ∧
    (∀ p, Int.ceil (((s.store.words.length : Int) : ℚ) / (pageSize : ℚ)) < p →
      (p - 1) * pageSize ≤ maxInt →
      s.GetWords p pageSize = .ok ([], (s.store.words.length : Int))) := by
  obtain ⟨hlen, hperm⟩ := sql.selectWords_all s.store hpk
  rw [ceil_div_eq _ _ (by omega)]
  set N : Int := (s.store.words.length : Int) with hN
  set P : Int := (N + pageSize - 1) / pageSize with hP
  have hN0 : 0 ≤ N := by rw [hN]; exact Int.natCast_nonneg _
  have hP0 : 0 ≤ P := Int.ediv_nonneg (by omega) (by omega)
  have hlo : pageSize * P ≤ N + pageSize - 1 := Int.mul_ediv_self_le (by omega)
  have hhi : N + pageSize - 1 < pageSize * P + pageSize := Int.lt_mul_ediv_self_add (by omega)
  have hps : ((pageSize.toNat : Nat) : Int) = pageSize := Int.toNat_of_nonneg (by omega)
  have hPn : ((P.toNat : Nat) : Int) = P := Int.toNat_of_nonneg hP0
  have hall : s.wordsOnPages pageSize P.toNat = sql.selectWords s.store (-1) 0 := by
    unfold DBService.wordsOnPages
    rw [List.flatMap_congr (g := fun i =>
      ((sql.selectWords s.store (-1) 0).drop (i * pageSize.toNat)).take pageSize.toNat)]
    · rw [sql.flatMap_pages]
      apply List.take_of_length_le
      rw [hlen]
      have : N ≤ ((P.toNat * pageSize.toNat : Nat) : Int) := by
        push_cast
        rw [hPn, hps]
        nlinarith
      rw [hN] at this
      exact_mod_cast this
    · intro i hi
      rw [List.mem_range] at hi
      apply DBService.wordsOnPage_eq s pageSize i hf1 hf2 h1
      have hiP : (i : Int) + 1 ≤ P := by
        rw [← hPn]
        exact_mod_cast hi
      have : (i : Int) * pageSize ≤ N := by nlinarith
      omega
  refine ⟨?_, ?_, ?_, ?_⟩
  · intro p
    exact ⟨_, DBService.GetWords_run s p pageSize hf1 hf2⟩
  · rw [hall]
    exact hperm
  · rw [hall]
    exact sql.selectWords_sorted _ _ _
  · intro p hp hpfit
    rw [DBService.GetWords_run s p pageSize hf1 hf2]
    rw [offset_eq p pageSize (by omega) h1 hpfit]
    congr 2
    unfold sql.limitOffset
    simp only []
    rw [if_neg (by omega)]
    rw [List.drop_eq_nil_of_le, List.take_nil]
    rw [hlen]
    have hoff : N ≤ (p - 1) * pageSize := by nlinarith
    have h0 : 0 ≤ (p - 1) * pageSize := by omega
    have : ((s.store.words.length : Nat) : Int) ≤ (((p - 1) * pageSize).toNat : Int) := by
      rw [Int.toNat_of_nonneg h0]
      exact hoff
    exact_mod_cast this

/-- C21 at a concrete store: the two example words in pages of size 1 make two
pages; their concatenation lists both words once, and page 3 is empty. -/
theorem C21_pages_partition_witness :
    ((handlers.exampleDB.wordsOnPages 1
        (Int.ceil (((handlers.exampleDB.store.words.length : Int) : ℚ) /
          ((1 : Int) : ℚ))).toNat).map
      fun w => w.toWord).Perm handlers.exampleDB.store.words ∧
    handlers.exampleDB.GetWords 3 1 =
      .ok ([], (handlers.exampleDB.store.words.length : Int)) :=
  ⟨(C21_pages_partition handlers.exampleDB 1 (by decide) (by decide) (by decide) (by decide)
      (by decide) (by decide)).2.1,
   (C21_pages_partition handlers.exampleDB 1 (by decide) (by decide) (by decide) (by decide)
      (by decide) (by decide)).2.2.2 3
    (by rw [ceil_div_eq _ _ (by decide)]; decide) (by decide)⟩

/-- C22: for a stored group id whose rows in `words_groups` reference stored words
(every link the seeding of `magefile.go` writes carries the id of the word it has
just inserted, and no statement of the backend deletes or updates a word or a
link), on a connection that runs the statements of `GetGroup`, `GetGroupWords`
and `GetGroups`: `GetGroup(id)` returns a group; for any page and page size
`GetGroupWords(id, page, page_size)` returns that group's `word_count` as
`total_count`; every item with this id on any page of the `GetGroups` listing is
that group (so it carries the same `word_count`); and the first page of the
listing holds it whenever the page size is at least the number of groups. -/
theorem C22_word_count_consistent (s : DBService) (id page pageSize : Int)
    (hg : ∃ g ∈ s.store.groups, g.id = id)
    (hf1 : s.faults.lookup .selectGroup = none)
    (hf2 : s.faults.lookup .countGroupWords = none)
    (hf3 : s.faults.lookup .selectGroupWords = none)
    (hf4 : s.faults.lookup .countGroups = none)
    (hf5 : s.faults.lookup .selectGroups = none)
    (hint : ∀ wg ∈ s.store.words_groups, wg.group_id = id →
      ∃ w ∈ s.store.words, w.ID = wg.word_id) :
    ∃ group, s.GetGroup id = .ok (some group) ∧ group.ID = id ∧
      (∃ words, s.GetGroupWords id page pageSize = .ok (words, group.WordCount)) ∧
      (∀ lpage lsize, ∃ items total, s.GetGroups lpage lsize = .ok (items, total) ∧
        ∀ item ∈ items, item.ID = id → item = group) ∧
      (∀ lsize, (s.store.groups.length : Int) ≤ lsize →
        ∃ items total, s.GetGroups 1 lsize = .ok (items, total) ∧ group ∈ items) := by
  obtain ⟨r, hr, hsel, hid⟩ := sql.selectGroup_stored s.store id hg
  refine ⟨sql.groupRowOf (sql.groupRows s.store id) r,
    DBService.GetGroup_run s id hf1 _ [] hsel, hid, ?_, ?_, ?_⟩
  · refine ⟨sql.selectGroupWords s.store id pageSize (goMul (goSub page 1) pageSize), ?_⟩
    rw [DBService.GetGroupWords_run s id page pageSize hf2 hf3,
      sql.countGroupWords_eq s.store id hg hint r]
  · intro lpage lsize
    refine ⟨_, _, DBService.GetGroups_run s lpage lsize hf4 hf5, ?_⟩
    intro item hitem hitemid
    have := sql.selectGroups_entry s.store _ _ id item hitem hitemid
    rw [hsel] at this
    exact List.mem_singleton.mp this
  · intro lsize hfit
    refine ⟨_, _, DBService.GetGroups_run s 1 lsize hf4 hf5, ?_⟩
    rw [DBService.offset_first_page]
    exact sql.selectGroups_has s.store lsize id hg hfit r hr

/-- C22 at the example store, group 1, page 1 of size 100: the group has
`word_count` 2 everywhere. -/
theorem C22_word_count_consistent_witness :
    ∃ group, handlers.exampleDB.GetGroup 1 = .ok (some group) ∧ group.ID = 1 ∧
      (∃ words, handlers.exampleDB.GetGroupWords 1 1 100 = .ok (words, group.WordCount)) ∧
      (∀ lpage lsize, ∃ items total,
        handlers.exampleDB.GetGroups lpage lsize = .ok (items, total) ∧
        ∀ item ∈ items, item.ID = 1 → item = group) ∧
      (∀ lsize, (handlers.exampleDB.store.groups.length : Int) ≤ lsize →
        ∃ items total, handlers.exampleDB.GetGroups 1 lsize = .ok (items, total) ∧
          group ∈ items) :=
  C22_word_count_consistent handlers.exampleDB 1 1 100
    ⟨⟨1, "Greetings"⟩, by decide, rfl⟩ (by decide) (by decide) (by decide) (by decide)
    (by decide) (by decide)

end Pengyou
